import Mathlib

/-!
# FreelanceFinder: application / project workflow

A shallow embedding of the Express/Mongoose backend under
`Project Files/server`: the two collections (`Project`, `Application`), the
Mongoose calls the routes make on them, the `protect` / `authorizeRoles`
middleware and the route handlers of `routes/applicationRoutes.js`,
`routes/projectRoutes.js`, `routes/adminRoutes.js` and `routes/messageRoutes.js`.

Conventions of the embedding

* A collection is the list of its documents in insertion order; a query that
  returns one document returns the first match.
* An `ObjectId` is a natural number.  An identifier that arrives in a request
  is an `IdParam`: a string that casts to an `ObjectId`, or one that does not.
* Status and role fields are strings, as in the schemas; the `enum`
  validators of the schemas are run where Mongoose runs them, on `save`. The
  documents of a store are taken to satisfy their schema, as every route
  writes them through a validating `save`, so that on the `save` of a loaded
  document only a path the handler has modified can fail.
* A JavaScript number is held as the rational it denotes. `parseFloat` rounds
  the value it reads to the nearest binary64 value, as ECMAScript does; the
  total of the admin dashboard alone is computed without rounding.
* A handler is a function from the store and the request to the response and
  the store after the request.
* The `createdAt` / `updatedAt` bookkeeping of `timestamps: true` and the
  console logging are left out.
-/

namespace FreelanceFinder

/-! ## Data model -/

/-- Mongo document identifier. -/
abbrev ObjectId := Nat

/-- An identifier received in a URL or a body: `valid id` is a string that
casts to the ObjectId `id`, `invalid` one that Mongoose cannot cast. -/
inductive IdParam where
  | valid (id : ObjectId)
  | invalid
  deriving DecidableEq, Repr

/-- JavaScript number, as far as the routes look at it. A finite value is held
as the rational it denotes; negative zero is not told from zero. -/
inductive JsNumber where
  | nan
  | posInf
  | negInf
  | fin (q : ℚ)
  deriving DecidableEq

/-- The user document that `protect` attaches to the request (`models/User.js`
fields used by the routes: `id`, `role`). -/
structure User where
  id : ObjectId
  role : String
  deriving DecidableEq, Repr

/-- Document of `models/Project.js`. -/
structure Project where
  _id : ObjectId
  client : ObjectId
  title : String
  description : String
  budget : String
  status : String := "open"
  skillsRequired : List String := []
  assignedTo : Option ObjectId := none
  assignedAt : Option Nat := none
  deriving DecidableEq

/-- Document of `models/Application.js`. -/
structure Application where
  _id : ObjectId
  project : ObjectId
  freelancer : ObjectId
  bidAmount : JsNumber
  coverLetter : String
  status : String := "pending"
  applicationDate : Nat
  deriving DecidableEq

/-- The two collections the workflow reads and writes. -/
structure Store where
  projects : List Project
  applications : List Application
  deriving DecidableEq

/-- What a handler sends: the HTTP status, the `message` field of the JSON
body and, where the route returns them, the application and the project
populated into it. -/
structure Response where
  status : Nat
  message : String
  application : Option Application := none
  project : Option Project := none
  deriving DecidableEq

/-- The `enum` of `ApplicationSchema.status`. -/
def Application.statusEnum : List String :=
  ["pending", "accepted", "rejected", "withdrawn"]

/-- The `enum` of `ProjectSchema.status`. -/
def Project.statusEnum : List String :=
  ["open", "assigned", "in progress", "completed", "cancelled"]

/-! ## Mongoose calls -/

/-- Mongoose `Model.updateOne(filter, update)`: the first matching document is
updated. -/
def updateOne {α : Type} (filter : α → Bool) (update : α → α) : List α → List α
  | [] => []
  | x :: xs => if filter x then update x :: xs else x :: updateOne filter update xs

/-- Mongoose `Model.updateMany(filter, update)`: every matching document is updated. -/
def updateMany {α : Type} (filter : α → Bool) (update : α → α) (xs : List α) : List α :=
  xs.map (fun x => if filter x then update x else x)

/-- Mongoose `Project.findById(id)`. -/
def Project.findById (projects : List Project) (id : ObjectId) : Option Project :=
  projects.find? (fun p => p._id == id)

/-- Mongoose `Application.findById(id)`. -/
def Application.findById (applications : List Application) (id : ObjectId) :
    Option Application :=
  applications.find? (fun a => a._id == id)

/-- Mongoose `Application.findOne({ project, freelancer })`. -/
def Application.findOne (applications : List Application) (project freelancer : ObjectId) :
    Option Application :=
  applications.find? (fun a => a.project == project && a.freelancer == freelancer)

/-! ## Middleware (`middleware/authMiddleware.js`) -/

/-- What the bearer token of a request resolves to in `protect`. -/
inductive Auth where
  | noToken
  | tokenFailed
  | userNotFound
  | ok (user : User)
  deriving DecidableEq

/-- Middleware `protect`: `Except.ok u` is `req.user = u; next()`, `Except.error r` is
the response sent instead. -/
def protect : Auth → Except Response User
  | .noToken => .error { status := 401, message := "Not authorized, no token" }
  | .tokenFailed => .error { status := 401, message := "Not authorized, token failed" }
  | .userNotFound => .error { status := 401, message := "Not authorized, user not found" }
  | .ok user => .ok user

/-- Middleware `authorizeRoles(...roles)` applied to a request whose `req.user` is
`user`: `Except.ok ()` is `next()`, `Except.error r` the response sent. -/
def authorizeRoles (roles : List String) (user : Option User) : Except Response Unit :=
  match user with
  | none =>
    .error { status := 403, message := "User role N/A is not authorized to access this route" }
  | some u =>
    if roles.contains u.role then .ok ()
    else .error { status := 403,
                  message := "User role " ++ u.role ++ " is not authorized to access this route" }

/-! ## `PUT /api/applications/:id/status` -/

/-- The tail of the handler, lines 296-305: `application.status = status;
await application.save()`, then the re-read that is sent back. `save` writes
only a modified path, and the stored document is taken to satisfy the schema,
so that `status` is the one path whose validator can fail: an unchanged status
writes nothing, a changed one outside the schema's enum raises a
`ValidationError`, which the `catch` block turns into a 500. -/
def saveApplicationStatus (db : Store) (application : Application) (status : String) :
    Response × Store :=
  if status ≠ application.status ∧ ¬ Application.statusEnum.contains status then
    ({ status := 500, message := "Server error: Could not update application status." }, db)
  else
    let applications :=
      if status = application.status then db.applications
      else updateOne (fun a => a._id == application._id)
        (fun a => { a with status := status }) db.applications
    let db1 : Store := { db with applications := applications }
    let updatedApplication := Application.findById db1.applications application._id
    ({ status := 200,
       message := "Application status updated to " ++ status ++ ".",
       application := updatedApplication,
       project := updatedApplication.bind (fun a => Project.findById db1.projects a.project) },
     db1)

/-- The filter of the `Application.updateMany` call of the accept branch:
`{ project: application.project._id, _id: { $ne: applicationId }, status: 'pending' }`. -/
def otherPending (projectId applicationId : ObjectId) (a : Application) : Bool :=
  a.project == projectId && a._id != applicationId && a.status == "pending"

/-- The handler of `router.put('/:id/status')`, run for the user `user` that
the middleware let through. -/
def updateApplicationStatus (db : Store) (user : User) (id : IdParam) (status : String) :
    Response × Store :=
  match id with
  | .invalid => ({ status := 400, message := "Invalid Application ID." }, db)
  | .valid applicationId =>
    match Application.findById db.applications applicationId with
    | none => ({ status := 404, message := "Application not found." }, db)
    | some application =>
      match Project.findById db.projects application.project with
      | none => ({ status := 403, message := "Not authorized to update this application." }, db)
      | some project =>
        if project.client ≠ user.id ∧ user.role ≠ "admin" then
          ({ status := 403, message := "Not authorized to update this application." }, db)
        else if project.status = "completed" then
          ({ status := 400,
             message := "Cannot change application status for a completed project." }, db)
        else if status = "accepted" then
          if project.assignedTo.isSome then
            ({ status := 400, message := "Project is already assigned to a freelancer." }, db)
          else
            let applications := updateMany (otherPending project._id applicationId)
              (fun a => { a with status := "rejected" }) db.applications
            let projects := updateOne (fun p => p._id == project._id)
              (fun p => { p with assignedTo := some application.freelancer, status := "assigned" })
              db.projects
            saveApplicationStatus { projects := projects, applications := applications }
              application status
        else
          saveApplicationStatus db application status

/-- The route `PUT /api/applications/:id/status`:
`protect, authorizeRoles('client', 'admin')`, then the handler. -/
def putApplicationStatus (db : Store) (auth : Auth) (id : IdParam) (status : String) :
    Response × Store :=
  match protect auth with
  | .error r => (r, db)
  | .ok user =>
    match authorizeRoles ["client", "admin"] (some user) with
    | .error r => (r, db)
    | .ok _ => updateApplicationStatus db user id status

/-! ## `POST /api/applications` -/

/-- A field of the JSON body where the route expects a number: a JSON number
or a JSON string. -/
inductive JsonValue where
  | num (q : ℚ)
  | str (s : String)
  deriving DecidableEq

/-- The `StrWhiteSpaceChar` of ECMAScript: what `parseFloat` skips in front. -/
def isStrWhiteSpaceChar (c : Char) : Bool :=
  [9, 10, 11, 12, 13, 32, 0xA0, 0x1680, 0x2028, 0x2029, 0x202F, 0x205F, 0x3000, 0xFEFF].contains
    c.toNat || (0x2000 ≤ c.toNat && c.toNat ≤ 0x200A)

/-- The `DecimalDigit` of ECMAScript: `0` to `9`. -/
def isDecimalDigit (c : Char) : Bool :=
  48 ≤ c.toNat && c.toNat ≤ 57

/-- Value of a run of decimal digits. -/
def digitsValue (ds : List Char) : Nat :=
  ds.foldl (fun n c => 10 * n + (c.toNat - 48)) 0

/-- The `ExponentPart` in front of `cs`, if there is one: `e` or `E`, an
optional sign and at least one digit. Otherwise the exponent is `0`. -/
def exponentPart (cs : List Char) : Int :=
  match cs with
  | c :: r =>
    if c = 'e' ∨ c = 'E' then
      match r with
      | '-' :: r1 =>
        if (r1.takeWhile isDecimalDigit).isEmpty then 0
        else - (digitsValue (r1.takeWhile isDecimalDigit) : Int)
      | '+' :: r1 => (digitsValue (r1.takeWhile isDecimalDigit) : Int)
      | _ => (digitsValue (r.takeWhile isDecimalDigit) : Int)
    else 0
  | [] => 0

/-- The longest prefix of `cs` that is a `StrUnsignedDecimalLiteral` other
than `Infinity`, as the pair of its digits read as one integer and its power
of ten; `none` when no prefix is one. -/
def unsignedDecimal (cs : List Char) : Option (Nat × Int) :=
  let ip := cs.takeWhile isDecimalDigit
  let r1 := cs.dropWhile isDecimalDigit
  let fp := match r1 with
    | '.' :: r => r.takeWhile isDecimalDigit
    | _ => []
  let r2 := match r1 with
    | '.' :: r => r.dropWhile isDecimalDigit
    | _ => r1
  if ip.isEmpty ∧ fp.isEmpty then none
  else some (digitsValue (ip ++ fp), exponentPart r2 - (fp.length : Int))

/-- The number `m * 10 ^ e`. -/
def decimalValue (m : Nat) (e : Int) : ℚ :=
  (m : ℚ) * (10 : ℚ) ^ e

/-- The literal that JavaScript `parseFloat` reads from the characters left
after the white space, with its mathematical value, before that value is
rounded to a Number. -/
def parseFloatChars (cs : List Char) : JsNumber :=
  match cs with
  | '-' :: r =>
    match r with
    | 'I' :: 'n' :: 'f' :: 'i' :: 'n' :: 'i' :: 't' :: 'y' :: _ => .negInf
    | _ => match unsignedDecimal r with
      | some (m, e) => .fin (- decimalValue m e)
      | none => .nan
  | '+' :: r =>
    match r with
    | 'I' :: 'n' :: 'f' :: 'i' :: 'n' :: 'i' :: 't' :: 'y' :: _ => .posInf
    | _ => match unsignedDecimal r with
      | some (m, e) => .fin (decimalValue m e)
      | none => .nan
  | 'I' :: 'n' :: 'f' :: 'i' :: 'n' :: 'i' :: 't' :: 'y' :: _ => .posInf
  | _ => match unsignedDecimal cs with
    | some (m, e) => .fin (decimalValue m e)
    | none => .nan

/-- The mathematical value that JavaScript `parseFloat(v)` reads: a number of
the body is read from its own text, a string up to the end of its longest
numeric prefix. -/
def parseFloatMV : JsonValue → JsNumber
  | .num q => .fin q
  | .str s => parseFloatChars (s.toList.dropWhile isStrWhiteSpaceChar)

/-- The integer nearest to `n / d`, the even one of the two on a tie. -/
def roundHalfEven (n d : Nat) : Nat :=
  if 2 * (n % d) < d then n / d
  else if d < 2 * (n % d) then n / d + 1
  else if (n / d) % 2 = 0 then n / d else n / d + 1

/-- The binary digits of `n` counted onto `acc`, at most `fuel` of them. -/
def bitLengthAux : Nat → Nat → Nat → Nat
  | 0, _, acc => acc
  | fuel + 1, n, acc => if n = 0 then acc else bitLengthAux fuel (n / 2) (acc + 1)

/-- The number of binary digits of `n`. -/
def bitLength (n : Nat) : Nat :=
  bitLengthAux n n 0

/-- The exponent `e` with `2 ^ e ≤ n / d < 2 ^ (e + 1)`, for `n` and `d`
positive: the difference of the bit lengths, or one less. -/
def floorLog2 (n d : Nat) : Int :=
  let e0 : Int := (bitLength n : Int) - (bitLength d : Int)
  if 0 ≤ e0 then (if d * 2 ^ e0.toNat ≤ n then e0 else e0 - 1)
  else (if d ≤ n * 2 ^ (-e0).toNat then e0 else e0 - 1)

/-- The binary64 value nearest to `n / d`, for `n` and `d` positive, ties to
even: 53 significant bits, the exponent not below `-1022` (under it the values
are the multiples of `2 ^ (-1074)`); `none` when the rounded value reaches
`2 ^ 1024`, which is the overflow to `Infinity`. -/
def roundBinary64 (n d : Nat) : Option ℚ :=
  let s : Int := max (floorLog2 n d) (-1022) - 52
  if 0 ≤ s then
    let v := roundHalfEven n (d * 2 ^ s.toNat) * 2 ^ s.toNat
    if 2 ^ 1024 ≤ v then none else some (v : ℚ)
  else
    some (mkRat (roundHalfEven (n * 2 ^ (-s).toNat) d) (2 ^ (-s).toNat))

/-- The Number of a mathematical value: the rounding of ECMAScript to the
nearest binary64 value, `Infinity` past the largest one. -/
def toBinary64 (q : ℚ) : JsNumber :=
  if q = 0 then .fin 0
  else
    match roundBinary64 q.num.natAbs q.den with
    | none => if q < 0 then .negInf else .posInf
    | some r => .fin (if q < 0 then - r else r)

/-- Rounding of a result that may already be `NaN` or infinite. -/
def JsNumber.toBinary64 : JsNumber → JsNumber
  | .fin q => FreelanceFinder.toBinary64 q
  | x => x

/-- JavaScript `parseFloat(v)`: the value read, rounded to a Number. A number of
the body is a binary64 value already (`JSON.parse` has rounded its literal the
same way) and is read back from its own text unchanged. -/
def parseFloat (v : JsonValue) : JsNumber :=
  (parseFloatMV v).toBinary64

/-- JavaScript `isNaN(x)`. -/
def JsNumber.isNaN : JsNumber → Bool
  | .nan => true
  | _ => false

/-- JavaScript `x <= 0`. -/
def JsNumber.leZero : JsNumber → Bool
  | .nan => false
  | .posInf => false
  | .negInf => true
  | .fin q => decide (q ≤ 0)

/-- The body of `POST /api/applications`. `projectId = none` is an absent or
falsy `projectId`; `none` in the other two fields is `undefined`. -/
structure ApplicationBody where
  projectId : Option IdParam
  bidAmount : Option JsonValue
  coverLetter : Option String
  deriving DecidableEq

/-- Mongoose `newApplication.save()` for a new document: the schema validation
(`coverLetter` is required, and a required string is a non-empty one;
`bidAmount` is at least 0), then the insert, which the unique indexes on `_id`
and on `(project, freelancer)` can refuse. The `catch` block of the route maps
the three failures to 400, 500 and 409. -/
def saveNewApplication (db : Store) (newApplication : Application) : Response × Store :=
  if newApplication.coverLetter = "" then
    ({ status := 400, message := "Validation failed: Path `coverLetter` is required." }, db)
  else if newApplication.bidAmount.isNaN ∨ (newApplication.bidAmount.leZero ∧
      newApplication.bidAmount ≠ .fin 0) then
    ({ status := 400, message := "Validation failed: Bid amount cannot be negative." }, db)
  else if db.applications.any (fun a => a._id == newApplication._id) then
    ({ status := 500, message := "Server error: Could not submit application." }, db)
  else if db.applications.any
      (fun a => a.project == newApplication.project && a.freelancer == newApplication.freelancer) then
    ({ status := 409, message := "You have already applied for this project." }, db)
  else
    ({ status := 201, message := "Application submitted successfully!",
       application := some newApplication },
     { db with applications := db.applications ++ [newApplication] })

/-- The handler of `router.post('/')`. `reqUser` is `req.user`; `newId` is the
ObjectId the driver generates for the new document and `now` the value of
`Date.now` at that moment. -/
def createApplication (db : Store) (reqUser : Option User) (body : ApplicationBody)
    (newId : ObjectId) (now : Nat) : Response × Store :=
  match body.projectId, body.bidAmount, body.coverLetter with
  | some projectId, some bidAmount, some coverLetter =>
    match reqUser.map (fun u => u.id) with
    | none =>
      ({ status := 401, message := "Freelancer ID is missing. User must be logged in." }, db)
    | some freelancerId =>
      match projectId with
      | .invalid => ({ status := 400, message := "Invalid Project ID format provided." }, db)
      | .valid projectId =>
        let parsedBidAmount := parseFloat bidAmount
        if parsedBidAmount.isNaN || parsedBidAmount.leZero then
          ({ status := 400, message := "Bid amount must be a positive number." }, db)
        else
          match Application.findOne db.applications projectId freelancerId with
          | some _ =>
            ({ status := 400, message := "You have already applied for this project." }, db)
          | none =>
            match Project.findById db.projects projectId with
            | none =>
              ({ status := 404, message := "Project not found or may have been deleted." }, db)
            | some project =>
              if project.status ≠ "open" then
                ({ status := 400,
                   message := "This project is not currently open for applications. " ++
                     "Current status: " ++ project.status }, db)
              else
                saveNewApplication db
                  { _id := newId, project := projectId, freelancer := freelancerId,
                    bidAmount := parsedBidAmount, coverLetter := coverLetter,
                    status := "pending", applicationDate := now }
  | _, _, _ =>
    ({ status := 400, message := "Please provide project ID, bid amount, and cover letter." }, db)

/-- The route `POST /api/applications`: `protect, authorizeRoles('freelancer')`,
then the handler. -/
def postApplication (db : Store) (auth : Auth) (body : ApplicationBody)
    (newId : ObjectId) (now : Nat) : Response × Store :=
  match protect auth with
  | .error r => (r, db)
  | .ok user =>
    match authorizeRoles ["freelancer"] (some user) with
    | .error r => (r, db)
    | .ok _ => createApplication db (some user) body newId now

/-! ## `DELETE /api/applications/:id` -/

/-- Mongoose `Model.deleteOne(filter)`: the first matching document is
removed. -/
def deleteOne {α : Type} (filter : α → Bool) : List α → List α
  | [] => []
  | x :: xs => if filter x then xs else x :: deleteOne filter xs

/-- Mongoose `Model.deleteMany(filter)`: every matching document is removed. -/
def deleteMany {α : Type} (filter : α → Bool) (xs : List α) : List α :=
  xs.filter (fun x => !filter x)

/-- The handler of `router.delete('/:id')` of `applicationRoutes.js`, run for
the user the middleware let through. -/
def removeApplication (db : Store) (user : User) (id : IdParam) : Response × Store :=
  match id with
  | .invalid => ({ status := 400, message := "Invalid application ID." }, db)
  | .valid applicationId =>
    match Application.findById db.applications applicationId with
    | none => ({ status := 404, message := "Application not found." }, db)
    | some application =>
      if application.freelancer ≠ user.id ∧ user.role ≠ "admin" then
        ({ status := 403, message := "Not authorized to delete this application." }, db)
      else
        ({ status := 200, message := "Application deleted successfully!" },
         { db with applications := deleteOne (fun a => a._id == applicationId) db.applications })

/-- The route `DELETE /api/applications/:id`:
`protect, authorizeRoles('freelancer', 'admin')`, then the handler. -/
def deleteApplication (db : Store) (auth : Auth) (id : IdParam) : Response × Store :=
  match protect auth with
  | .error r => (r, db)
  | .ok user =>
    match authorizeRoles ["freelancer", "admin"] (some user) with
    | .error r => (r, db)
    | .ok _ => removeApplication db user id

/-! ## `routes/projectRoutes.js` -/

/-- JavaScript `String.prototype.trim`, which the `trim: true` of the `title`
path applies. -/
def jsTrim (s : String) : String :=
  String.mk ((s.toList.dropWhile isStrWhiteSpaceChar).reverse.dropWhile
    isStrWhiteSpaceChar).reverse

/-- JavaScript `v || d` for a string field `v` of the body that may be absent:
the field when it is a non-empty string, `d` otherwise. -/
def jsOr (v : Option String) (d : String) : String :=
  match v with
  | some s => if s = "" then d else s
  | none => d

/-- The body of `POST /api/projects`; `none` is an absent field. -/
structure ProjectBody where
  title : Option String
  description : Option String
  budget : Option String
  skillsRequired : Option (List String)
  deriving DecidableEq

/-- The handler of `router.post('/')`: the new project belongs to the caller,
is `open` and unassigned by the defaults of the schema. `newId` is the
ObjectId generated for it. A title that is empty once trimmed fails the
`required` validator (400); an id already in use fails the insert (500). -/
def createProject (db : Store) (user : User) (body : ProjectBody) (newId : ObjectId) :
    Response × Store :=
  if jsOr body.title "" = "" ∨ jsOr body.description "" = "" ∨ jsOr body.budget "" = "" then
    ({ status := 400,
       message := "Please enter all required fields: title, description, and budget." }, db)
  else if jsTrim (jsOr body.title "") = "" then
    ({ status := 400, message := "Validation failed: Path `title` is required." }, db)
  else if db.projects.any (fun p => p._id == newId) then
    ({ status := 500, message := "Server error: Could not post project." }, db)
  else
    ({ status := 201, message := "Project posted successfully!",
       project := some
         { _id := newId, client := user.id, title := jsTrim (jsOr body.title ""),
           description := jsOr body.description "", budget := jsOr body.budget "",
           status := "open", skillsRequired := body.skillsRequired.getD [],
           assignedTo := none, assignedAt := none } },
     { projects := db.projects ++
         [{ _id := newId, client := user.id, title := jsTrim (jsOr body.title ""),
            description := jsOr body.description "", budget := jsOr body.budget "",
            status := "open", skillsRequired := body.skillsRequired.getD [],
            assignedTo := none, assignedAt := none }],
       applications := db.applications })

/-- The route `POST /api/projects`: `protect, authorizeRoles('client')`, then
the handler. -/
def postProject (db : Store) (auth : Auth) (body : ProjectBody) (newId : ObjectId) :
    Response × Store :=
  match protect auth with
  | .error r => (r, db)
  | .ok user =>
    match authorizeRoles ["client"] (some user) with
    | .error r => (r, db)
    | .ok _ => createProject db user body newId

/-- The body of `PUT /api/projects/:id`. For `assignedTo`, `none` is
`undefined`, `some none` is `null` and `some (some v)` a value. -/
structure ProjectUpdateBody where
  title : Option String
  description : Option String
  budget : Option String
  skillsRequired : Option (List String)
  assignedTo : Option (Option IdParam)
  deriving DecidableEq

/-- The assignments of lines 267-270 of `projectRoutes.js` applied to a
project. -/
def applyProjectUpdate (project : Project) (body : ProjectUpdateBody) : Project :=
  { project with
    title := jsTrim (jsOr body.title project.title)
    description := jsOr body.description project.description
    budget := jsOr body.budget project.budget
    skillsRequired := body.skillsRequired.getD project.skillsRequired }

/-- The `project.save()` of the general update: a title that was changed and
is empty once trimmed fails the `required` validator (400); otherwise the
document is written. -/
def saveProjectUpdate (db : Store) (old project : Project) : Response × Store :=
  if project.title ≠ old.title ∧ project.title = "" then
    ({ status := 400, message := "Validation failed: Path `title` is required." }, db)
  else
    ({ status := 200, message := "Project updated successfully!", project := some project },
     { db with projects := updateOne (fun q => q._id == old._id) (fun _ => project) db.projects })

/-- The handler of `router.put('/:id')` of `projectRoutes.js`. -/
def updateProject (db : Store) (user : User) (id : IdParam) (body : ProjectUpdateBody) :
    Response × Store :=
  match id with
  | .invalid => ({ status := 400, message := "Invalid Project ID format." }, db)
  | .valid projectId =>
    match Project.findById db.projects projectId with
    | none => ({ status := 404, message := "Project not found" }, db)
    | some project =>
      if project.client ≠ user.id ∧ user.role ≠ "admin" then
        ({ status := 401, message := "Not authorized to update this project." }, db)
      else
        match body.assignedTo with
        | none => saveProjectUpdate db project (applyProjectUpdate project body)
        | some none =>
          saveProjectUpdate db project
            { applyProjectUpdate project body with assignedTo := none }
        | some (some .invalid) =>
          ({ status := 400, message := "Invalid assignedTo user ID format." }, db)
        | some (some (.valid assignee)) =>
          saveProjectUpdate db project
            { applyProjectUpdate project body with assignedTo := some assignee }

/-- The route `PUT /api/projects/:id`:
`protect, authorizeRoles('client', 'admin')`, then the handler. -/
def putProject (db : Store) (auth : Auth) (id : IdParam) (body : ProjectUpdateBody) :
    Response × Store :=
  match protect auth with
  | .error r => (r, db)
  | .ok user =>
    match authorizeRoles ["client", "admin"] (some user) with
    | .error r => (r, db)
    | .ok _ => updateProject db user id body

/-- The statuses `PUT /api/projects/:id/status` accepts. -/
def allowedProjectStatuses : List String :=
  ["open", "assigned", "in progress", "completed"]

/-- JavaScript `toLowerCase`, as far as the status edit depends on it: the
letters `A` to `Z` are lowered and every other character is kept. (No other
character is lowered to a letter of one of the four accepted values.) -/
def toLowerCase (s : String) : String :=
  String.mk (s.toList.map
    (fun c => if 65 ≤ c.toNat && c.toNat ≤ 90 then Char.ofNat (c.toNat + 32) else c))

/-- The handler of `router.put('/:id/status')` of `projectRoutes.js`; `status`
is `none` when the body has none. -/
def updateProjectStatus (db : Store) (user : User) (id : IdParam) (status : Option String) :
    Response × Store :=
  match id with
  | .invalid => ({ status := 400, message := "Invalid Project ID format." }, db)
  | .valid projectId =>
    match Project.findById db.projects projectId with
    | none => ({ status := 404, message := "Project not found." }, db)
    | some project =>
      if project.client ≠ user.id ∧ user.role ≠ "admin" then
        ({ status := 403, message := "Not authorized to update this project status." }, db)
      else
        match status with
        | some st =>
          if st ≠ "" ∧ allowedProjectStatuses.contains (toLowerCase st) then
            ({ status := 200,
               message := "Project status updated to " ++ toLowerCase st ++ ".",
               project := some { project with status := toLowerCase st } },
             { projects := updateOne (fun q => q._id == project._id)
                 (fun q => { q with status := toLowerCase st }) db.projects,
               applications := db.applications })
          else
            ({ status := 400,
               message := "Invalid status provided. Allowed statuses: open, assigned, " ++
                 "in progress, completed." }, db)
        | none =>
          ({ status := 400,
             message := "Invalid status provided. Allowed statuses: open, assigned, " ++
               "in progress, completed." }, db)

/-- The route `PUT /api/projects/:id/status`:
`protect, authorizeRoles('client', 'admin')`, then the handler. -/
def putProjectStatus (db : Store) (auth : Auth) (id : IdParam) (status : Option String) :
    Response × Store :=
  match protect auth with
  | .error r => (r, db)
  | .ok user =>
    match authorizeRoles ["client", "admin"] (some user) with
    | .error r => (r, db)
    | .ok _ => updateProjectStatus db user id status

/-- The handler of `router.delete('/:id')` of `projectRoutes.js`: the
applications of the project are deleted first, then the project. -/
def removeProject (db : Store) (user : User) (id : IdParam) : Response × Store :=
  match id with
  | .invalid => ({ status := 400, message := "Invalid Project ID format." }, db)
  | .valid projectId =>
    match Project.findById db.projects projectId with
    | none => ({ status := 404, message := "Project not found" }, db)
    | some project =>
      if project.client ≠ user.id ∧ user.role ≠ "admin" then
        ({ status := 401, message := "Not authorized to delete this project." }, db)
      else
        ({ status := 200, message := "Project and associated applications deleted successfully!" },
         { projects := deleteOne (fun q => q._id == projectId) db.projects,
           applications := deleteMany (fun a => a.project == projectId) db.applications })

/-- The route `DELETE /api/projects/:id`:
`protect, authorizeRoles('client', 'admin')`, then the handler. -/
def deleteProject (db : Store) (auth : Auth) (id : IdParam) : Response × Store :=
  match protect auth with
  | .error r => (r, db)
  | .ok user =>
    match authorizeRoles ["client", "admin"] (some user) with
    | .error r => (r, db)
    | .ok _ => removeProject db user id

/-! ## `DELETE /api/admin/users/:id` -/

/-- The three collections: the users, and the store of projects and
applications. -/
structure Database where
  users : List User
  store : Store
  deriving DecidableEq

/-- Mongoose `User.findById(id)`. -/
def User.findById (users : List User) (id : ObjectId) : Option User :=
  users.find? (fun u => u.id == id)

/-- The loop of lines 85-90 of `adminRoutes.js` over the projects of the
deleted client: for each one its applications are deleted, then the project. -/
def deleteClientProjects (clientProjects : List Project) (db : Store) : Store :=
  clientProjects.foldl
    (fun acc project =>
      { projects := deleteOne (fun q => q._id == project._id) acc.projects,
        applications := deleteMany (fun a => a.project == project._id) acc.applications })
    db

/-- The handler of `router.delete('/users/:id')`: the cascade that depends on
the role of the deleted user, then the user itself. -/
def removeUser (s : Database) (id : IdParam) : Response × Database :=
  match id with
  | .invalid => ({ status := 400, message := "Invalid User ID." }, s)
  | .valid userId =>
    match User.findById s.users userId with
    | none => ({ status := 404, message := "User not found." }, s)
    | some user =>
      let store1 : Store :=
        if user.role = "client" then
          deleteClientProjects (s.store.projects.filter (fun p => p.client == userId)) s.store
        else if user.role = "freelancer" then
          { projects := updateMany (fun p => p.assignedTo == some userId)
              (fun p => { p with assignedTo := none, status := "open" }) s.store.projects,
            applications := deleteMany (fun a => a.freelancer == userId) s.store.applications }
        else s.store
      ({ status := 200, message := "User deleted successfully." },
       { users := deleteOne (fun u => u.id == userId) s.users, store := store1 })

/-- The route `DELETE /api/admin/users/:id`: `protect, authorizeRoles('admin')`,
then the handler. -/
def deleteUser (s : Database) (auth : Auth) (id : IdParam) : Response × Database :=
  match protect auth with
  | .error r => (r, s)
  | .ok user =>
    match authorizeRoles ["admin"] (some user) with
    | .error r => (r, s)
    | .ok _ => removeUser s id

/-! ## The server (`server.js`) -/

/-- A request to one of the eight routes that write the `Project` or the
`Application` collection. -/
inductive Request where
  | postApplication (auth : Auth) (body : ApplicationBody) (newId : ObjectId) (now : Nat)
  | putApplicationStatus (auth : Auth) (id : IdParam) (status : String)
  | deleteApplication (auth : Auth) (id : IdParam)
  | postProject (auth : Auth) (body : ProjectBody) (newId : ObjectId)
  | putProject (auth : Auth) (id : IdParam) (body : ProjectUpdateBody)
  | putProjectStatus (auth : Auth) (id : IdParam) (status : Option String)
  | deleteProject (auth : Auth) (id : IdParam)
  | deleteUser (auth : Auth) (id : IdParam)

/-- The router of `server.js` on these requests. -/
def serve (s : Database) : Request → Response × Database
  | .postApplication auth body newId now =>
    ((postApplication s.store auth body newId now).1,
     { s with store := (postApplication s.store auth body newId now).2 })
  | .putApplicationStatus auth id status =>
    ((putApplicationStatus s.store auth id status).1,
     { s with store := (putApplicationStatus s.store auth id status).2 })
  | .deleteApplication auth id =>
    ((deleteApplication s.store auth id).1, { s with store := (deleteApplication s.store auth id).2 })
  | .postProject auth body newId =>
    ((postProject s.store auth body newId).1,
     { s with store := (postProject s.store auth body newId).2 })
  | .putProject auth id body =>
    ((putProject s.store auth id body).1, { s with store := (putProject s.store auth id body).2 })
  | .putProjectStatus auth id status =>
    ((putProjectStatus s.store auth id status).1,
     { s with store := (putProjectStatus s.store auth id status).2 })
  | .deleteProject auth id =>
    ((deleteProject s.store auth id).1, { s with store := (deleteProject s.store auth id).2 })
  | .deleteUser auth id => deleteUser s auth id

/-- The database after a sequence of requests. -/
def serveAll (s : Database) (requests : List Request) : Database :=
  requests.foldl (fun acc r => (serve acc r).2) s

/-! ## `POST /api/messages` -/

/-- Document of `models/Message.js`. -/
structure Message where
  _id : ObjectId
  sender : ObjectId
  receiver : Option ObjectId := none
  project : ObjectId
  content : String
  timestamp : Nat
  read : Bool := false
  deriving DecidableEq

/-- The body of `POST /api/messages`. `projectId = none` is an absent or falsy
`projectId`, `content = none` an absent `content`. -/
structure MessageBody where
  projectId : Option IdParam
  content : Option String
  deriving DecidableEq

/-- Mongoose `newMessage.save()` for a new document, whose `content` the
setter of the schema has trimmed: an empty `content` fails the `required`
validator and an id in use fails the insert, and `save` throws (`none`);
otherwise the document is appended to the collection. -/
def saveNewMessage (messages : List Message) (newMessage : Message) : Option (List Message) :=
  if newMessage.content = "" then none
  else if messages.any (fun m => m._id == newMessage._id) then none
  else some (messages ++ [newMessage])

/-- Line 64, `await message.populate('sender', 'username').execPopulate()`.
The server runs Mongoose 6 or later (the comments of `db.js`), where
`populate` on a document returns a promise and `execPopulate` is no longer
defined: the call throws a `TypeError` (`none`), after the save. -/
def execPopulate (_message : Message) : Option Message :=
  none

/-- Lines 54-75 of `messageRoutes.js`: the save, the populate of line 64 and the
201, inside the `try` whose `catch` answers 500 to every error that is not a
cast error. What `save` has written stays written when a later line throws. -/
def saveAndRespond (messages : List Message) (newMessage : Message) :
    Response × List Message :=
  match saveNewMessage messages newMessage with
  | none => ({ status := 500, message := "Server error: Could not send message." }, messages)
  | some stored =>
    match execPopulate newMessage with
    | none => ({ status := 500, message := "Server error: Could not send message." }, stored)
    | some _ => ({ status := 201, message := "Message sent successfully!" }, stored)

/-- The handler of `router.post('/')` of `messageRoutes.js`, run for the user
`protect` attached. It reads the projects and writes the messages; `newId` is
the ObjectId generated for the new document and `now` the value of `Date.now`. -/
def sendMessage (projects : List Project) (messages : List Message) (user : User)
    (body : MessageBody) (newId : ObjectId) (now : Nat) : Response × List Message :=
  match body.projectId with
  | none =>
    ({ status := 400, message := "Project ID and message content are required." }, messages)
  | some projectId =>
    if jsOr body.content "" = "" then
      ({ status := 400, message := "Project ID and message content are required." }, messages)
    else
      match projectId with
      | .invalid => ({ status := 400, message := "Invalid Project ID or User ID." }, messages)
      | .valid pid =>
        match Project.findById projects pid with
        | none => ({ status := 404, message := "Project not found." }, messages)
        | some project =>
          let isClient : Bool := project.client == user.id
          let isAssignedFreelancer : Bool := project.assignedTo == some user.id
          if !isClient && !isAssignedFreelancer then
            ({ status := 403, message := "Not authorized to send messages for this project." },
             messages)
          else if isClient && project.assignedTo.isSome then
            saveAndRespond messages
              { _id := newId, sender := user.id, receiver := project.assignedTo, project := pid,
                content := jsTrim (jsOr body.content ""), timestamp := now, read := false }
          else if isAssignedFreelancer then
            saveAndRespond messages
              { _id := newId, sender := user.id, receiver := some project.client, project := pid,
                content := jsTrim (jsOr body.content ""), timestamp := now, read := false }
          else
            ({ status := 400, message := "Project is not assigned yet. Cannot initiate chat." },
             messages)

/-- The route `POST /api/messages`: `protect`, then the handler. -/
def postMessage (projects : List Project) (messages : List Message) (auth : Auth)
    (body : MessageBody) (newId : ObjectId) (now : Nat) : Response × List Message :=
  match protect auth with
  | .error r => (r, messages)
  | .ok user => sendMessage projects messages user body newId now

/-! ## `GET /api/admin/dashboard-stats` -/

/-- JavaScript `x || 0` on a number: `NaN` and `0` give `0`. -/
def JsNumber.orZero : JsNumber → JsNumber
  | .nan => .fin 0
  | x => x

/-- JavaScript `x + y` on numbers. -/
def JsNumber.add : JsNumber → JsNumber → JsNumber
  | .fin a, .fin b => .fin (a + b)
  | .nan, _ => .nan
  | _, .nan => .nan
  | .posInf, .negInf => .nan
  | .negInf, .posInf => .nan
  | .posInf, _ => .posInf
  | _, .posInf => .posInf
  | .negInf, _ => .negInf
  | _, .negInf => .negInf

/-- JavaScript `s.replace(/[^0-9.]/g, '')`: the digits and the dots of `s`. -/
def stripNonNumeric (s : String) : String :=
  String.mk (s.toList.filter (fun c => isDecimalDigit c || c == '.'))

/-- The `budgetValue` of line 32 of `adminRoutes.js`:
`parseFloat(project.budget.replace(/[^0-9.]/g, '')) || 0`. The dashboard figure
is computed on the exact values read: the rounding to binary64 of the value
parsed and of each `+` of the `reduce` is left out. -/
def budgetValue (budget : String) : JsNumber :=
  (parseFloatMV (.str (stripNonNumeric budget))).orZero

/-- The `totalRevenue` of lines 25-34 of `adminRoutes.js`: the `reduce` over
the projects found with status `completed`. -/
def totalRevenue (projects : List Project) : JsNumber :=
  (projects.filter (fun p => p.status == "completed")).foldl
    (fun sum project => sum.add (budgetValue project.budget)) (.fin 0)

/-- The JSON of the dashboard. The route sends `totalRevenue.toFixed(2)`, the
decimal text of the number with two digits; the number is kept here. -/
structure DashboardStats where
  totalUsers : Nat
  activeProjects : Nat
  pendingApplications : Nat
  totalRevenue : JsNumber
  deriving DecidableEq

/-- The route `GET /api/admin/dashboard-stats`: `protect, authorizeRoles('admin')`,
then the four figures. -/
def getDashboardStats (s : Database) (auth : Auth) : Except Response DashboardStats :=
  match protect auth with
  | .error r => .error r
  | .ok user =>
    match authorizeRoles ["admin"] (some user) with
    | .error r => .error r
    | .ok _ =>
      .ok { totalUsers := s.users.length,
            activeProjects := (s.store.projects.filter
              (fun p => ["open", "assigned", "in progress"].contains p.status)).length,
            pendingApplications := (s.store.applications.filter
              (fun a => a.status == "pending")).length,
            totalRevenue := totalRevenue s.store.projects }

/-- The number the specification gives a budget string: the number read from
its digits and dots, or 0 when nothing parseable remains. -/
def budgetNumber (budget : String) : ℚ :=
  match unsignedDecimal (stripNonNumeric budget).toList with
  | some (m, e) => decimalValue m e
  | none => 0

/-! ## Store invariants -/

/-- Mongo keeps `_id` unique within each collection. -/
def Store.uniqueIds (db : Store) : Prop :=
  (db.projects.map (fun p => p._id)).Nodup ∧ (db.applications.map (fun a => a._id)).Nodup

instance (db : Store) : Decidable db.uniqueIds := by
  unfold Store.uniqueIds; infer_instance

/-- The uniqueness invariant of the specification: at most one application
per (project, freelancer) pair. -/
def Store.uniquePairs (db : Store) : Prop :=
  (db.applications.map (fun a => (a.project, a.freelancer))).Nodup

instance (db : Store) : Decidable db.uniquePairs := by
  unfold Store.uniquePairs; infer_instance

/-- The assignment invariant of the specification on one project: somebody is
assigned if and only if the status is `assigned`, `in progress` or
`completed`. -/
def Project.assignmentConsistent (p : Project) : Prop :=
  p.assignedTo.isSome = true ↔ p.status ∈ ["assigned", "in progress", "completed"]

instance (p : Project) : Decidable p.assignmentConsistent := by
  unfold Project.assignmentConsistent; infer_instance

/-- The assignment invariant on every project of the store. -/
def Store.assignmentInvariant (db : Store) : Prop :=
  ∀ p ∈ db.projects, p.assignmentConsistent

instance (db : Store) : Decidable db.assignmentInvariant := by
  unfold Store.assignmentInvariant; infer_instance

/-- The two requests that edit a project directly: the general update and the
status edit. -/
def Request.editsProject : Request → Bool
  | .putProject _ _ _ => true
  | .putProjectStatus _ _ _ => true
  | _ => false

/-! ## Scenarios

The store of the scenario of the specification: project `P1` of client `10`,
open, with the two pending applications `A1` (freelancer `20`) and `A2`
(freelancer `21`). -/

namespace Scenario

/-- The client who owns `P1`. -/
def client : User := { id := 10, role := "client" }

/-- Another client. -/
def otherClient : User := { id := 11, role := "client" }

/-- An administrator. -/
def admin : User := { id := 1, role := "admin" }

/-- Freelancer `F1`. -/
def freelancer1 : User := { id := 20, role := "freelancer" }

/-- A freelancer who has not applied yet. -/
def freelancer3 : User := { id := 22, role := "freelancer" }

/-- Project `P1`, open and unassigned. -/
def P1 : Project :=
  { _id := 1, client := 10, title := "Landing page", description := "Build it", budget := "$500" }

/-- Application `A1` of freelancer `20` on `P1`. -/
def A1 : Application :=
  { _id := 100, project := 1, freelancer := 20, bidAmount := .fin 500, coverLetter := "...",
    applicationDate := 1 }

/-- Application `A2` of freelancer `21` on `P1`. -/
def A2 : Application :=
  { _id := 101, project := 1, freelancer := 21, bidAmount := .fin 400, coverLetter := "...",
    applicationDate := 2 }

/-- Project `P1` with its two pending applications. -/
def twoPending : Store := { projects := [P1], applications := [A1, A2] }

/-- Project `P1` after a direct status edit to `assigned`: nobody is assigned. -/
def statusAssigned : Store :=
  { projects := [{ P1 with status := "assigned" }], applications := [A1, A2] }

/-- Project `P1` open, `A1` rejected earlier. -/
def oneRejected : Store :=
  { projects := [P1], applications := [{ A1 with status := "rejected" }, A2] }

/-- Project `P1` completed by freelancer `20`. -/
def completed : Store :=
  { projects := [{ P1 with status := "completed", assignedTo := some 20 }],
    applications := [{ A1 with status := "accepted" }, { A2 with status := "rejected" }] }

/-- An application whose project is not in the store. -/
def dangling : Store := { projects := [], applications := [A1] }

/-- Freelancer `F2`. -/
def freelancer2 : User := { id := 21, role := "freelancer" }

/-- The users of the scenario. -/
def users : List User := [admin, client, otherClient, freelancer1, freelancer2, freelancer3]

/-- A second project, of the other client, with an application of freelancer
`20`. -/
def P2 : Project :=
  { _id := 2, client := 11, title := "Logo", description := "Draw it", budget := "$100" }

/-- Application of freelancer `20` on `P2`. -/
def B1 : Application :=
  { _id := 200, project := 2, freelancer := 20, bidAmount := .fin 90, coverLetter := "...",
    applicationDate := 3 }

/-- Two projects: `P1` assigned to freelancer `20` through `A1`, `P2` open
with the pending application `B1`. -/
def twoProjects : Store :=
  { projects := [{ P1 with assignedTo := some 20, status := "assigned" }, P2],
    applications := [{ A1 with status := "accepted" }, { A2 with status := "rejected" }, B1] }

end Scenario

/-! ## Lemmas on the Mongoose calls -/

theorem updateOne_length {α : Type} (filter : α → Bool) (update : α → α) (xs : List α) :
    (updateOne filter update xs).length = xs.length := by
  induction xs with
  | nil => rfl
  | cons x xs ih =>
    unfold updateOne
    split <;> simp [ih]

theorem updateOne_getElem?_of_false {α : Type} (filter : α → Bool) (update : α → α)
    (xs : List α) (i : Nat) (b : α) (hb : xs[i]? = some b) (hf : filter b = false) :
    (updateOne filter update xs)[i]? = some b := by
  induction xs generalizing i with
  | nil => simp at hb
  | cons x xs ih =>
    unfold updateOne
    cases i with
    | zero =>
      simp at hb
      subst hb
      simp [hf]
    | succ i =>
      simp at hb
      split
      · simpa using hb
      · simpa using ih i hb

theorem find?_updateOne {α : Type} (filter : α → Bool) (update : α → α) (xs : List α)
    (hpres : ∀ x, filter x = true → filter (update x) = true) :
    (updateOne filter update xs).find? filter = (xs.find? filter).map update := by
  induction xs with
  | nil => rfl
  | cons x xs ih =>
    unfold updateOne
    by_cases hx : filter x = true
    · simp [hx, hpres x hx]
    · simp [hx, ih]

theorem find?_updateOne_disjoint {α : Type} (filter q : α → Bool) (update : α → α)
    (xs : List α) (hq : ∀ x, q (update x) = q x) (hd : ∀ x, filter x = true → q x = false) :
    (updateOne filter update xs).find? q = xs.find? q := by
  induction xs with
  | nil => rfl
  | cons x xs ih =>
    unfold updateOne
    by_cases hx : filter x = true
    · have h1 : q x = false := hd x hx
      have h2 : q (update x) = false := by rw [hq]; exact h1
      simp [hx, List.find?, h1, h2]
    · simp only [hx, List.find?]
      cases q x
      · simpa using ih
      · simp

theorem updateMany_length {α : Type} (filter : α → Bool) (update : α → α) (xs : List α) :
    (updateMany filter update xs).length = xs.length := by
  simp [updateMany]

theorem updateMany_getElem? {α : Type} (filter : α → Bool) (update : α → α) (xs : List α)
    (i : Nat) :
    (updateMany filter update xs)[i]? =
      (xs[i]?).map (fun x => if filter x then update x else x) := by
  simp [updateMany]

theorem find?_updateMany {α : Type} (filter q : α → Bool) (update : α → α) (xs : List α)
    (hq : ∀ x, q (update x) = q x) :
    (updateMany filter update xs).find? q =
      (xs.find? q).map (fun x => if filter x then update x else x) := by
  induction xs with
  | nil => rfl
  | cons x xs ih =>
    have hx : q (if filter x then update x else x) = q x := by
      split
      · exact hq x
      · rfl
    simp only [updateMany, List.map_cons, List.find?] at ih ⊢
    rw [hx]
    cases q x
    · simpa using ih
    · simp

theorem project_findById_id {projects : List Project} {id : ObjectId} {p : Project}
    (h : Project.findById projects id = some p) : p._id = id := by
  have := List.find?_some h
  simpa using this

theorem application_findById_id {applications : List Application} {id : ObjectId}
    {a : Application} (h : Application.findById applications id = some a) : a._id = id := by
  have := List.find?_some h
  simpa using this

/-! ## The status change: failing branches -/

/-- The role gate of the status-change route lets clients and admins
through. -/
theorem authorizeRoles_client_admin (user : User)
    (h : user.role = "client" ∨ user.role = "admin") :
    authorizeRoles ["client", "admin"] (some user) = .ok () := by
  rcases h with h | h <;> simp [authorizeRoles, h]

/-- For a client or an admin the route is its handler. -/
theorem putApplicationStatus_eq_handler (db : Store) (user : User) (id : IdParam)
    (status : String) (h : user.role = "client" ∨ user.role = "admin") :
    putApplicationStatus db (.ok user) id status = updateApplicationStatus db user id status := by
  simp [putApplicationStatus, protect, authorizeRoles_client_admin user h]

/-- The owning client and the admins pass the ownership check of the
handler. -/
theorem owner_or_admin_passes (user : User) (p : Project)
    (hactor : (user.role = "client" ∧ user.id = p.client) ∨ user.role = "admin") :
    ¬ (p.client ≠ user.id ∧ user.role ≠ "admin") := by
  rcases hactor with h | h
  · simp [h.2]
  · simp [h]

/-- The owning client and the admins pass the role gate. -/
theorem owner_or_admin_role (user : User) (p : Project)
    (hactor : (user.role = "client" ∧ user.id = p.client) ∨ user.role = "admin") :
    user.role = "client" ∨ user.role = "admin" := by
  rcases hactor with h | h
  · exact Or.inl h.1
  · exact Or.inr h

/-- The handler on the accept branch, once every check has passed. -/
theorem updateApplicationStatus_accept (db : Store) (user : User) (aid : ObjectId)
    (a : Application) (p : Project)
    (ha : Application.findById db.applications aid = some a)
    (hp : Project.findById db.projects a.project = some p)
    (hauth : ¬ (p.client ≠ user.id ∧ user.role ≠ "admin"))
    (hnc : p.status ≠ "completed") (hna : p.assignedTo = none) :
    updateApplicationStatus db user (.valid aid) "accepted" =
      saveApplicationStatus
        { projects := updateOne (fun q => q._id == p._id)
            (fun q => { q with assignedTo := some a.freelancer, status := "assigned" })
            db.projects,
          applications := updateMany (otherPending p._id aid)
            (fun b => { b with status := "rejected" }) db.applications }
        a "accepted" := by
  simp only [updateApplicationStatus, ha, hp, hauth, hnc, hna, if_true, if_false,
    Option.isSome_none, Bool.false_eq_true]

/-- The handler on any other requested status, once every check has passed. -/
theorem updateApplicationStatus_other (db : Store) (user : User) (aid : ObjectId)
    (a : Application) (p : Project) (status : String)
    (ha : Application.findById db.applications aid = some a)
    (hp : Project.findById db.projects a.project = some p)
    (hauth : ¬ (p.client ≠ user.id ∧ user.role ≠ "admin"))
    (hnc : p.status ≠ "completed") (hs : status ≠ "accepted") :
    updateApplicationStatus db user (.valid aid) status = saveApplicationStatus db a status := by
  simp only [updateApplicationStatus, ha, hp, hauth, hnc, hs, if_true, if_false]

/-- The store that `saveApplicationStatus` leaves when the save goes
through. -/
theorem saveApplicationStatus_store (db : Store) (a : Application) (status : String)
    (h : status = a.status ∨ Application.statusEnum.contains status = true) :
    (saveApplicationStatus db a status).1.status = 200 ∧
    (saveApplicationStatus db a status).2 =
      { projects := db.projects,
        applications :=
          if status = a.status then db.applications
          else updateOne (fun b => b._id == a._id) (fun b => { b with status := status })
            db.applications } := by
  have hc : ¬ (status ≠ a.status ∧ ¬ Application.statusEnum.contains status = true) := by
    rcases h with h | h
    · exact fun hh => hh.1 h
    · exact fun hh => hh.2 h
  unfold saveApplicationStatus
  rw [if_neg hc]
  exact ⟨rfl, rfl⟩

/-- The fan-out of the accept branch does not touch the accepted application:
it is still the one found under its id. -/
theorem findById_after_fanout (applications : List Application) (aid pid : ObjectId)
    (a : Application) (ha : Application.findById applications aid = some a) :
    Application.findById
      (updateMany (otherPending pid aid) (fun b => { b with status := "rejected" }) applications)
      aid = some a := by
  have hid := application_findById_id ha
  unfold Application.findById at ha ⊢
  rw [find?_updateMany (otherPending pid aid) (fun b => b._id == aid)
    (fun b => { b with status := "rejected" }) applications (fun x => rfl), ha]
  simp [otherPending, hid]

/-- After `save` the application found under the id carries the requested
status. -/
theorem findById_after_save (applications : List Application) (aid : ObjectId)
    (a : Application) (status : String)
    (ha : Application.findById applications aid = some a) :
    Application.findById
      (if status = a.status then applications
       else updateOne (fun b => b._id == a._id) (fun b => { b with status := status })
         applications) aid = some { a with status := status } := by
  have hid := application_findById_id ha
  by_cases hs : status = a.status
  · simp only [hs, if_true]
    rw [ha]
  · simp only [hs, if_false]
    unfold Application.findById at ha ⊢
    rw [hid, find?_updateOne (fun b => b._id == aid) (fun b => { b with status := status })
      applications (fun x hx => hx), ha]
    simp [hid]

/-- Every failing branch of `saveApplicationStatus` answers 500: a 200 means
the save went through. -/
theorem saveApplicationStatus_200 (db : Store) (a : Application) (status : String)
    (h : (saveApplicationStatus db a status).1.status = 200) :
    status = a.status ∨ Application.statusEnum.contains status = true := by
  unfold saveApplicationStatus at h
  by_cases hs : status = a.status
  · exact Or.inl hs
  · by_cases he : Application.statusEnum.contains status = true
    · exact Or.inr he
    · rw [if_pos ⟨hs, he⟩] at h
      simp at h

/-- What a 200 of the status-change route tells: the caller is a client or an
admin who passed the ownership check, the id resolved to an application whose
project resolved, the project is not completed, it has nobody assigned when
the request is an accept, and the save went through. -/
theorem putApplicationStatus_200 (db : Store) (auth : Auth) (id : IdParam) (status : String)
    (h : (putApplicationStatus db auth id status).1.status = 200) :
    ∃ (user : User) (aid : ObjectId) (a : Application) (p : Project),
      auth = .ok user ∧ id = .valid aid ∧
      (user.role = "client" ∨ user.role = "admin") ∧
      Application.findById db.applications aid = some a ∧
      Project.findById db.projects a.project = some p ∧
      ¬ (p.client ≠ user.id ∧ user.role ≠ "admin") ∧
      p.status ≠ "completed" ∧
      (status = "accepted" → p.assignedTo = none) ∧
      (status = a.status ∨ Application.statusEnum.contains status = true) := by
  cases auth with
  | noToken => simp [putApplicationStatus, protect] at h
  | tokenFailed => simp [putApplicationStatus, protect] at h
  | userNotFound => simp [putApplicationStatus, protect] at h
  | ok user =>
    by_cases hrole : user.role = "client" ∨ user.role = "admin"
    · rw [putApplicationStatus_eq_handler db user id status hrole] at h
      cases id with
      | invalid => simp [updateApplicationStatus] at h
      | valid aid =>
        cases ha : Application.findById db.applications aid with
        | none => simp [updateApplicationStatus, ha] at h
        | some a =>
          cases hp : Project.findById db.projects a.project with
          | none => simp [updateApplicationStatus, ha, hp] at h
          | some p =>
            by_cases hauth : p.client ≠ user.id ∧ user.role ≠ "admin"
            · simp only [updateApplicationStatus, ha, hp] at h
              rw [if_pos hauth] at h
              simp at h
            · by_cases hc : p.status = "completed"
              · simp only [updateApplicationStatus, ha, hp, hauth, hc, if_true, if_false] at h
                simp at h
              · by_cases hs : status = "accepted"
                · cases hna : p.assignedTo with
                  | some f =>
                    simp only [updateApplicationStatus, ha, hp, hauth, hc, hs, hna, if_true,
                      if_false, Option.isSome_some] at h
                    simp at h
                  | none =>
                    subst hs
                    rw [updateApplicationStatus_accept db user aid a p ha hp hauth hc hna] at h
                    exact ⟨user, aid, a, p, rfl, rfl, hrole, ha, hp, hauth, hc, fun _ => hna,
                      saveApplicationStatus_200 _ a _ h⟩
                · rw [updateApplicationStatus_other db user aid a p status ha hp hauth hc hs] at h
                  exact ⟨user, aid, a, p, rfl, rfl, hrole, ha, hp, hauth, hc,
                    fun hh => absurd hh hs, saveApplicationStatus_200 _ a _ h⟩
    · have hno : authorizeRoles ["client", "admin"] (some user) =
          .error { status := 403,
                   message := "User role " ++ user.role ++
                     " is not authorized to access this route" } := by
        have h1 : ¬ user.role = "client" := fun hh => hrole (Or.inl hh)
        have h2 : ¬ user.role = "admin" := fun hh => hrole (Or.inr hh)
        simp [authorizeRoles, h1, h2]
      simp [putApplicationStatus, protect, hno] at h

/-- The store after an accept that passes every check: the project is
assigned to the freelancer of the application, the application is accepted,
every other application pending on the project is rejected. -/
theorem accept_result (db : Store) (user : User) (aid : ObjectId)
    (a1 : Application) (p : Project)
    (ha : Application.findById db.applications aid = some a1)
    (hp : Project.findById db.projects a1.project = some p)
    (hnc : p.status ≠ "completed") (hna : p.assignedTo = none)
    (hrole : user.role = "client" ∨ user.role = "admin")
    (hauth : ¬ (p.client ≠ user.id ∧ user.role ≠ "admin")) :
    (putApplicationStatus db (.ok user) (.valid aid) "accepted").1.status = 200 ∧
    Project.findById (putApplicationStatus db (.ok user) (.valid aid) "accepted").2.projects
        a1.project =
      some { p with assignedTo := some a1.freelancer, status := "assigned" } ∧
    Application.findById
        (putApplicationStatus db (.ok user) (.valid aid) "accepted").2.applications aid =
      some { a1 with status := "accepted" } ∧
    ∀ (i : Nat) (a2 : Application), db.applications[i]? = some a2 →
      a2.project = a1.project → a2._id ≠ aid → a2.status = "pending" →
      (putApplicationStatus db (.ok user) (.valid aid) "accepted").2.applications[i]? =
        some { a2 with status := "rejected" } := by
  have hpid := project_findById_id hp
  have haid := application_findById_id ha
  rw [putApplicationStatus_eq_handler db user _ _ hrole,
    updateApplicationStatus_accept db user aid a1 p ha hp hauth hnc hna]
  obtain ⟨h200, hstore⟩ := saveApplicationStatus_store
    { projects := updateOne (fun q => q._id == p._id)
        (fun q => { q with assignedTo := some a1.freelancer, status := "assigned" }) db.projects,
      applications := updateMany (otherPending p._id aid)
        (fun b => { b with status := "rejected" }) db.applications }
    a1 "accepted" (Or.inr (by decide))
  rw [hstore]
  refine ⟨h200, ?_, ?_, ?_⟩
  · show Project.findById (updateOne _ _ db.projects) a1.project = _
    unfold Project.findById at hp ⊢
    rw [hpid, find?_updateOne (fun q => q._id == a1.project)
      (fun q => { q with assignedTo := some a1.freelancer, status := "assigned" })
      db.projects (fun x hx => hx), hp]
    simp [hpid]
  · exact findById_after_save _ aid a1 "accepted" (findById_after_fanout _ aid p._id a1 ha)
  · intro i a2 hi hproj hne hpend
    have h1 : (updateMany (otherPending p._id aid) (fun b => { b with status := "rejected" })
        db.applications)[i]? = some { a2 with status := "rejected" } := by
      rw [updateMany_getElem?, hi]
      simp [otherPending, hproj, hpid, hne, hpend]
    show (if "accepted" = a1.status then _ else _)[i]? = _
    split
    · exact h1
    · exact updateOne_getElem?_of_false (fun b => b._id == a1._id)
        (fun b => { b with status := "accepted" }) _ i _ h1 (by simpa [haid] using hne)

/-- The handler when the project already has somebody assigned. -/
theorem updateApplicationStatus_assigned (db : Store) (user : User) (aid : ObjectId)
    (a : Application) (p : Project)
    (ha : Application.findById db.applications aid = some a)
    (hp : Project.findById db.projects a.project = some p)
    (hauth : ¬ (p.client ≠ user.id ∧ user.role ≠ "admin"))
    (hnc : p.status ≠ "completed") (hassigned : p.assignedTo.isSome = true) :
    updateApplicationStatus db user (.valid aid) "accepted" =
      ({ status := 400, message := "Project is already assigned to a freelancer." }, db) := by
  simp only [updateApplicationStatus, ha, hp, hauth, hnc, hassigned, if_true, if_false]

/-- C1. Application `a1` (pending or not) is on project `p`, `p` is not
completed and has nobody assigned, and the actor is the client who owns `p` or
an admin. Then accepting `a1` is answered 200 and in the store after the call
`p` is assigned to the freelancer of `a1` with status `assigned`, `a1` is
accepted, and every other application that was pending on `p` is rejected. -/
theorem accept_pending_application (db : Store) (user : User) (aid : ObjectId)
    (a1 : Application) (p : Project)
    (ha : Application.findById db.applications aid = some a1)
    (hp : Project.findById db.projects a1.project = some p)
    (hnc : p.status ≠ "completed") (hna : p.assignedTo = none)
    (hactor : (user.role = "client" ∧ user.id = p.client) ∨ user.role = "admin") :
    (putApplicationStatus db (.ok user) (.valid aid) "accepted").1.status = 200 ∧
    Project.findById (putApplicationStatus db (.ok user) (.valid aid) "accepted").2.projects
        a1.project =
      some { p with assignedTo := some a1.freelancer, status := "assigned" } ∧
    Application.findById
        (putApplicationStatus db (.ok user) (.valid aid) "accepted").2.applications aid =
      some { a1 with status := "accepted" } ∧
    ∀ (i : Nat) (a2 : Application), db.applications[i]? = some a2 →
      a2.project = a1.project → a2._id ≠ aid → a2.status = "pending" →
      (putApplicationStatus db (.ok user) (.valid aid) "accepted").2.applications[i]? =
        some { a2 with status := "rejected" } :=
  accept_result db user aid a1 p ha hp hnc hna (owner_or_admin_role user p hactor)
    (owner_or_admin_passes user p hactor)

/-- Witness of C1: the scenario of the specification, the owning client
accepts `A1`; `A2`, at position 1, is rejected. -/
theorem accept_pending_application_witness :
    (putApplicationStatus Scenario.twoPending (.ok Scenario.client) (.valid 100)
      "accepted").1.status = 200 ∧
    Project.findById
      (putApplicationStatus Scenario.twoPending (.ok Scenario.client) (.valid 100)
        "accepted").2.projects 1 =
      some { Scenario.P1 with assignedTo := some 20, status := "assigned" } ∧
    Application.findById
      (putApplicationStatus Scenario.twoPending (.ok Scenario.client) (.valid 100)
        "accepted").2.applications 100 = some { Scenario.A1 with status := "accepted" } ∧
    (putApplicationStatus Scenario.twoPending (.ok Scenario.client) (.valid 100)
      "accepted").2.applications[1]? = some { Scenario.A2 with status := "rejected" } :=
  ⟨(accept_pending_application Scenario.twoPending Scenario.client 100 Scenario.A1 Scenario.P1
      (by decide) (by decide) (by decide) (by decide) (by decide)).1,
   (accept_pending_application Scenario.twoPending Scenario.client 100 Scenario.A1 Scenario.P1
      (by decide) (by decide) (by decide) (by decide) (by decide)).2.1,
   (accept_pending_application Scenario.twoPending Scenario.client 100 Scenario.A1 Scenario.P1
      (by decide) (by decide) (by decide) (by decide) (by decide)).2.2.1,
   (accept_pending_application Scenario.twoPending Scenario.client 100 Scenario.A1 Scenario.P1
      (by decide) (by decide) (by decide) (by decide) (by decide)).2.2.2 1 Scenario.A2
      (by decide) (by decide) (by decide) (by decide)⟩

/-- C2, as stated, fails: the project has status `assigned` (set by the direct
status edit) but nobody in `assignedTo`, and the accept of `A1` by the owning
client is answered 200 and rewrites the project and both applications. -/
theorem accept_on_status_assigned_counterexample :
    Application.findById Scenario.statusAssigned.applications 100 = some Scenario.A1 ∧
    Project.findById Scenario.statusAssigned.projects Scenario.A1.project =
      some { Scenario.P1 with status := "assigned" } ∧
    (putApplicationStatus Scenario.statusAssigned (.ok Scenario.client) (.valid 100)
      "accepted").1.status = 200 ∧
    (putApplicationStatus Scenario.statusAssigned (.ok Scenario.client) (.valid 100)
      "accepted").2 =
      { projects := [{ Scenario.P1 with assignedTo := some 20, status := "assigned" }],
        applications := [{ Scenario.A1 with status := "accepted" },
                         { Scenario.A2 with status := "rejected" }] } ∧
    (putApplicationStatus Scenario.statusAssigned (.ok Scenario.client) (.valid 100)
      "accepted").2 ≠ Scenario.statusAssigned := by
  decide

/-- C2, amended. When the parent project of an application has somebody in
`assignedTo`, an accept requested by the project's owning client or by an
admin is answered 400 and the store is as before; the message is the one of
the already-assigned check unless the project is completed. -/
theorem accept_on_assigned_project (db : Store) (user : User) (aid : ObjectId)
    (a : Application) (p : Project)
    (ha : Application.findById db.applications aid = some a)
    (hp : Project.findById db.projects a.project = some p)
    (hassigned : p.assignedTo.isSome = true)
    (hactor : (user.role = "client" ∧ user.id = p.client) ∨ user.role = "admin") :
    (putApplicationStatus db (.ok user) (.valid aid) "accepted").1.status = 400 ∧
    (putApplicationStatus db (.ok user) (.valid aid) "accepted").2 = db ∧
    (p.status ≠ "completed" →
      (putApplicationStatus db (.ok user) (.valid aid) "accepted").1.message =
        "Project is already assigned to a freelancer.") := by
  rw [putApplicationStatus_eq_handler db user _ _ (owner_or_admin_role user p hactor)]
  have hauth := owner_or_admin_passes user p hactor
  by_cases hc : p.status = "completed"
  · simp only [updateApplicationStatus, ha, hp, hauth, hc, if_true, if_false]
    simp
  · simp only [updateApplicationStatus, ha, hp, hauth, hc, hassigned, if_true, if_false]
    simp

/-- Witness of C2, amended: after `A1` was accepted, the owning client asks to
accept `A2`. -/
theorem accept_on_assigned_project_witness :
    (putApplicationStatus
      { projects := [{ Scenario.P1 with assignedTo := some 20, status := "assigned" }],
        applications := [{ Scenario.A1 with status := "accepted" },
                         { Scenario.A2 with status := "rejected" }] }
      (.ok Scenario.client) (.valid 101) "accepted").1.status = 400 ∧
    (putApplicationStatus
      { projects := [{ Scenario.P1 with assignedTo := some 20, status := "assigned" }],
        applications := [{ Scenario.A1 with status := "accepted" },
                         { Scenario.A2 with status := "rejected" }] }
      (.ok Scenario.client) (.valid 101) "accepted").1.message =
      "Project is already assigned to a freelancer." :=
  ⟨(accept_on_assigned_project
      { projects := [{ Scenario.P1 with assignedTo := some 20, status := "assigned" }],
        applications := [{ Scenario.A1 with status := "accepted" },
                         { Scenario.A2 with status := "rejected" }] }
      Scenario.client 101 { Scenario.A2 with status := "rejected" }
      { Scenario.P1 with assignedTo := some 20, status := "assigned" }
      (by decide) (by decide) (by decide) (by decide)).1,
   (accept_on_assigned_project
      { projects := [{ Scenario.P1 with assignedTo := some 20, status := "assigned" }],
        applications := [{ Scenario.A1 with status := "accepted" },
                         { Scenario.A2 with status := "rejected" }] }
      Scenario.client 101 { Scenario.A2 with status := "rejected" }
      { Scenario.P1 with assignedTo := some 20, status := "assigned" }
      (by decide) (by decide) (by decide) (by decide)).2.2 (by decide)⟩

/-- C3. When the parent project of an application is completed, every
status-change request of the project's owning client or of an admin, whatever
the requested status, is answered 400 and the store (the application, the
project, every sibling application) is as before. -/
theorem status_change_on_completed_project (db : Store) (user : User) (aid : ObjectId)
    (a : Application) (p : Project) (status : String)
    (ha : Application.findById db.applications aid = some a)
    (hp : Project.findById db.projects a.project = some p)
    (hcompleted : p.status = "completed")
    (hactor : (user.role = "client" ∧ user.id = p.client) ∨ user.role = "admin") :
    putApplicationStatus db (.ok user) (.valid aid) status =
      ({ status := 400, message := "Cannot change application status for a completed project." },
       db) := by
  have hrole : user.role = "client" ∨ user.role = "admin" := by
    rcases hactor with h | h
    · exact Or.inl h.1
    · exact Or.inr h
  rw [putApplicationStatus_eq_handler db user _ _ hrole]
  have hauth : ¬ (p.client ≠ user.id ∧ user.role ≠ "admin") := by
    rcases hactor with h | h
    · simp [h.2]
    · simp [h]
  simp only [updateApplicationStatus, ha, hp, hauth, hcompleted, if_true, if_false]

/-- Witness of C3: the owner of the completed project asks to set the rejected
application `A2` back to pending. -/
theorem status_change_on_completed_project_witness :
    putApplicationStatus Scenario.completed (.ok Scenario.client) (.valid 101) "pending" =
      ({ status := 400, message := "Cannot change application status for a completed project." },
       Scenario.completed) :=
  status_change_on_completed_project Scenario.completed Scenario.client 101
    { Scenario.A2 with status := "rejected" }
    { Scenario.P1 with status := "completed", assignedTo := some 20 } "pending"
    (by decide) (by decide) (by decide) (by decide)

/-- The application found under another id is the same before and after the
`save` of the application `a`. -/
theorem findById_after_save_other (applications : List Application) (a : Application)
    (status : String) (aid2 : ObjectId) (hne : aid2 ≠ a._id) :
    Application.findById
      (if status = a.status then applications
       else updateOne (fun b => b._id == a._id) (fun b => { b with status := status })
         applications) aid2 = Application.findById applications aid2 := by
  split
  · rfl
  · unfold Application.findById
    apply find?_updateOne_disjoint (fun b => b._id == a._id) (fun b => b._id == aid2)
      (fun b => { b with status := status }) applications (fun x => rfl)
    intro x hx
    have hx1 : x._id = a._id := by simpa using hx
    simp [hx1, Ne.symm hne]

/-- The application found under an id after the fan-out is the one found
before, rejected if it was another application pending on the project. -/
theorem findById_fanout (applications : List Application) (pid aid aid2 : ObjectId) :
    Application.findById
      (updateMany (otherPending pid aid) (fun b => { b with status := "rejected" }) applications)
      aid2 =
    (Application.findById applications aid2).map
      (fun b => if otherPending pid aid b then { b with status := "rejected" } else b) := by
  unfold Application.findById
  exact find?_updateMany (otherPending pid aid) (fun b => b._id == aid2)
    (fun b => { b with status := "rejected" }) applications (fun x => rfl)

/-- C4. A project accepts at most one freelancer. Let the accept of `a1` on
project `p` have been answered 200 and let `a2` be another application on `p`
in the store after it. Then an accept of `a2` by the owning client or an admin
is answered 400 `Project is already assigned to a freelancer.` and leaves the
store as it is: `p` assigned to the freelancer of `a1`, `a1` accepted, and `a2`
rejected if it was pending before the first accept. -/
theorem second_accept_refused (db : Store) (auth1 : Auth) (user2 : User) (aid1 aid2 : ObjectId)
    (a1 a2 : Application) (p : Project)
    (ha1 : Application.findById db.applications aid1 = some a1)
    (hp : Project.findById db.projects a1.project = some p)
    (hok : (putApplicationStatus db auth1 (.valid aid1) "accepted").1.status = 200)
    (ha2 : Application.findById
      (putApplicationStatus db auth1 (.valid aid1) "accepted").2.applications aid2 = some a2)
    (hsame : a2.project = a1.project) (hne : aid2 ≠ aid1)
    (hactor2 : (user2.role = "client" ∧ user2.id = p.client) ∨ user2.role = "admin") :
    putApplicationStatus (putApplicationStatus db auth1 (.valid aid1) "accepted").2
        (.ok user2) (.valid aid2) "accepted" =
      ({ status := 400, message := "Project is already assigned to a freelancer." },
       (putApplicationStatus db auth1 (.valid aid1) "accepted").2) ∧
    Project.findById (putApplicationStatus db auth1 (.valid aid1) "accepted").2.projects
        a1.project =
      some { p with assignedTo := some a1.freelancer, status := "assigned" } ∧
    Application.findById
        (putApplicationStatus db auth1 (.valid aid1) "accepted").2.applications aid1 =
      some { a1 with status := "accepted" } ∧
    (∀ b : Application, Application.findById db.applications aid2 = some b →
      b.status = "pending" → a2 = { b with status := "rejected" }) := by
  obtain ⟨user1, aid, a, q, hauth1, hid, hrole, ha, hq, hauth, hnc, hna, _⟩ :=
    putApplicationStatus_200 db auth1 (.valid aid1) "accepted" hok
  subst hauth1
  have haid : aid = aid1 := by injection hid with h; exact h.symm
  subst haid
  have haa : a = a1 := by rw [ha] at ha1; exact Option.some.inj ha1
  subst haa
  have hqp : q = p := by rw [hq] at hp; exact Option.some.inj hp
  subst hqp
  have hres := accept_result db user1 aid a q ha hq hnc (hna rfl) hrole hauth
  obtain ⟨_, hproj, happ, _⟩ := hres
  have hpid := project_findById_id hq
  have haid := application_findById_id ha
  refine ⟨?_, hproj, happ, ?_⟩
  · rw [putApplicationStatus_eq_handler _ user2 _ _ (owner_or_admin_role user2 q hactor2)]
    have hproj2 : Project.findById
        (putApplicationStatus db (.ok user1) (.valid aid) "accepted").2.projects a2.project =
        some { q with assignedTo := some a.freelancer, status := "assigned" } := by
      rw [hsame]; exact hproj
    exact updateApplicationStatus_assigned _ user2 aid2 a2 _ ha2 hproj2
      (owner_or_admin_passes user2 q hactor2) (by simp) rfl
  · intro b hb hpend
    rw [putApplicationStatus_eq_handler db user1 _ _ hrole,
      updateApplicationStatus_accept db user1 aid a q ha hq hauth hnc (hna rfl)] at ha2
    rw [(saveApplicationStatus_store _ a "accepted" (Or.inr (by decide))).2] at ha2
    have hne2 : aid2 ≠ a._id := by rw [haid]; exact hne
    simp only at ha2
    rw [findById_after_save_other _ a "accepted" aid2 hne2, findById_fanout, hb] at ha2
    have hbid := application_findById_id hb
    have h2 : a2 = if otherPending q._id aid b then { b with status := "rejected" } else b := by
      simpa using ha2.symm
    have hbproj : b.project = a.project := by
      rw [← hsame, h2]
      split <;> rfl
    rw [h2]
    simp [otherPending, hbproj, hpid, hbid, hne, hpend]

/-- Witness of C4: the scenario of the specification; the client accepts `A1`,
then tries to accept `A2`, which the first accept has rejected. -/
theorem second_accept_refused_witness :
    putApplicationStatus
        (putApplicationStatus Scenario.twoPending (.ok Scenario.client) (.valid 100)
          "accepted").2
        (.ok Scenario.client) (.valid 101) "accepted" =
      ({ status := 400, message := "Project is already assigned to a freelancer." },
       (putApplicationStatus Scenario.twoPending (.ok Scenario.client) (.valid 100)
          "accepted").2) ∧
    Project.findById
      (putApplicationStatus Scenario.twoPending (.ok Scenario.client) (.valid 100)
        "accepted").2.projects Scenario.A1.project =
      some { Scenario.P1 with assignedTo := some Scenario.A1.freelancer, status := "assigned" } ∧
    Application.findById
      (putApplicationStatus Scenario.twoPending (.ok Scenario.client) (.valid 100)
        "accepted").2.applications 100 = some { Scenario.A1 with status := "accepted" } ∧
    Application.findById
      (putApplicationStatus Scenario.twoPending (.ok Scenario.client) (.valid 100)
        "accepted").2.applications 101 = some { Scenario.A2 with status := "rejected" } :=
  ⟨(second_accept_refused Scenario.twoPending (.ok Scenario.client) Scenario.client 100 101
      Scenario.A1 { Scenario.A2 with status := "rejected" } Scenario.P1
      (by decide) (by decide) (by decide) (by decide) (by decide) (by decide) (by decide)).1,
   (second_accept_refused Scenario.twoPending (.ok Scenario.client) Scenario.client 100 101
      Scenario.A1 { Scenario.A2 with status := "rejected" } Scenario.P1
      (by decide) (by decide) (by decide) (by decide) (by decide) (by decide) (by decide)).2.1,
   (second_accept_refused Scenario.twoPending (.ok Scenario.client) Scenario.client 100 101
      Scenario.A1 { Scenario.A2 with status := "rejected" } Scenario.P1
      (by decide) (by decide) (by decide) (by decide) (by decide) (by decide)
      (by decide)).2.2.1,
   by decide⟩

/-- C5, as stated, fails: `A1` is rejected, its project open and unassigned.
The owning client sets it back to pending with a 200, and can as well accept
it with a 200. -/
theorem terminal_states_counterexample :
    Application.findById Scenario.oneRejected.applications 100 =
      some { Scenario.A1 with status := "rejected" } ∧
    (putApplicationStatus Scenario.oneRejected (.ok Scenario.client) (.valid 100)
      "pending").1.status = 200 ∧
    Application.findById
      (putApplicationStatus Scenario.oneRejected (.ok Scenario.client) (.valid 100)
        "pending").2.applications 100 = some { Scenario.A1 with status := "pending" } ∧
    (putApplicationStatus Scenario.oneRejected (.ok Scenario.client) (.valid 100)
      "accepted").1.status = 200 ∧
    Application.findById
      (putApplicationStatus Scenario.oneRejected (.ok Scenario.client) (.valid 100)
        "accepted").2.applications 100 = some { Scenario.A1 with status := "accepted" } := by
  decide

/-- C5, amended. The status change does not look at the current status of the
application: after every call answered 200 the application is the one before
with the requested status, whatever status it had. -/
theorem status_change_sets_requested_status (db : Store) (auth : Auth) (aid : ObjectId)
    (a : Application) (status : String)
    (ha : Application.findById db.applications aid = some a)
    (hok : (putApplicationStatus db auth (.valid aid) status).1.status = 200) :
    Application.findById (putApplicationStatus db auth (.valid aid) status).2.applications aid =
      some { a with status := status } := by
  obtain ⟨user, aid1, a1, p, hauth1, hid, hrole, ha1, hp, hauth, hnc, hna, hsave⟩ :=
    putApplicationStatus_200 db auth (.valid aid) status hok
  subst hauth1
  have haid : aid1 = aid := by injection hid with h; exact h.symm
  subst haid
  have haa : a1 = a := by rw [ha1] at ha; exact Option.some.inj ha
  subst haa
  by_cases hs : status = "accepted"
  · subst hs
    exact (accept_result db user aid1 a1 p ha hp hnc (hna rfl) hrole hauth).2.2.1
  · rw [putApplicationStatus_eq_handler db user _ _ hrole,
      updateApplicationStatus_other db user aid1 a1 p status ha hp hauth hnc hs,
      (saveApplicationStatus_store db a1 status hsave).2]
    exact findById_after_save db.applications aid1 a1 status ha

/-- Witness of C5, amended: the rejected `A1` is set to `withdrawn`. -/
theorem status_change_sets_requested_status_witness :
    Application.findById
      (putApplicationStatus Scenario.oneRejected (.ok Scenario.client) (.valid 100)
        "withdrawn").2.applications 100 = some { Scenario.A1 with status := "withdrawn" } :=
  status_change_sets_requested_status Scenario.oneRejected (.ok Scenario.client) 100
    { Scenario.A1 with status := "rejected" } "withdrawn" (by decide) (by decide)

/-- The save step answers 200 or 500. -/
theorem saveApplicationStatus_status (db : Store) (a : Application) (status : String) :
    (saveApplicationStatus db a status).1.status = 200 ∨
    (saveApplicationStatus db a status).1.status = 500 := by
  unfold saveApplicationStatus
  split
  · exact Or.inr rfl
  · exact Or.inl rfl

/-- The save step changes no project. -/
theorem saveApplicationStatus_projects (db : Store) (a : Application) (status : String) :
    (saveApplicationStatus db a status).2.projects = db.projects := by
  unfold saveApplicationStatus
  split <;> rfl

/-- The role gate of the status-change route stops every other role. -/
theorem authorizeRoles_client_admin_refuses (user : User)
    (h : ¬ (user.role = "client" ∨ user.role = "admin")) :
    authorizeRoles ["client", "admin"] (some user) =
      .error { status := 403,
               message := "User role " ++ user.role ++
                 " is not authorized to access this route" } := by
  have h1 : ¬ user.role = "client" := fun hh => h (Or.inl hh)
  have h2 : ¬ user.role = "admin" := fun hh => h (Or.inr hh)
  simp [authorizeRoles, h1, h2]

/-- C6. The application exists and its parent project resolves. An actor who
is neither the client (role `client`) that owns the project nor an admin is
answered 403 and the store is as before; the owning client and every admin
are answered something else than 403. -/
theorem status_change_forbidden (db : Store) (user : User) (aid : ObjectId)
    (a : Application) (p : Project) (status : String)
    (ha : Application.findById db.applications aid = some a)
    (hp : Project.findById db.projects a.project = some p) :
    (¬ ((user.role = "client" ∧ user.id = p.client) ∨ user.role = "admin") →
      (putApplicationStatus db (.ok user) (.valid aid) status).1.status = 403 ∧
      (putApplicationStatus db (.ok user) (.valid aid) status).2 = db) ∧
    (((user.role = "client" ∧ user.id = p.client) ∨ user.role = "admin") →
      (putApplicationStatus db (.ok user) (.valid aid) status).1.status ≠ 403) := by
  constructor
  · intro hno
    by_cases hrole : user.role = "client" ∨ user.role = "admin"
    · have hadmin : user.role ≠ "admin" := fun hh => hno (Or.inr hh)
      have hclient : user.role = "client" := by
        rcases hrole with h | h
        · exact h
        · exact absurd h hadmin
      have hown : p.client ≠ user.id := fun hh => hno (Or.inl ⟨hclient, hh.symm⟩)
      rw [putApplicationStatus_eq_handler db user _ _ hrole]
      simp only [updateApplicationStatus, ha, hp]
      rw [if_pos ⟨hown, hadmin⟩]
      exact ⟨rfl, rfl⟩
    · simp [putApplicationStatus, protect, authorizeRoles_client_admin_refuses user hrole]
  · intro hactor
    rw [putApplicationStatus_eq_handler db user _ _ (owner_or_admin_role user p hactor)]
    have hauth := owner_or_admin_passes user p hactor
    by_cases hc : p.status = "completed"
    · simp only [updateApplicationStatus, ha, hp, hauth, hc, if_true, if_false]
      simp
    · by_cases hs : status = "accepted"
      · subst hs
        cases hna : p.assignedTo with
        | some f =>
          rw [updateApplicationStatus_assigned db user aid a p ha hp hauth hc (by simp [hna])]
          simp
        | none =>
          rw [updateApplicationStatus_accept db user aid a p ha hp hauth hc hna]
          rcases saveApplicationStatus_status _ a "accepted" with h | h <;> rw [h] <;> decide
      · rw [updateApplicationStatus_other db user aid a p status ha hp hauth hc hs]
        rcases saveApplicationStatus_status db a status with h | h <;> rw [h] <;> decide

/-- Witness of C6: on `A1` of the scenario another client and the applying
freelancer are answered 403, the owner and an admin are not. -/
theorem status_change_forbidden_witness :
    (putApplicationStatus Scenario.twoPending (.ok Scenario.otherClient) (.valid 100)
      "rejected").1.status = 403 ∧
    (putApplicationStatus Scenario.twoPending (.ok Scenario.freelancer1) (.valid 100)
      "accepted").1.status = 403 ∧
    (putApplicationStatus Scenario.twoPending (.ok Scenario.client) (.valid 100)
      "rejected").1.status ≠ 403 ∧
    (putApplicationStatus Scenario.twoPending (.ok Scenario.admin) (.valid 100)
      "rejected").1.status ≠ 403 :=
  ⟨((status_change_forbidden Scenario.twoPending Scenario.otherClient 100 Scenario.A1
      Scenario.P1 "rejected" (by decide) (by decide)).1 (by decide)).1,
   ((status_change_forbidden Scenario.twoPending Scenario.freelancer1 100 Scenario.A1
      Scenario.P1 "accepted" (by decide) (by decide)).1 (by decide)).1,
   (status_change_forbidden Scenario.twoPending Scenario.client 100 Scenario.A1
      Scenario.P1 "rejected" (by decide) (by decide)).2 (by decide),
   (status_change_forbidden Scenario.twoPending Scenario.admin 100 Scenario.A1
      Scenario.P1 "rejected" (by decide) (by decide)).2 (by decide)⟩

/-- C7, as stated, fails in its second half: the application `A1` exists, its
project is not in the store, and the request of a client as of an admin is
answered 403, not 404. -/
theorem missing_project_counterexample :
    Application.findById Scenario.dangling.applications 100 = some Scenario.A1 ∧
    Project.findById Scenario.dangling.projects Scenario.A1.project = none ∧
    (putApplicationStatus Scenario.dangling (.ok Scenario.client) (.valid 100)
      "rejected").1.status = 403 ∧
    (putApplicationStatus Scenario.dangling (.ok Scenario.admin) (.valid 100)
      "accepted").1.status = 403 := by
  decide

/-- C7, amended. For a caller the role gate lets through (a client or an
admin): a well-formed id that resolves to no application is answered 404
`Application not found.`; an application whose parent project does not resolve
is answered 403 `Not authorized to update this application.`; the store is as
before in both cases. -/
theorem status_change_not_found (db : Store) (user : User) (aid : ObjectId) (status : String)
    (hrole : user.role = "client" ∨ user.role = "admin") :
    (Application.findById db.applications aid = none →
      putApplicationStatus db (.ok user) (.valid aid) status =
        ({ status := 404, message := "Application not found." }, db)) ∧
    (∀ a : Application, Application.findById db.applications aid = some a →
      Project.findById db.projects a.project = none →
      putApplicationStatus db (.ok user) (.valid aid) status =
        ({ status := 403, message := "Not authorized to update this application." }, db)) := by
  rw [putApplicationStatus_eq_handler db user _ _ hrole]
  constructor
  · intro ha
    simp only [updateApplicationStatus, ha]
  · intro a ha hp
    simp only [updateApplicationStatus, ha, hp]

/-- Witness of C7, amended: an id that is not in the store of the scenario,
and the application without a project. -/
theorem status_change_not_found_witness :
    putApplicationStatus Scenario.twoPending (.ok Scenario.client) (.valid 999) "accepted" =
      ({ status := 404, message := "Application not found." }, Scenario.twoPending) ∧
    putApplicationStatus Scenario.dangling (.ok Scenario.admin) (.valid 100) "accepted" =
      ({ status := 403, message := "Not authorized to update this application." },
       Scenario.dangling) :=
  ⟨(status_change_not_found Scenario.twoPending Scenario.client 999 "accepted"
      (by decide)).1 (by decide),
   (status_change_not_found Scenario.dangling Scenario.admin 100 "accepted"
      (by decide)).2 Scenario.A1 (by decide) (by decide)⟩

/-- C8. After a status change to `rejected` that is answered 200 the projects
are, all of them and field by field, what they were, the applications are as
many as before, every application under another id is what it was, and the
application of the request is rejected. -/
theorem reject_has_no_side_effect (db : Store) (auth : Auth) (aid : ObjectId)
    (hok : (putApplicationStatus db auth (.valid aid) "rejected").1.status = 200) :
    (putApplicationStatus db auth (.valid aid) "rejected").2.projects = db.projects ∧
    (putApplicationStatus db auth (.valid aid) "rejected").2.applications.length =
      db.applications.length ∧
    (∀ (i : Nat) (b : Application), db.applications[i]? = some b → b._id ≠ aid →
      (putApplicationStatus db auth (.valid aid) "rejected").2.applications[i]? = some b) ∧
    (∃ a : Application, Application.findById db.applications aid = some a ∧
      Application.findById
        (putApplicationStatus db auth (.valid aid) "rejected").2.applications aid =
        some { a with status := "rejected" }) := by
  obtain ⟨user, aid1, a, p, hauth1, hid, hrole, ha, hp, hauth, hnc, _, hsave⟩ :=
    putApplicationStatus_200 db auth (.valid aid) "rejected" hok
  subst hauth1
  have haid1 : aid1 = aid := by injection hid with h; exact h.symm
  subst haid1
  have haid := application_findById_id ha
  rw [putApplicationStatus_eq_handler db user _ _ hrole,
    updateApplicationStatus_other db user aid1 a p "rejected" ha hp hauth hnc (by decide),
    (saveApplicationStatus_store db a "rejected" hsave).2]
  refine ⟨rfl, ?_, ?_, a, ha, findById_after_save db.applications aid1 a "rejected" ha⟩
  · show List.length (ite ("rejected" = a.status) _ _) = _
    split
    · rfl
    · exact updateOne_length _ _ _
  · intro i b hi hne
    show (if "rejected" = a.status then _ else _)[i]? = _
    split
    · exact hi
    · exact updateOne_getElem?_of_false (fun b => b._id == a._id)
        (fun b => { b with status := "rejected" }) _ i _ hi (by simpa [haid] using hne)

/-- Witness of C8: the owning client rejects `A1` in the scenario. -/
theorem reject_has_no_side_effect_witness :
    (putApplicationStatus Scenario.twoPending (.ok Scenario.client) (.valid 100)
      "rejected").2.projects = Scenario.twoPending.projects ∧
    (putApplicationStatus Scenario.twoPending (.ok Scenario.client) (.valid 100)
      "rejected").2.applications[1]? = some Scenario.A2 :=
  ⟨(reject_has_no_side_effect Scenario.twoPending (.ok Scenario.client) 100 (by decide)).1,
   (reject_has_no_side_effect Scenario.twoPending (.ok Scenario.client) 100
      (by decide)).2.2.1 1 Scenario.A2 (by decide) (by decide)⟩

/-- A status change that is not answered 200 has written nothing. -/
theorem putApplicationStatus_ok_or_unchanged (db : Store) (auth : Auth) (id : IdParam)
    (status : String) :
    (putApplicationStatus db auth id status).1.status = 200 ∨
    (putApplicationStatus db auth id status).2 = db := by
  cases auth with
  | noToken => exact Or.inr rfl
  | tokenFailed => exact Or.inr rfl
  | userNotFound => exact Or.inr rfl
  | ok user =>
    by_cases hrole : user.role = "client" ∨ user.role = "admin"
    · rw [putApplicationStatus_eq_handler db user id status hrole]
      cases id with
      | invalid => exact Or.inr rfl
      | valid aid =>
        cases ha : Application.findById db.applications aid with
        | none => right; simp only [updateApplicationStatus, ha]
        | some a =>
          cases hp : Project.findById db.projects a.project with
          | none => right; simp only [updateApplicationStatus, ha, hp]
          | some p =>
            by_cases hauth : p.client ≠ user.id ∧ user.role ≠ "admin"
            · right
              simp only [updateApplicationStatus, ha, hp]
              rw [if_pos hauth]
            · by_cases hc : p.status = "completed"
              · right
                simp only [updateApplicationStatus, ha, hp, hauth, hc, if_true, if_false]
              · by_cases hs : status = "accepted"
                · subst hs
                  cases hna : p.assignedTo with
                  | some f =>
                    rw [updateApplicationStatus_assigned db user aid a p ha hp hauth hc
                      (by simp [hna])]
                    exact Or.inr rfl
                  | none =>
                    rw [updateApplicationStatus_accept db user aid a p ha hp hauth hc hna]
                    exact Or.inl (saveApplicationStatus_store _ a "accepted"
                      (Or.inr (by decide))).1
                · rw [updateApplicationStatus_other db user aid a p status ha hp hauth hc hs]
                  by_cases hsave : status = a.status ∨
                      Application.statusEnum.contains status = true
                  · exact Or.inl (saveApplicationStatus_store db a status hsave).1
                  · right
                    unfold saveApplicationStatus
                    rw [if_pos ⟨fun h => hsave (Or.inl h), fun h => hsave (Or.inr h)⟩]
    · right
      simp [putApplicationStatus, protect, authorizeRoles_client_admin_refuses user hrole]

/-- C9. When application `a` is accepted, an application under another id that
is on another project, or is not pending, is after the call what it was
before; and the fan-out itself (the `updateMany` call) leaves every
application that is not a pending application of the project other than `a`
what it was. -/
theorem accept_fanout_frame (db : Store) (auth : Auth) (aid : ObjectId) (a : Application)
    (ha : Application.findById db.applications aid = some a) :
    (∀ (i : Nat) (b : Application), db.applications[i]? = some b → b._id ≠ aid →
      (b.project ≠ a.project ∨ b.status ≠ "pending") →
      (putApplicationStatus db auth (.valid aid) "accepted").2.applications[i]? = some b) ∧
    (∀ (i : Nat) (b : Application), db.applications[i]? = some b →
      ¬ (b.project = a.project ∧ b._id ≠ aid ∧ b.status = "pending") →
      (updateMany (otherPending a.project aid) (fun c => { c with status := "rejected" })
        db.applications)[i]? = some b) := by
  have hfan : ∀ (i : Nat) (b : Application), db.applications[i]? = some b →
      ¬ (b.project = a.project ∧ b._id ≠ aid ∧ b.status = "pending") →
      (updateMany (otherPending a.project aid) (fun c => { c with status := "rejected" })
        db.applications)[i]? = some b := by
    intro i b hi hno
    rw [updateMany_getElem?, hi]
    have hf : otherPending a.project aid b = false := by
      cases hb : otherPending a.project aid b with
      | false => rfl
      | true =>
        exfalso
        apply hno
        have hb1 : (b.project = a.project ∧ ¬ b._id = aid) ∧ b.status = "pending" := by
          simpa [otherPending] using hb
        exact ⟨hb1.1.1, hb1.1.2, hb1.2⟩
    simp [hf]
  refine ⟨?_, hfan⟩
  intro i b hi hne hframe
  rcases putApplicationStatus_ok_or_unchanged db auth (.valid aid) "accepted" with hok | hsame
  · obtain ⟨user, aid1, a1, p, hauth1, hid, hrole, ha1, hp, hauth, hnc, hna, _⟩ :=
      putApplicationStatus_200 db auth (.valid aid) "accepted" hok
    subst hauth1
    have haid1 : aid1 = aid := by injection hid with h; exact h.symm
    subst haid1
    have haa : a1 = a := by rw [ha1] at ha; exact Option.some.inj ha
    subst haa
    have haid := application_findById_id ha
    have hpid := project_findById_id hp
    rw [putApplicationStatus_eq_handler db user _ _ hrole,
      updateApplicationStatus_accept db user aid1 a1 p ha hp hauth hnc (hna rfl),
      (saveApplicationStatus_store _ a1 "accepted" (Or.inr (by decide))).2]
    have h1 := hfan i b hi (by
      rintro ⟨h1, _, h3⟩
      rcases hframe with h | h
      · exact h h1
      · exact h h3)
    rw [← hpid] at h1
    show (if "accepted" = a1.status then _ else _)[i]? = _
    split
    · exact h1
    · exact updateOne_getElem?_of_false (fun b => b._id == a1._id)
        (fun b => { b with status := "accepted" }) _ i _ h1 (by simpa [haid] using hne)
  · rw [hsame]
    exact hi

/-- Witness of C9: `A1` is accepted while `A2` is already rejected; `A2` stays
as it is. -/
theorem accept_fanout_frame_witness :
    (putApplicationStatus
      { projects := [Scenario.P1],
        applications := [Scenario.A1, { Scenario.A2 with status := "withdrawn" }] }
      (.ok Scenario.client) (.valid 100) "accepted").2.applications[1]? =
      some { Scenario.A2 with status := "withdrawn" } :=
  (accept_fanout_frame
    { projects := [Scenario.P1],
      applications := [Scenario.A1, { Scenario.A2 with status := "withdrawn" }] }
    (.ok Scenario.client) 100 Scenario.A1 (by decide)).1 1
    { Scenario.A2 with status := "withdrawn" } (by decide) (by decide) (Or.inr (by decide))

/-! ## Submitting an application -/

/-- The role gate of the submit route lets freelancers through. -/
theorem authorizeRoles_freelancer (user : User) (h : user.role = "freelancer") :
    authorizeRoles ["freelancer"] (some user) = .ok () := by
  simp [authorizeRoles, h]

/-- C10. Project `p` is open, freelancer `user` has no application on it, the
bid parses to a number that is not `NaN` and not `<= 0` (the number being the
value read, rounded to binary64), the cover letter is not empty, and the id
generated for the new document is not in use. Then the submit is answered 201
with the new application, the applications are the ones before followed by the
new one (project `p`, freelancer `user`, the parsed bid, status `pending`), and
the projects, `p` among them, are what they were. -/
theorem submit_first_application (db : Store) (user : User) (pid : ObjectId) (p : Project)
    (bid : JsonValue) (cover : String) (newId : ObjectId) (now : Nat)
    (hrole : user.role = "freelancer")
    (hp : Project.findById db.projects pid = some p) (hopen : p.status = "open")
    (hfirst : ∀ a ∈ db.applications, ¬ (a.project = pid ∧ a.freelancer = user.id))
    (hnum : (parseFloat bid).isNaN = false) (hpos : (parseFloat bid).leZero = false)
    (hcover : cover ≠ "")
    (hfresh : ∀ a ∈ db.applications, a._id ≠ newId) :
    postApplication db (.ok user)
        { projectId := some (.valid pid), bidAmount := some bid, coverLetter := some cover }
        newId now =
      ({ status := 201, message := "Application submitted successfully!",
         application := some
           { _id := newId, project := pid, freelancer := user.id, bidAmount := parseFloat bid,
             coverLetter := cover, status := "pending", applicationDate := now } },
       { projects := db.projects,
         applications := db.applications ++
           [{ _id := newId, project := pid, freelancer := user.id, bidAmount := parseFloat bid,
              coverLetter := cover, status := "pending", applicationDate := now }] }) ∧
    Project.findById
      (postApplication db (.ok user)
        { projectId := some (.valid pid), bidAmount := some bid, coverLetter := some cover }
        newId now).2.projects pid = some p ∧
    p.status = "open" := by
  have hone : Application.findOne db.applications pid user.id = none := by
    unfold Application.findOne
    rw [List.find?_eq_none]
    intro a ha
    simpa using hfirst a ha
  have hany1 : db.applications.any (fun a => a._id == newId) = false := by
    rw [List.any_eq_false]
    intro a ha
    simpa using hfresh a ha
  have hany2 : db.applications.any
      (fun a => a.project == pid && a.freelancer == user.id) = false := by
    rw [List.any_eq_false]
    intro a ha
    simpa using hfirst a ha
  have hmain : postApplication db (.ok user)
        { projectId := some (.valid pid), bidAmount := some bid, coverLetter := some cover }
        newId now =
      ({ status := 201, message := "Application submitted successfully!",
         application := some
           { _id := newId, project := pid, freelancer := user.id, bidAmount := parseFloat bid,
             coverLetter := cover, status := "pending", applicationDate := now } },
       { projects := db.projects,
         applications := db.applications ++
           [{ _id := newId, project := pid, freelancer := user.id, bidAmount := parseFloat bid,
              coverLetter := cover, status := "pending", applicationDate := now }] }) := by
    simp [postApplication, protect, authorizeRoles_freelancer user hrole, createApplication,
      hnum, hpos, hone, hp, hopen, saveNewApplication, hcover, hany1, hany2]
  rw [hmain]
  exact ⟨rfl, hp, hopen⟩

/-- Witness of C10: a third freelancer bids 450 on the open project of the
scenario, then (on the same store) the string `0.1`, which is stored as the
binary64 value nearest to one tenth. -/
theorem submit_first_application_witness :
    postApplication Scenario.twoPending (.ok Scenario.freelancer3)
        { projectId := some (.valid 1), bidAmount := some (.num 450),
          coverLetter := some "I can do it" } 102 3 =
      ({ status := 201, message := "Application submitted successfully!",
         application := some
           { _id := 102, project := 1, freelancer := 22, bidAmount := parseFloat (.num 450),
             coverLetter := "I can do it", status := "pending", applicationDate := 3 } },
       { projects := [Scenario.P1],
         applications := [Scenario.A1, Scenario.A2] ++
           [{ _id := 102, project := 1, freelancer := 22, bidAmount := parseFloat (.num 450),
              coverLetter := "I can do it", status := "pending", applicationDate := 3 }] }) ∧
    postApplication Scenario.twoPending (.ok Scenario.freelancer3)
        { projectId := some (.valid 1), bidAmount := some (.str "0.1"),
          coverLetter := some "I can do it" } 102 3 =
      ({ status := 201, message := "Application submitted successfully!",
         application := some
           { _id := 102, project := 1, freelancer := 22, bidAmount := parseFloat (.str "0.1"),
             coverLetter := "I can do it", status := "pending", applicationDate := 3 } },
       { projects := [Scenario.P1],
         applications := [Scenario.A1, Scenario.A2] ++
           [{ _id := 102, project := 1, freelancer := 22, bidAmount := parseFloat (.str "0.1"),
              coverLetter := "I can do it", status := "pending", applicationDate := 3 }] }) :=
  ⟨(submit_first_application Scenario.twoPending Scenario.freelancer3 1 Scenario.P1 (.num 450)
      "I can do it" 102 3 (by decide) (by decide) (by decide) (by decide) (by decide!)
      (by decide!) (by decide) (by decide)).1,
   (submit_first_application Scenario.twoPending Scenario.freelancer3 1 Scenario.P1 (.str "0.1")
      "I can do it" 102 3 (by decide) (by decide) (by decide) (by decide) (by decide!)
      (by decide!) (by decide) (by decide)).1⟩

/-- JavaScript `parseFloat('1e-400')` is `0`: the value read lies below half of
the smallest positive binary64 value. -/
theorem parseFloat_underflow : parseFloat (.str "1e-400") = .fin 0 := by
  decide!

/-- JavaScript `parseFloat('1e400')` is `Infinity`: the value read lies past the
largest binary64 value. -/
theorem parseFloat_overflow : parseFloat (.str "1e400") = .posInf := by
  decide!

/-- JavaScript `parseFloat('0.1')` is the binary64 value nearest to one tenth,
`3602879701896397 / 2 ^ 55`. -/
theorem parseFloat_tenth :
    parseFloat (.str "0.1") = .fin (3602879701896397 / 36028797018963968) := by
  decide!

/-- JavaScript reads `9007199254740993`, which is `2 ^ 53 + 1`, as `2 ^ 53`: a
tie goes to the even significand. -/
theorem parseFloat_tie : parseFloat (.str "9007199254740993") = .fin 9007199254740992 := by
  decide!

/-- A bid of `1e-400` is read as `0` and refused with 400, the store as it was;
a bid of `1e400` is read as `Infinity`, passes the test of the handler and the
`min` validator, and is stored. -/
theorem bid_out_of_range :
    postApplication Scenario.twoPending (.ok Scenario.freelancer3)
        { projectId := some (.valid 1), bidAmount := some (.str "1e-400"),
          coverLetter := some "I can do it" } 102 3 =
      ({ status := 400, message := "Bid amount must be a positive number." },
       Scenario.twoPending) ∧
    postApplication Scenario.twoPending (.ok Scenario.freelancer3)
        { projectId := some (.valid 1), bidAmount := some (.str "1e400"),
          coverLetter := some "I can do it" } 102 3 =
      ({ status := 201, message := "Application submitted successfully!",
         application := some
           { _id := 102, project := 1, freelancer := 22, bidAmount := .posInf,
             coverLetter := "I can do it", status := "pending", applicationDate := 3 } },
       { projects := [Scenario.P1],
         applications := [Scenario.A1, Scenario.A2,
           { _id := 102, project := 1, freelancer := 22, bidAmount := .posInf,
             coverLetter := "I can do it", status := "pending", applicationDate := 3 }] }) := by
  decide!

/-- For a freelancer the submit route is its handler. -/
theorem postApplication_eq_handler (db : Store) (user : User) (body : ApplicationBody)
    (newId : ObjectId) (now : Nat) (h : user.role = "freelancer") :
    postApplication db (.ok user) body newId now =
      createApplication db (some user) body newId now := by
  simp [postApplication, protect, authorizeRoles_freelancer user h]

/-- The role gate of the submit route stops every other role. -/
theorem postApplication_other_role (db : Store) (user : User) (body : ApplicationBody)
    (newId : ObjectId) (now : Nat) (h : user.role ≠ "freelancer") :
    postApplication db (.ok user) body newId now =
      ({ status := 403,
         message := "User role " ++ user.role ++ " is not authorized to access this route" },
       db) := by
  simp [postApplication, protect, authorizeRoles, h]

/-- The handler of the submit route on a body with its three fields and a
well-formed project id. -/
theorem createApplication_full (db : Store) (user : User) (pid : ObjectId) (bid : JsonValue)
    (cover : String) (newId : ObjectId) (now : Nat) :
    createApplication db (some user)
        { projectId := some (.valid pid), bidAmount := some bid, coverLetter := some cover }
        newId now =
      if (parseFloat bid).isNaN || (parseFloat bid).leZero then
        ({ status := 400, message := "Bid amount must be a positive number." }, db)
      else
        match Application.findOne db.applications pid user.id with
        | some _ =>
          ({ status := 400, message := "You have already applied for this project." }, db)
        | none =>
          match Project.findById db.projects pid with
          | none =>
            ({ status := 404, message := "Project not found or may have been deleted." }, db)
          | some project =>
            if project.status ≠ "open" then
              ({ status := 400,
                 message := "This project is not currently open for applications. " ++
                   "Current status: " ++ project.status }, db)
            else
              saveNewApplication db
                { _id := newId, project := pid, freelancer := user.id,
                  bidAmount := parseFloat bid, coverLetter := cover,
                  status := "pending", applicationDate := now } := by
  rfl

/-- The insert of a new application either fails and leaves the store (with a
409 only when the pair is already there), or appends the document. -/
theorem saveNewApplication_cases (db : Store) (a : Application) :
    ((saveNewApplication db a).2 = db ∧
      ((saveNewApplication db a).1.status = 400 ∨ (saveNewApplication db a).1.status = 500 ∨
        db.applications.any (fun b => b.project == a.project && b.freelancer == a.freelancer) =
          true)) ∨
    (a.coverLetter ≠ "" ∧
      saveNewApplication db a =
        ({ status := 201, message := "Application submitted successfully!",
           application := some a },
         { projects := db.projects, applications := db.applications ++ [a] })) := by
  unfold saveNewApplication
  by_cases h1 : a.coverLetter = ""
  · rw [if_pos h1]; exact Or.inl ⟨rfl, Or.inl rfl⟩
  · rw [if_neg h1]
    split
    · exact Or.inl ⟨rfl, Or.inl rfl⟩
    · split
      · exact Or.inl ⟨rfl, Or.inr (Or.inl rfl)⟩
      · split
        · rename_i h4
          exact Or.inl ⟨rfl, Or.inr (Or.inr h4)⟩
        · exact Or.inr ⟨h1, rfl⟩

/-- No application of the pair is found exactly when no application of the
store has the pair. -/
theorem findOne_eq_none (applications : List Application) (pid fid : ObjectId) :
    Application.findOne applications pid fid = none ↔
      applications.any (fun b => b.project == pid && b.freelancer == fid) = false := by
  unfold Application.findOne
  rw [List.find?_eq_none, List.any_eq_false]

/-- The submit handler either answers 400, 404 or 500 and leaves the store, or
every check has passed and the new pending application is appended with a
201. -/
theorem createApplication_cases (db : Store) (user : User) (body : ApplicationBody)
    (newId : ObjectId) (now : Nat) :
    ((createApplication db (some user) body newId now).2 = db ∧
      ((createApplication db (some user) body newId now).1.status = 400 ∨
       (createApplication db (some user) body newId now).1.status = 404 ∨
       (createApplication db (some user) body newId now).1.status = 500)) ∨
    (∃ (pid : ObjectId) (bid : JsonValue) (cover : String) (p : Project),
      body = { projectId := some (.valid pid), bidAmount := some bid,
               coverLetter := some cover } ∧
      (parseFloat bid).isNaN = false ∧ (parseFloat bid).leZero = false ∧
      Application.findOne db.applications pid user.id = none ∧
      Project.findById db.projects pid = some p ∧ p.status = "open" ∧ cover ≠ "" ∧
      createApplication db (some user) body newId now =
        ({ status := 201, message := "Application submitted successfully!",
           application := some
             { _id := newId, project := pid, freelancer := user.id,
               bidAmount := parseFloat bid, coverLetter := cover, status := "pending",
               applicationDate := now } },
         { projects := db.projects,
           applications := db.applications ++
             [{ _id := newId, project := pid, freelancer := user.id,
                bidAmount := parseFloat bid, coverLetter := cover, status := "pending",
                applicationDate := now }] })) := by
  obtain ⟨pid?, bid?, cover?⟩ := body
  cases pid? with
  | none => exact Or.inl ⟨rfl, Or.inl rfl⟩
  | some idp =>
    cases bid? with
    | none => exact Or.inl ⟨rfl, Or.inl rfl⟩
    | some bid =>
      cases cover? with
      | none => exact Or.inl ⟨rfl, Or.inl rfl⟩
      | some cover =>
        cases idp with
        | invalid => exact Or.inl ⟨rfl, Or.inl rfl⟩
        | valid pid =>
          rw [createApplication_full]
          by_cases hbid : ((parseFloat bid).isNaN || (parseFloat bid).leZero) = true
          · rw [if_pos hbid]; exact Or.inl ⟨rfl, Or.inl rfl⟩
          · rw [if_neg hbid]
            have hnan : (parseFloat bid).isNaN = false := by
              cases h : (parseFloat bid).isNaN
              · rfl
              · simp [h] at hbid
            have hle : (parseFloat bid).leZero = false := by
              cases h : (parseFloat bid).leZero
              · rfl
              · simp [h] at hbid
            cases hone : Application.findOne db.applications pid user.id with
            | some _ => exact Or.inl ⟨rfl, Or.inl rfl⟩
            | none =>
              cases hp : Project.findById db.projects pid with
              | none => exact Or.inl ⟨rfl, Or.inr (Or.inl rfl)⟩
              | some p =>
                dsimp only
                by_cases hopen : p.status = "open"
                · rw [if_neg (fun h : p.status ≠ "open" => h hopen)]
                  rcases saveNewApplication_cases db
                    { _id := newId, project := pid, freelancer := user.id,
                      bidAmount := parseFloat bid, coverLetter := cover, status := "pending",
                      applicationDate := now } with ⟨h1, h2⟩ | ⟨h1, h3⟩
                  · refine Or.inl ⟨h1, ?_⟩
                    rcases h2 with h | h | h
                    · exact Or.inl h
                    · exact Or.inr (Or.inr h)
                    · rw [(findOne_eq_none db.applications pid user.id).1 hone] at h
                      exact absurd h (by decide)
                  · exact Or.inr ⟨pid, bid, cover, p, rfl, hnan, hle, hone, hp, hopen, h1, h3⟩
                · rw [if_pos (fun h : p.status = "open" => hopen h)]
                  exact Or.inl ⟨rfl, Or.inl rfl⟩

/-- The submit route either leaves the store, with an answer other than 201,
or answers 201. -/
theorem postApplication_cases (db : Store) (auth : Auth) (body : ApplicationBody)
    (newId : ObjectId) (now : Nat) :
    ((postApplication db auth body newId now).2 = db ∧
      (postApplication db auth body newId now).1.status ≠ 201 ∧
      (postApplication db auth body newId now).1.status ≠ 409) ∨
    (∃ (user : User) (pid : ObjectId) (bid : JsonValue) (cover : String) (p : Project),
      auth = .ok user ∧ user.role = "freelancer" ∧
      body = { projectId := some (.valid pid), bidAmount := some bid,
               coverLetter := some cover } ∧
      (parseFloat bid).isNaN = false ∧ (parseFloat bid).leZero = false ∧
      Application.findOne db.applications pid user.id = none ∧
      Project.findById db.projects pid = some p ∧ p.status = "open" ∧ cover ≠ "" ∧
      postApplication db auth body newId now =
        ({ status := 201, message := "Application submitted successfully!",
           application := some
             { _id := newId, project := pid, freelancer := user.id,
               bidAmount := parseFloat bid, coverLetter := cover, status := "pending",
               applicationDate := now } },
         { projects := db.projects,
           applications := db.applications ++
             [{ _id := newId, project := pid, freelancer := user.id,
                bidAmount := parseFloat bid, coverLetter := cover, status := "pending",
                applicationDate := now }] })) := by
  cases auth with
  | noToken =>
    exact Or.inl ⟨rfl, by simp [postApplication, protect], by simp [postApplication, protect]⟩
  | tokenFailed =>
    exact Or.inl ⟨rfl, by simp [postApplication, protect], by simp [postApplication, protect]⟩
  | userNotFound =>
    exact Or.inl ⟨rfl, by simp [postApplication, protect], by simp [postApplication, protect]⟩
  | ok user =>
    by_cases hrole : user.role = "freelancer"
    · rw [postApplication_eq_handler db user body newId now hrole]
      rcases createApplication_cases db user body newId now with ⟨h1, h2⟩ | h
      · refine Or.inl ⟨h1, ?_, ?_⟩
        · rcases h2 with h | h | h <;> rw [h] <;> decide
        · rcases h2 with h | h | h <;> rw [h] <;> decide
      · obtain ⟨pid, bid, cover, p, hb, h1, h2, h3, h4, h5, h6, h7⟩ := h
        exact Or.inr ⟨user, pid, bid, cover, p, rfl, hrole, hb, h1, h2, h3, h4, h5, h6, h7⟩
    · rw [postApplication_other_role db user body newId now hrole]
      exact Or.inl ⟨rfl, by simp, by simp⟩

/-- C11. The second submit of freelancer `20` against `P1`, on which `A1` is
the freelancer's application, is answered 400 `You have already applied for
this project.`, where the claim says 409; the store is as before. -/
theorem second_submit_answers_400 :
    Application.findOne Scenario.twoPending.applications 1 20 = some Scenario.A1 ∧
    postApplication Scenario.twoPending (.ok Scenario.freelancer1)
        { projectId := some (.valid 1), bidAmount := some (.num 450),
          coverLetter := some "Once more" } 102 3 =
      ({ status := 400, message := "You have already applied for this project." },
       Scenario.twoPending) := by
  decide!

/-- C12. A submit of a freelancer against a project that is not open is
answered 400 and leaves the store; and a submit that is answered 201 was made
against a project that is open, the new application on that project being the
one document added. -/
theorem submit_requires_open_project (db : Store) (auth : Auth) (body : ApplicationBody)
    (newId : ObjectId) (now : Nat) :
    (∀ (user : User) (pid : ObjectId) (p : Project), auth = .ok user →
      user.role = "freelancer" → body.projectId = some (.valid pid) →
      Project.findById db.projects pid = some p → p.status ≠ "open" →
      (postApplication db auth body newId now).1.status = 400 ∧
      (postApplication db auth body newId now).2 = db) ∧
    ((postApplication db auth body newId now).1.status = 201 →
      ∃ (pid : ObjectId) (p : Project) (a : Application),
        body.projectId = some (.valid pid) ∧ Project.findById db.projects pid = some p ∧
        p.status = "open" ∧ a.project = pid ∧
        (postApplication db auth body newId now).2 =
          { projects := db.projects, applications := db.applications ++ [a] }) := by
  constructor
  · intro user pid p hauth hrole hid hp hclosed
    subst hauth
    rw [postApplication_eq_handler db user body newId now hrole]
    rcases createApplication_cases db user body newId now with ⟨h1, h2⟩ | h
    · refine ⟨?_, h1⟩
      rcases h2 with h | h | h
      · exact h
      · exfalso
        obtain ⟨pid?, bid?, cover?⟩ := body
        simp only at hid
        subst hid
        cases bid? with
        | none => simp [createApplication] at h
        | some bid =>
          cases cover? with
          | none => simp [createApplication] at h
          | some cover =>
            rw [createApplication_full, hp] at h
            revert h
            split
            · simp
            · split
              · simp
              · simp [hclosed]
      · exfalso
        obtain ⟨pid?, bid?, cover?⟩ := body
        simp only at hid
        subst hid
        cases bid? with
        | none => simp [createApplication] at h
        | some bid =>
          cases cover? with
          | none => simp [createApplication] at h
          | some cover =>
            rw [createApplication_full, hp] at h
            revert h
            split
            · simp
            · split
              · simp
              · simp [hclosed]
    · obtain ⟨pid', bid, cover, p', hb, _, _, _, hp', hopen, _, _⟩ := h
      rw [hb] at hid
      simp only [Option.some.injEq, IdParam.valid.injEq] at hid
      subst hid
      rw [hp'] at hp
      exact absurd ((Option.some.inj hp) ▸ hopen) hclosed
  · intro h201
    rcases postApplication_cases db auth body newId now with ⟨_, h2, _⟩ | h
    · exact absurd h201 h2
    · obtain ⟨user, pid, bid, cover, p, _, _, hb, _, _, _, hp, hopen, _, hres⟩ := h
      exact ⟨pid, p, _, by rw [hb], hp, hopen, rfl, by rw [hres]⟩

/-- Witness of C12: a submit against the assigned `P1` is answered 400, and
the submit of the third freelancer on the open `P1` that is answered 201 was
on an open project. -/
theorem submit_requires_open_project_witness :
    (postApplication Scenario.twoProjects (.ok Scenario.freelancer3)
        { projectId := some (.valid 1), bidAmount := some (.num 450),
          coverLetter := some "I can do it" } 300 9).1.status = 400 ∧
    (∃ (pid : ObjectId) (p : Project) (a : Application),
      (some (IdParam.valid 1) : Option IdParam) = some (.valid pid) ∧
      Project.findById Scenario.twoPending.projects pid = some p ∧
      p.status = "open" ∧ a.project = pid ∧
      (postApplication Scenario.twoPending (.ok Scenario.freelancer3)
          { projectId := some (.valid 1), bidAmount := some (.num 450),
            coverLetter := some "I can do it" } 102 3).2 =
        { projects := Scenario.twoPending.projects,
          applications := Scenario.twoPending.applications ++ [a] }) :=
  ⟨((submit_requires_open_project Scenario.twoProjects (.ok Scenario.freelancer3)
        { projectId := some (.valid 1), bidAmount := some (.num 450),
          coverLetter := some "I can do it" } 300 9).1 Scenario.freelancer3 1
        { Scenario.P1 with assignedTo := some 20, status := "assigned" }
        rfl (by decide) rfl (by decide) (by decide)).1,
   (submit_requires_open_project Scenario.twoPending (.ok Scenario.freelancer3)
        { projectId := some (.valid 1), bidAmount := some (.num 450),
          coverLetter := some "I can do it" } 102 3).2 (by decide!)⟩

/-- C13, as stated, fails: project `1` is not in the store, the store holds an
application of freelancer `20` for it, and the submit of freelancer `20` with
a well-formed id, a positive bid and a cover letter is answered 400 `You have
already applied for this project.`, not 404. -/
theorem submit_unknown_project_counterexample :
    Project.findById Scenario.dangling.projects 1 = none ∧
    postApplication Scenario.dangling (.ok Scenario.freelancer1)
        { projectId := some (.valid 1), bidAmount := some (.num 450),
          coverLetter := some "Once more" } 102 3 =
      ({ status := 400, message := "You have already applied for this project." },
       Scenario.dangling) := by
  decide!

/-- C13, amended. The submit of a freelancer carries a well-formed project id
that resolves to no project, a bid that parses to a number that is not `<= 0`
and a cover letter, and the store holds no application of the freelancer for
that id. Then it is answered 404 `Project not found or may have been deleted.`
and the store is as before. -/
theorem submit_unknown_project (db : Store) (user : User) (pid : ObjectId) (bid : JsonValue)
    (cover : String) (newId : ObjectId) (now : Nat)
    (hrole : user.role = "freelancer")
    (hnum : (parseFloat bid).isNaN = false) (hpos : (parseFloat bid).leZero = false)
    (hfirst : Application.findOne db.applications pid user.id = none)
    (hp : Project.findById db.projects pid = none) :
    postApplication db (.ok user)
        { projectId := some (.valid pid), bidAmount := some bid, coverLetter := some cover }
        newId now =
      ({ status := 404, message := "Project not found or may have been deleted." }, db) := by
  rw [postApplication_eq_handler db user _ newId now hrole, createApplication_full]
  simp [hnum, hpos, hfirst, hp]

/-- Witness of C13, amended: the third freelancer submits on project `999`. -/
theorem submit_unknown_project_witness :
    postApplication Scenario.twoPending (.ok Scenario.freelancer3)
        { projectId := some (.valid 999), bidAmount := some (.num 450),
          coverLetter := some "I can do it" } 102 3 =
      ({ status := 404, message := "Project not found or may have been deleted." },
       Scenario.twoPending) :=
  submit_unknown_project Scenario.twoPending Scenario.freelancer3 999 (.num 450) "I can do it"
    102 3 (by decide) (by decide!) (by decide!) (by decide) (by decide)

/-- C14, as stated, fails: the cover letter is empty and project `999` is not
in the store; the submit is answered 404, not 400. -/
theorem submit_empty_cover_counterexample :
    postApplication Scenario.twoPending (.ok Scenario.freelancer3)
        { projectId := some (.valid 999), bidAmount := some (.num 450),
          coverLetter := some "" } 102 3 =
      ({ status := 404, message := "Project not found or may have been deleted." },
       Scenario.twoPending) := by
  decide!

/-- C14, amended. For the submit of a freelancer: a bid that parses to a
number `<= 0` is answered 400; an empty cover letter is answered 400, or 404
when the project id is well-formed and resolves to no project; the store is as
before in both cases. And after a submit answered 201 the store is the one
before with one more application, whose bid is a number that is not `<= 0` and
whose cover letter is not empty. -/
theorem submit_rejects_bad_bid_and_cover (db : Store) (user : User) (body : ApplicationBody)
    (newId : ObjectId) (now : Nat) (hrole : user.role = "freelancer") :
    (∀ bid : JsonValue, body.bidAmount = some bid → (parseFloat bid).leZero = true →
      (postApplication db (.ok user) body newId now).1.status = 400 ∧
      (postApplication db (.ok user) body newId now).2 = db) ∧
    (body.coverLetter = some "" →
      (postApplication db (.ok user) body newId now).2 = db ∧
      ((postApplication db (.ok user) body newId now).1.status = 400 ∨
        ((postApplication db (.ok user) body newId now).1.status = 404 ∧
          ∃ pid : ObjectId, body.projectId = some (.valid pid) ∧
            Project.findById db.projects pid = none))) ∧
    ((postApplication db (.ok user) body newId now).1.status = 201 →
      ∃ a : Application,
        (postApplication db (.ok user) body newId now).2 =
          { projects := db.projects, applications := db.applications ++ [a] } ∧
        a.bidAmount.isNaN = false ∧ a.bidAmount.leZero = false ∧ a.coverLetter ≠ "") := by
  refine ⟨?_, ?_, ?_⟩
  · intro bid hbid hle
    rw [postApplication_eq_handler db user body newId now hrole]
    obtain ⟨pid?, bid?, cover?⟩ := body
    simp only at hbid
    subst hbid
    cases pid? with
    | none => exact ⟨rfl, rfl⟩
    | some idp =>
      cases cover? with
      | none => exact ⟨rfl, rfl⟩
      | some cover =>
        cases idp with
        | invalid => exact ⟨rfl, rfl⟩
        | valid pid =>
          rw [createApplication_full]
          simp [hle]
  · intro hcover
    rw [postApplication_eq_handler db user body newId now hrole]
    rcases createApplication_cases db user body newId now with ⟨h1, h2⟩ | h
    · refine ⟨h1, ?_⟩
      rcases h2 with h | h | h
      · exact Or.inl h
      · refine Or.inr ⟨h, ?_⟩
        obtain ⟨pid?, bid?, cover?⟩ := body
        simp only at hcover
        subst hcover
        cases pid? with
        | none => simp [createApplication] at h
        | some idp =>
          cases bid? with
          | none => simp [createApplication] at h
          | some bid =>
            cases idp with
            | invalid => simp [createApplication] at h
            | valid pid =>
              refine ⟨pid, rfl, ?_⟩
              rw [createApplication_full] at h
              revert h
              split
              · simp
              · split
                · simp
                · cases hp : Project.findById db.projects pid with
                  | none => intro _; rfl
                  | some p =>
                    dsimp only
                    split
                    · simp
                    · simp [saveNewApplication]
      · exfalso
        obtain ⟨pid?, bid?, cover?⟩ := body
        simp only at hcover
        subst hcover
        cases pid? with
        | none => simp [createApplication] at h
        | some idp =>
          cases bid? with
          | none => simp [createApplication] at h
          | some bid =>
            cases idp with
            | invalid => simp [createApplication] at h
            | valid pid =>
              rw [createApplication_full] at h
              revert h
              split
              · simp
              · split
                · simp
                · split
                  · simp
                  · split
                    · simp
                    · simp [saveNewApplication]
    · obtain ⟨pid, bid, cover, p, hb, _, _, _, _, _, hne, _⟩ := h
      rw [hb] at hcover
      simp only [Option.some.injEq] at hcover
      exact absurd hcover hne
  · intro h201
    rcases postApplication_cases db (.ok user) body newId now with ⟨_, h2, _⟩ | h
    · exact absurd h201 h2
    · obtain ⟨u, pid, bid, cover, p, _, _, _, hnan, hle, _, _, _, hne, hres⟩ := h
      exact ⟨_, by rw [hres], hnan, hle, hne⟩

/-- Witness of C14, amended: on the scenario a bid of `0` and a bid of `-5`
are answered 400, an empty cover letter on the open `P1` is answered 400, and the
application a 201 adds has a positive bid and a cover letter. -/
theorem submit_rejects_bad_bid_and_cover_witness :
    (postApplication Scenario.twoPending (.ok Scenario.freelancer3)
        { projectId := some (.valid 1), bidAmount := some (.num 0),
          coverLetter := some "I can do it" } 102 3).1.status = 400 ∧
    (postApplication Scenario.twoPending (.ok Scenario.freelancer3)
        { projectId := some (.valid 1), bidAmount := some (.num (-5)),
          coverLetter := some "I can do it" } 102 3).2 = Scenario.twoPending ∧
    (postApplication Scenario.twoPending (.ok Scenario.freelancer3)
        { projectId := some (.valid 1), bidAmount := some (.num 450),
          coverLetter := some "" } 102 3).2 = Scenario.twoPending ∧
    (∃ a : Application,
      (postApplication Scenario.twoPending (.ok Scenario.freelancer3)
          { projectId := some (.valid 1), bidAmount := some (.num 450),
            coverLetter := some "I can do it" } 102 3).2 =
        { projects := Scenario.twoPending.projects,
          applications := Scenario.twoPending.applications ++ [a] } ∧
      a.bidAmount.isNaN = false ∧ a.bidAmount.leZero = false ∧ a.coverLetter ≠ "") :=
  ⟨((submit_rejects_bad_bid_and_cover Scenario.twoPending Scenario.freelancer3
        { projectId := some (.valid 1), bidAmount := some (.num 0),
          coverLetter := some "I can do it" } 102 3 (by decide)).1 (.num 0) rfl
        (by decide)).1,
   ((submit_rejects_bad_bid_and_cover Scenario.twoPending Scenario.freelancer3
        { projectId := some (.valid 1), bidAmount := some (.num (-5)),
          coverLetter := some "I can do it" } 102 3 (by decide)).1 (.num (-5)) rfl
        (by decide!)).2,
   ((submit_rejects_bad_bid_and_cover Scenario.twoPending Scenario.freelancer3
        { projectId := some (.valid 1), bidAmount := some (.num 450),
          coverLetter := some "" } 102 3 (by decide)).2.1 rfl).1,
   (submit_rejects_bad_bid_and_cover Scenario.twoPending Scenario.freelancer3
        { projectId := some (.valid 1), bidAmount := some (.num 450),
          coverLetter := some "I can do it" } 102 3 (by decide)).2.2 (by decide!)⟩

/-! ## Invariants of the store -/

theorem map_updateOne {α β : Type} (filter : α → Bool) (update : α → α) (g : α → β)
    (xs : List α) (hg : ∀ x, g (update x) = g x) :
    (updateOne filter update xs).map g = xs.map g := by
  induction xs with
  | nil => rfl
  | cons x xs ih =>
    unfold updateOne
    split
    · simp [hg]
    · simp [ih]

theorem map_updateMany {α β : Type} (filter : α → Bool) (update : α → α) (g : α → β)
    (xs : List α) (hg : ∀ x, g (update x) = g x) :
    (updateMany filter update xs).map g = xs.map g := by
  unfold updateMany
  rw [List.map_map]
  apply List.map_congr_left
  intro x _
  simp only [Function.comp]
  split
  · exact hg x
  · rfl

theorem mem_updateOne {α : Type} (filter : α → Bool) (update : α → α) (xs : List α) (y : α)
    (hy : y ∈ updateOne filter update xs) : y ∈ xs ∨ ∃ x ∈ xs, y = update x := by
  induction xs with
  | nil => simp [updateOne] at hy
  | cons x xs ih =>
    unfold updateOne at hy
    split at hy
    · rcases List.mem_cons.1 hy with h | h
      · exact Or.inr ⟨x, List.mem_cons_self x xs, h⟩
      · exact Or.inl (List.mem_cons_of_mem x h)
    · rcases List.mem_cons.1 hy with h | h
      · exact Or.inl (h ▸ List.mem_cons_self x xs)
      · rcases ih h with h1 | ⟨z, hz, hz2⟩
        · exact Or.inl (List.mem_cons_of_mem x h1)
        · exact Or.inr ⟨z, List.mem_cons_of_mem x hz, hz2⟩

theorem mem_updateMany {α : Type} (filter : α → Bool) (update : α → α) (xs : List α) (y : α)
    (hy : y ∈ updateMany filter update xs) :
    (y ∈ xs ∧ filter y = false) ∨ ∃ x ∈ xs, filter x = true ∧ y = update x := by
  unfold updateMany at hy
  obtain ⟨x, hx, hxy⟩ := List.mem_map.1 hy
  by_cases hf : filter x = true
  · rw [if_pos hf] at hxy
    exact Or.inr ⟨x, hx, hf, hxy.symm⟩
  · rw [if_neg hf] at hxy
    subst hxy
    exact Or.inl ⟨hx, by simpa using hf⟩

theorem deleteOne_sublist {α : Type} (filter : α → Bool) (xs : List α) :
    (deleteOne filter xs).Sublist xs := by
  induction xs with
  | nil => exact List.Sublist.refl _
  | cons x xs ih =>
    unfold deleteOne
    split
    · exact List.sublist_cons_self x xs
    · exact ih.cons₂ x

theorem deleteMany_sublist {α : Type} (filter : α → Bool) (xs : List α) :
    (deleteMany filter xs).Sublist xs :=
  List.filter_sublist xs

/-- The cascade over the projects of a client only removes documents. -/
theorem deleteClientProjects_sublist (clientProjects : List Project) (db : Store) :
    (deleteClientProjects clientProjects db).projects.Sublist db.projects ∧
    (deleteClientProjects clientProjects db).applications.Sublist db.applications := by
  induction clientProjects generalizing db with
  | nil => exact ⟨List.Sublist.refl _, List.Sublist.refl _⟩
  | cons q qs ih =>
    have h := ih
      { projects := deleteOne (fun x => x._id == q._id) db.projects,
        applications := deleteMany (fun a => a.project == q._id) db.applications }
    exact ⟨h.1.trans (deleteOne_sublist _ _), h.2.trans (deleteMany_sublist _ _)⟩

/-- The store after a status change: the store before; or, for an accept, the
project assigned, the other pending applications rejected and the application
accepted; or the application with the requested status. -/
theorem putApplicationStatus_store (db : Store) (auth : Auth) (id : IdParam) (status : String) :
    (putApplicationStatus db auth id status).2 = db ∨
    (∃ (a : Application) (p : Project) (aid : ObjectId),
      (putApplicationStatus db auth id status).2 =
        { projects := updateOne (fun q => q._id == p._id)
            (fun q => { q with assignedTo := some a.freelancer, status := "assigned" })
            db.projects,
          applications :=
            if "accepted" = a.status then
              updateMany (otherPending p._id aid) (fun b => { b with status := "rejected" })
                db.applications
            else
              updateOne (fun b => b._id == a._id) (fun b => { b with status := "accepted" })
                (updateMany (otherPending p._id aid) (fun b => { b with status := "rejected" })
                  db.applications) }) ∨
    (∃ a : Application,
      (putApplicationStatus db auth id status).2 =
        { projects := db.projects,
          applications := updateOne (fun b => b._id == a._id)
            (fun b => { b with status := status }) db.applications }) := by
  rcases putApplicationStatus_ok_or_unchanged db auth id status with hok | hsame
  · obtain ⟨user, aid, a, p, hauth1, hid, hrole, ha, hp, hauth, hnc, hna, hsave⟩ :=
      putApplicationStatus_200 db auth id status hok
    subst hauth1
    subst hid
    by_cases hs : status = "accepted"
    · subst hs
      right; left
      refine ⟨a, p, aid, ?_⟩
      rw [putApplicationStatus_eq_handler db user _ _ hrole,
        updateApplicationStatus_accept db user aid a p ha hp hauth hnc (hna rfl),
        (saveApplicationStatus_store _ a "accepted" (Or.inr (by decide))).2]
    · rw [putApplicationStatus_eq_handler db user _ _ hrole,
        updateApplicationStatus_other db user aid a p status ha hp hauth hnc hs,
        (saveApplicationStatus_store db a status hsave).2]
      by_cases hsa : status = a.status
      · left
        rw [if_pos hsa]
      · right; right
        refine ⟨a, ?_⟩
        rw [if_neg hsa]
  · exact Or.inl hsame

/-- A status change neither adds nor removes an application and changes
nothing but the status of one. -/
theorem putApplicationStatus_map (db : Store) (auth : Auth) (id : IdParam) (status : String)
    {β : Type} (g : Application → β) (hg : ∀ (a : Application) (st : String),
      g { a with status := st } = g a) :
    (putApplicationStatus db auth id status).2.applications.map g = db.applications.map g := by
  rcases putApplicationStatus_store db auth id status with h | ⟨a, p, aid, h⟩ | ⟨a, h⟩
  · rw [h]
  · rw [h]
    show List.map g (ite _ _ _) = _
    split
    · exact map_updateMany _ _ g _ (fun x => hg x "rejected")
    · rw [map_updateOne _ _ g _ (fun x => hg x "accepted")]
      exact map_updateMany _ _ g _ (fun x => hg x "rejected")
  · rw [h]
    exact map_updateOne _ _ g _ (fun x => hg x status)

/-- The store after a delete of an application: the store before, or the
store before without the first application under the id. -/
theorem deleteApplication_store (db : Store) (auth : Auth) (id : IdParam) :
    (deleteApplication db auth id).2 = db ∨
    ∃ aid : ObjectId, (deleteApplication db auth id).2 =
      { projects := db.projects,
        applications := deleteOne (fun a => a._id == aid) db.applications } := by
  unfold deleteApplication
  cases protect auth with
  | error r => exact Or.inl rfl
  | ok user =>
    dsimp only
    cases authorizeRoles ["freelancer", "admin"] (some user) with
    | error r => exact Or.inl rfl
    | ok _ =>
      dsimp only
      unfold removeApplication
      cases id with
      | invalid => exact Or.inl rfl
      | valid aid =>
        dsimp only
        cases Application.findById db.applications aid with
        | none => exact Or.inl rfl
        | some a =>
          dsimp only
          split
          · exact Or.inl rfl
          · exact Or.inr ⟨aid, rfl⟩

/-- The store after a project is posted: the store before, or the store before
with one more project, open and unassigned. -/
theorem postProject_store (db : Store) (auth : Auth) (body : ProjectBody) (newId : ObjectId) :
    (postProject db auth body newId).2 = db ∨
    ∃ p : Project, p.status = "open" ∧ p.assignedTo = none ∧
      (postProject db auth body newId).2 =
        { projects := db.projects ++ [p], applications := db.applications } := by
  unfold postProject
  cases protect auth with
  | error r => exact Or.inl rfl
  | ok user =>
    dsimp only
    cases authorizeRoles ["client"] (some user) with
    | error r => exact Or.inl rfl
    | ok _ =>
      dsimp only
      unfold createProject
      split
      · exact Or.inl rfl
      · split
        · exact Or.inl rfl
        · split
          · exact Or.inl rfl
          · exact Or.inr ⟨_, rfl, rfl, rfl⟩

/-- The general update of a project changes no application. -/
theorem putProject_applications (db : Store) (auth : Auth) (id : IdParam)
    (body : ProjectUpdateBody) :
    (putProject db auth id body).2.applications = db.applications := by
  unfold putProject
  cases protect auth with
  | error r => rfl
  | ok user =>
    dsimp only
    cases authorizeRoles ["client", "admin"] (some user) with
    | error r => rfl
    | ok _ =>
      dsimp only
      unfold updateProject
      cases id with
      | invalid => rfl
      | valid pid =>
        dsimp only
        cases Project.findById db.projects pid with
        | none => rfl
        | some p =>
          dsimp only
          split
          · rfl
          · unfold saveProjectUpdate
            split <;> (try rfl) <;> (split <;> rfl)

/-- The status edit of a project changes no application. -/
theorem putProjectStatus_applications (db : Store) (auth : Auth) (id : IdParam)
    (status : Option String) :
    (putProjectStatus db auth id status).2.applications = db.applications := by
  unfold putProjectStatus
  cases protect auth with
  | error r => rfl
  | ok user =>
    dsimp only
    cases authorizeRoles ["client", "admin"] (some user) with
    | error r => rfl
    | ok _ =>
      dsimp only
      unfold updateProjectStatus
      cases id with
      | invalid => rfl
      | valid pid =>
        dsimp only
        cases Project.findById db.projects pid with
        | none => rfl
        | some p =>
          dsimp only
          split
          · rfl
          · cases status with
            | none => rfl
            | some st =>
              dsimp only
              split <;> rfl

/-- The store after a delete of a project: the store before, or the store
before without the first project under the id and without the applications on
that id. -/
theorem deleteProject_store (db : Store) (auth : Auth) (id : IdParam) :
    (deleteProject db auth id).2 = db ∨
    ∃ pid : ObjectId, (deleteProject db auth id).2 =
      { projects := deleteOne (fun q => q._id == pid) db.projects,
        applications := deleteMany (fun a => a.project == pid) db.applications } := by
  unfold deleteProject
  cases protect auth with
  | error r => exact Or.inl rfl
  | ok user =>
    dsimp only
    cases authorizeRoles ["client", "admin"] (some user) with
    | error r => exact Or.inl rfl
    | ok _ =>
      dsimp only
      unfold removeProject
      cases id with
      | invalid => exact Or.inl rfl
      | valid pid =>
        dsimp only
        cases Project.findById db.projects pid with
        | none => exact Or.inl rfl
        | some p =>
          dsimp only
          split
          · exact Or.inl rfl
          · exact Or.inr ⟨pid, rfl⟩

/-- The store after a delete of a user: the store before; or the cascade over
the projects of the client; or the projects of the freelancer reset and the
applications of the freelancer deleted. -/
theorem deleteUser_store (s : Database) (auth : Auth) (id : IdParam) :
    (deleteUser s auth id).2.store = s.store ∨
    (∃ uid : ObjectId, (deleteUser s auth id).2.store =
      deleteClientProjects (s.store.projects.filter (fun p => p.client == uid)) s.store) ∨
    (∃ uid : ObjectId, (deleteUser s auth id).2.store =
      { projects := updateMany (fun p => p.assignedTo == some uid)
          (fun p => { p with assignedTo := none, status := "open" }) s.store.projects,
        applications := deleteMany (fun a => a.freelancer == uid) s.store.applications }) := by
  unfold deleteUser
  cases protect auth with
  | error r => exact Or.inl rfl
  | ok user =>
    dsimp only
    cases authorizeRoles ["admin"] (some user) with
    | error r => exact Or.inl rfl
    | ok _ =>
      dsimp only
      unfold removeUser
      cases id with
      | invalid => exact Or.inl rfl
      | valid uid =>
        dsimp only
        cases User.findById s.users uid with
        | none => exact Or.inl rfl
        | some u =>
          dsimp only
          split
          · exact Or.inr (Or.inl ⟨uid, rfl⟩)
          · split
            · exact Or.inr (Or.inr ⟨uid, rfl⟩)
            · exact Or.inl rfl

/-- C15. Uniqueness invariant: if the store holds at most one application per
(project, freelancer) pair, it still does after every request to a writing
route of the server: submit, status change, application delete, project
create, update, status edit and delete, admin user delete. -/
theorem unique_pairs_preserved (s : Database) (r : Request) (h : s.store.uniquePairs) :
    (serve s r).2.store.uniquePairs := by
  unfold Store.uniquePairs at h ⊢
  cases r with
  | postApplication auth body newId now =>
    show ((postApplication s.store auth body newId now).2.applications.map _).Nodup
    rcases postApplication_cases s.store auth body newId now with
      ⟨h1, _, _⟩ | ⟨user, pid, bid, cover, p, _, _, _, _, _, hone, _, _, _, hres⟩
    · rw [h1]; exact h
    · rw [hres]
      simp only [List.map_append, List.map_cons, List.map_nil]
      apply List.Nodup.append h (List.nodup_singleton _)
      intro x hx hx2
      rw [List.mem_singleton] at hx2
      subst hx2
      obtain ⟨b, hb, hbx⟩ := List.mem_map.1 hx
      have hnone := (findOne_eq_none s.store.applications pid user.id).1 hone
      rw [List.any_eq_false] at hnone
      apply hnone b hb
      simp only [Prod.mk.injEq] at hbx
      simp [hbx.1, hbx.2]
  | putApplicationStatus auth id status =>
    show ((putApplicationStatus s.store auth id status).2.applications.map _).Nodup
    rw [putApplicationStatus_map s.store auth id status (fun a => (a.project, a.freelancer))
      (fun a st => rfl)]
    exact h
  | deleteApplication auth id =>
    show ((deleteApplication s.store auth id).2.applications.map _).Nodup
    rcases deleteApplication_store s.store auth id with h1 | ⟨aid, h1⟩
    · rw [h1]; exact h
    · rw [h1]; exact h.sublist ((deleteOne_sublist _ _).map _)
  | postProject auth body newId =>
    show ((postProject s.store auth body newId).2.applications.map _).Nodup
    rcases postProject_store s.store auth body newId with h1 | ⟨p, _, _, h1⟩
    · rw [h1]; exact h
    · rw [h1]; exact h
  | putProject auth id body =>
    show ((putProject s.store auth id body).2.applications.map _).Nodup
    rw [putProject_applications]; exact h
  | putProjectStatus auth id status =>
    show ((putProjectStatus s.store auth id status).2.applications.map _).Nodup
    rw [putProjectStatus_applications]; exact h
  | deleteProject auth id =>
    show ((deleteProject s.store auth id).2.applications.map _).Nodup
    rcases deleteProject_store s.store auth id with h1 | ⟨pid, h1⟩
    · rw [h1]; exact h
    · rw [h1]; exact h.sublist ((deleteMany_sublist _ _).map _)
  | deleteUser auth id =>
    show ((deleteUser s auth id).2.store.applications.map _).Nodup
    rcases deleteUser_store s auth id with h1 | ⟨uid, h1⟩ | ⟨uid, h1⟩
    · rw [h1]; exact h
    · rw [h1]; exact h.sublist ((deleteClientProjects_sublist _ _).2.map _)
    · rw [h1]; exact h.sublist ((deleteMany_sublist _ _).map _)

/-- Witness of C15: the third freelancer submits on `P1` of the scenario,
where the two applications are of two other freelancers. -/
theorem unique_pairs_preserved_witness :
    (serve { users := Scenario.users, store := Scenario.twoPending }
      (.postApplication (.ok Scenario.freelancer3)
        { projectId := some (.valid 1), bidAmount := some (.num 450),
          coverLetter := some "I can do it" } 102 3)).2.store.uniquePairs :=
  unique_pairs_preserved { users := Scenario.users, store := Scenario.twoPending }
    (.postApplication (.ok Scenario.freelancer3)
      { projectId := some (.valid 1), bidAmount := some (.num 450),
        coverLetter := some "I can do it" } 102 3) (by decide)

/-- One request that is not a direct edit of a project keeps the assignment
invariant. -/
theorem assignmentInvariant_step (s : Database) (r : Request) (hno : r.editsProject = false)
    (h : s.store.assignmentInvariant) : (serve s r).2.store.assignmentInvariant := by
  unfold Store.assignmentInvariant at h ⊢
  cases r with
  | postApplication auth body newId now =>
    show ∀ q ∈ (postApplication s.store auth body newId now).2.projects, _
    rcases postApplication_cases s.store auth body newId now with
      ⟨h1, _, _⟩ | ⟨user, pid, bid, cover, p, _, _, _, _, _, _, _, _, _, hres⟩
    · rw [h1]; exact h
    · rw [hres]; exact h
  | putApplicationStatus auth id status =>
    show ∀ q ∈ (putApplicationStatus s.store auth id status).2.projects, _
    rcases putApplicationStatus_store s.store auth id status with
      h1 | ⟨a, p, aid, h1⟩ | ⟨a, h1⟩
    · rw [h1]; exact h
    · rw [h1]
      intro q hq
      rcases mem_updateOne _ _ _ q hq with hq1 | ⟨x, _, hx⟩
      · exact h q hq1
      · rw [hx]
        simp [Project.assignmentConsistent]
    · rw [h1]; exact h
  | deleteApplication auth id =>
    show ∀ q ∈ (deleteApplication s.store auth id).2.projects, _
    rcases deleteApplication_store s.store auth id with h1 | ⟨aid, h1⟩
    · rw [h1]; exact h
    · rw [h1]; exact h
  | postProject auth body newId =>
    show ∀ q ∈ (postProject s.store auth body newId).2.projects, _
    rcases postProject_store s.store auth body newId with h1 | ⟨p, hp1, hp2, h1⟩
    · rw [h1]; exact h
    · rw [h1]
      intro q hq
      rcases List.mem_append.1 hq with hq1 | hq1
      · exact h q hq1
      · rw [List.mem_singleton] at hq1
        subst hq1
        simp [Project.assignmentConsistent, hp1, hp2]
  | putProject auth id body => simp [Request.editsProject] at hno
  | putProjectStatus auth id status => simp [Request.editsProject] at hno
  | deleteProject auth id =>
    show ∀ q ∈ (deleteProject s.store auth id).2.projects, _
    rcases deleteProject_store s.store auth id with h1 | ⟨pid, h1⟩
    · rw [h1]; exact h
    · rw [h1]
      intro q hq
      exact h q ((deleteOne_sublist _ _).subset hq)
  | deleteUser auth id =>
    show ∀ q ∈ (deleteUser s auth id).2.store.projects, _
    rcases deleteUser_store s auth id with h1 | ⟨uid, h1⟩ | ⟨uid, h1⟩
    · rw [h1]; exact h
    · rw [h1]
      intro q hq
      exact h q ((deleteClientProjects_sublist _ _).1.subset hq)
    · rw [h1]
      intro q hq
      rcases mem_updateMany _ _ _ q hq with ⟨hq1, _⟩ | ⟨x, _, _, hx⟩
      · exact h q hq1
      · rw [hx]
        simp [Project.assignmentConsistent]

/-- C16, as stated, fails: in the scenario every project satisfies the
assignment invariant; after the owner's status edit to `assigned` the project
has that status and nobody assigned, and after the owner's general update with
`assignedTo` the project has somebody assigned and the status `open`. -/
theorem assignment_invariant_counterexample :
    Scenario.twoPending.assignmentInvariant ∧
    ¬ (serve { users := Scenario.users, store := Scenario.twoPending }
        (.putProjectStatus (.ok Scenario.client) (.valid 1)
          (some "assigned"))).2.store.assignmentInvariant ∧
    ¬ (serve { users := Scenario.users, store := Scenario.twoPending }
        (.putProject (.ok Scenario.client) (.valid 1)
          { title := none, description := none, budget := none, skillsRequired := none,
            assignedTo := some (some (.valid 20)) })).2.store.assignmentInvariant := by
  decide

/-- C16, amended. In every state reached from a state that satisfies it
through requests to the writing routes other than the two direct edits of a
project (the general update and the status edit), that is through application
submit, status change and delete, project create and delete and admin user
delete, every project has somebody assigned if and only if its status is
`assigned`, `in progress` or `completed`. -/
theorem assignment_invariant_preserved (s : Database) (requests : List Request)
    (hno : ∀ r ∈ requests, r.editsProject = false) (h : s.store.assignmentInvariant) :
    (serveAll s requests).store.assignmentInvariant := by
  induction requests generalizing s with
  | nil => exact h
  | cons r rs ih =>
    show (serveAll (serve s r).2 rs).store.assignmentInvariant
    exact ih (serve s r).2 (fun x hx => hno x (List.mem_cons_of_mem r hx))
      (assignmentInvariant_step s r (hno r (List.mem_cons_self r rs)) h)

/-- Witness of C16, amended: in the scenario the client accepts `A1`, then
the admin deletes freelancer `20`. -/
theorem assignment_invariant_preserved_witness :
    (serveAll { users := Scenario.users, store := Scenario.twoPending }
      [.putApplicationStatus (.ok Scenario.client) (.valid 100) "accepted",
       .deleteUser (.ok Scenario.admin) (.valid 20)]).store.assignmentInvariant :=
  assignment_invariant_preserved { users := Scenario.users, store := Scenario.twoPending }
    [.putApplicationStatus (.ok Scenario.client) (.valid 100) "accepted",
     .deleteUser (.ok Scenario.admin) (.valid 20)] (by decide) (by decide)

/-! ## Deleting applications, projects and users -/

theorem deleteOne_eq_erase {α : Type} [DecidableEq α] (filter : α → Bool) (xs : List α) (a : α)
    (h : xs.find? filter = some a) : deleteOne filter xs = xs.erase a := by
  induction xs with
  | nil => simp at h
  | cons x xs ih =>
    unfold deleteOne
    by_cases hx : filter x = true
    · simp only [List.find?, hx] at h
      have hxa : x = a := Option.some.inj h
      subst hxa
      simp [hx]
    · have hx2 : filter x = false := by simpa using hx
      simp only [List.find?, hx2] at h
      have hfa : filter a = true := List.find?_some h
      have hne : ¬ x = a := fun hh => by rw [hh, hfa] at hx2; exact absurd hx2 (by decide)
      rw [if_neg hx, ih h, List.erase_cons_tail (by simpa using hne)]

/-- Under unique ids nothing is left under the id of a deleted document. -/
theorem find?_deleteOne_of_nodup {α : Type} (key : α → ObjectId) (i : ObjectId) (xs : List α)
    (h : (xs.map key).Nodup) :
    (deleteOne (fun x => key x == i) xs).find? (fun x => key x == i) = none := by
  induction xs with
  | nil => rfl
  | cons x xs ih =>
    rw [List.map_cons, List.nodup_cons] at h
    unfold deleteOne
    by_cases hx : (key x == i) = true
    · rw [if_pos hx, List.find?_eq_none]
      intro y hy hyi
      have h1 : key x = i := by simpa using hx
      have h2 : key y = i := by simpa using hyi
      exact h.1 (h1 ▸ h2 ▸ List.mem_map_of_mem key hy)
    · rw [if_neg hx]
      simp only [List.find?, hx]
      exact ih h.2

/-- The role gate of the application delete lets freelancers and admins
through. -/
theorem authorizeRoles_freelancer_admin (user : User)
    (h : user.role = "freelancer" ∨ user.role = "admin") :
    authorizeRoles ["freelancer", "admin"] (some user) = .ok () := by
  rcases h with h | h <;> simp [authorizeRoles, h]

/-- The delete of an existing application by its freelancer or by an admin. -/
theorem deleteApplication_allowed (db : Store) (user : User) (aid : ObjectId) (a : Application)
    (ha : Application.findById db.applications aid = some a)
    (h : (user.role = "freelancer" ∧ user.id = a.freelancer) ∨ user.role = "admin") :
    deleteApplication db (.ok user) (.valid aid) =
      ({ status := 200, message := "Application deleted successfully!" },
       { projects := db.projects, applications := db.applications.erase a }) := by
  have hrole : user.role = "freelancer" ∨ user.role = "admin" := by
    rcases h with h | h
    · exact Or.inl h.1
    · exact Or.inr h
  have hauth : ¬ (a.freelancer ≠ user.id ∧ user.role ≠ "admin") := by
    rcases h with h | h
    · simp [h.2]
    · simp [h]
  have herase : deleteOne (fun b => b._id == aid) db.applications = db.applications.erase a :=
    deleteOne_eq_erase _ _ a ha
  simp only [deleteApplication, protect, authorizeRoles_freelancer_admin user hrole,
    removeApplication, ha]
  rw [if_neg hauth, herase]

/-- The delete of an existing application by anybody else. -/
theorem deleteApplication_refused (db : Store) (user : User) (aid : ObjectId) (a : Application)
    (ha : Application.findById db.applications aid = some a)
    (h : ¬ ((user.role = "freelancer" ∧ user.id = a.freelancer) ∨ user.role = "admin")) :
    (deleteApplication db (.ok user) (.valid aid)).1.status = 403 ∧
    (deleteApplication db (.ok user) (.valid aid)).2 = db := by
  have hadmin : user.role ≠ "admin" := fun hh => h (Or.inr hh)
  by_cases hrole : user.role = "freelancer"
  · have hown : a.freelancer ≠ user.id := fun hh => h (Or.inl ⟨hrole, hh.symm⟩)
    simp only [deleteApplication, protect, authorizeRoles_freelancer_admin user (Or.inl hrole),
      removeApplication, ha]
    rw [if_pos ⟨hown, hadmin⟩]
    exact ⟨rfl, rfl⟩
  · simp [deleteApplication, protect, authorizeRoles, hrole, hadmin]

/-- C17. Application `a` (pending or not) was submitted by freelancer `F`. A
delete request by `F` is answered 200 and leaves the store without `a`, every
other application and every project as before (under unique ids nothing is
found under the id of `a` afterwards); a delete request by another freelancer
or by a client is answered 403 and the store, `a` in it, is as before. -/
theorem withdraw_own_application (db : Store) (user : User) (aid : ObjectId) (a : Application)
    (ha : Application.findById db.applications aid = some a) :
    ((user.role = "freelancer" ∧ user.id = a.freelancer) →
      deleteApplication db (.ok user) (.valid aid) =
        ({ status := 200, message := "Application deleted successfully!" },
         { projects := db.projects, applications := db.applications.erase a }) ∧
      ((db.applications.map (fun b => b._id)).Nodup →
        Application.findById
          (deleteApplication db (.ok user) (.valid aid)).2.applications aid = none)) ∧
    ((user.role = "client" ∨ (user.role = "freelancer" ∧ user.id ≠ a.freelancer)) →
      (deleteApplication db (.ok user) (.valid aid)).1.status = 403 ∧
      (deleteApplication db (.ok user) (.valid aid)).2 = db) := by
  constructor
  · intro h
    have hdel := deleteApplication_allowed db user aid a ha (Or.inl h)
    refine ⟨hdel, ?_⟩
    intro hnodup
    rw [hdel, ← deleteOne_eq_erase (fun b : Application => b._id == aid) db.applications a ha]
    exact find?_deleteOne_of_nodup (fun b : Application => b._id) aid db.applications hnodup
  · intro h
    apply deleteApplication_refused db user aid a ha
    rintro (⟨h1, h2⟩ | h1)
    · rcases h with h | ⟨_, h⟩
      · rw [h1] at h; exact absurd h (by decide)
      · exact h h2
    · rcases h with h | ⟨h, _⟩
      · rw [h1] at h; exact absurd h (by decide)
      · rw [h1] at h; exact absurd h (by decide)

/-- Witness of C17: on the scenario freelancer `20` withdraws `A1`; freelancer
`21` and the client are refused. -/
theorem withdraw_own_application_witness :
    deleteApplication Scenario.twoPending (.ok Scenario.freelancer1) (.valid 100) =
      ({ status := 200, message := "Application deleted successfully!" },
       { projects := [Scenario.P1], applications := [Scenario.A1, Scenario.A2].erase Scenario.A1 }) ∧
    Application.findById
      (deleteApplication Scenario.twoPending (.ok Scenario.freelancer1)
        (.valid 100)).2.applications 100 = none ∧
    (deleteApplication Scenario.twoPending (.ok Scenario.freelancer2) (.valid 100)).1.status =
      403 ∧
    (deleteApplication Scenario.twoPending (.ok Scenario.client) (.valid 100)).2 =
      Scenario.twoPending :=
  ⟨((withdraw_own_application Scenario.twoPending Scenario.freelancer1 100 Scenario.A1
      (by decide)).1 (by decide)).1,
   ((withdraw_own_application Scenario.twoPending Scenario.freelancer1 100 Scenario.A1
      (by decide)).1 (by decide)).2 (by decide),
   ((withdraw_own_application Scenario.twoPending Scenario.freelancer2 100 Scenario.A1
      (by decide)).2 (by decide)).1,
   ((withdraw_own_application Scenario.twoPending Scenario.client 100 Scenario.A1
      (by decide)).2 (by decide)).2⟩

/-- C18, as stated, fails: an admin, who is not the submitting freelancer,
deletes the pending `A1` with a 200; and freelancer `20` deletes the accepted
`A1` with a 200, the document being removed, not kept as `withdrawn`. -/
theorem withdrawal_counterexample :
    (deleteApplication Scenario.twoPending (.ok Scenario.admin) (.valid 100)).1.status = 200 ∧
    Application.findById Scenario.twoProjects.applications 100 =
      some { Scenario.A1 with status := "accepted" } ∧
    (deleteApplication Scenario.twoProjects (.ok Scenario.freelancer1)
      (.valid 100)).1.status = 200 ∧
    Application.findById
      (deleteApplication Scenario.twoProjects (.ok Scenario.freelancer1)
        (.valid 100)).2.applications 100 = none := by
  decide

/-- C18, amended. The delete of an existing application is answered 200 if
and only if the actor is the freelancer who submitted it or an admin, whatever
the status of the application, and then the application is removed from the
store; any other actor is answered 403 and the store is as before. -/
theorem delete_application_authorization (db : Store) (user : User) (aid : ObjectId)
    (a : Application) (ha : Application.findById db.applications aid = some a) :
    ((deleteApplication db (.ok user) (.valid aid)).1.status = 200 ↔
      ((user.role = "freelancer" ∧ user.id = a.freelancer) ∨ user.role = "admin")) ∧
    (((user.role = "freelancer" ∧ user.id = a.freelancer) ∨ user.role = "admin") →
      (deleteApplication db (.ok user) (.valid aid)).2 =
        { projects := db.projects, applications := db.applications.erase a }) ∧
    (¬ ((user.role = "freelancer" ∧ user.id = a.freelancer) ∨ user.role = "admin") →
      (deleteApplication db (.ok user) (.valid aid)).1.status = 403 ∧
      (deleteApplication db (.ok user) (.valid aid)).2 = db) := by
  refine ⟨⟨?_, ?_⟩, ?_, ?_⟩
  · intro h200
    by_contra hno
    rw [(deleteApplication_refused db user aid a ha hno).1] at h200
    exact absurd h200 (by decide)
  · intro h
    rw [deleteApplication_allowed db user aid a ha h]
  · intro h
    rw [deleteApplication_allowed db user aid a ha h]
  · exact deleteApplication_refused db user aid a ha

/-- Witness of C18, amended: on the scenario the admin deletes `A1`, and the
client is refused. -/
theorem delete_application_authorization_witness :
    (deleteApplication Scenario.twoPending (.ok Scenario.admin) (.valid 100)).2 =
      { projects := [Scenario.P1],
        applications := [Scenario.A1, Scenario.A2].erase Scenario.A1 } ∧
    (deleteApplication Scenario.twoPending (.ok Scenario.client) (.valid 100)).1.status = 403 :=
  ⟨(delete_application_authorization Scenario.twoPending Scenario.admin 100 Scenario.A1
      (by decide)).2.1 (by decide),
   ((delete_application_authorization Scenario.twoPending Scenario.client 100 Scenario.A1
      (by decide)).2.2 (by decide)).1⟩

/-- C19. Project deletion cascades. For an existing project `p`, a delete by
the client who owns it or by an admin is answered 200 and leaves the store
without `p` and without the applications whose project is `p`, every other
project and every application on another project as before; a delete by a
client who does not own `p` is refused (401) and the store is as before. -/
theorem project_delete_cascades (db : Store) (user : User) (pid : ObjectId) (p : Project)
    (hp : Project.findById db.projects pid = some p) :
    (((user.role = "client" ∧ user.id = p.client) ∨ user.role = "admin") →
      deleteProject db (.ok user) (.valid pid) =
        ({ status := 200,
           message := "Project and associated applications deleted successfully!" },
         { projects := db.projects.erase p,
           applications := db.applications.filter (fun a => a.project != pid) })) ∧
    ((user.role = "client" ∧ user.id ≠ p.client) →
      (deleteProject db (.ok user) (.valid pid)).1.status = 401 ∧
      (deleteProject db (.ok user) (.valid pid)).2 = db) := by
  constructor
  · intro hactor
    have herase : deleteOne (fun q => q._id == pid) db.projects = db.projects.erase p :=
      deleteOne_eq_erase _ _ p hp
    simp only [deleteProject, protect,
      authorizeRoles_client_admin user (owner_or_admin_role user p hactor), removeProject, hp]
    rw [if_neg (owner_or_admin_passes user p hactor), herase]
    rfl
  · intro h
    have hown : p.client ≠ user.id := fun hh => h.2 hh.symm
    have hadmin : user.role ≠ "admin" := by rw [h.1]; decide
    simp only [deleteProject, protect, authorizeRoles_client_admin user (Or.inl h.1),
      removeProject, hp]
    rw [if_pos ⟨hown, hadmin⟩]
    exact ⟨rfl, rfl⟩

/-- Witness of C19: with the two projects, the owner of `P1` deletes it, `P2`
and its application stay; the owner of `P2` is refused on `P1`. -/
theorem project_delete_cascades_witness :
    deleteProject Scenario.twoProjects (.ok Scenario.client) (.valid 1) =
      ({ status := 200,
         message := "Project and associated applications deleted successfully!" },
       { projects := [Scenario.P2], applications := [Scenario.B1] }) ∧
    (deleteProject Scenario.twoProjects (.ok Scenario.otherClient) (.valid 1)).2 =
      Scenario.twoProjects :=
  ⟨((project_delete_cascades Scenario.twoProjects Scenario.client 1
      { Scenario.P1 with assignedTo := some 20, status := "assigned" } (by decide)).1
      (by decide)).trans (by decide),
   ((project_delete_cascades Scenario.twoProjects Scenario.otherClient 1
      { Scenario.P1 with assignedTo := some 20, status := "assigned" } (by decide)).2
      (by decide)).2⟩

/-- Under unique ids `deleteOne` on an id removes every document under the
id. -/
theorem deleteOne_eq_filter_of_nodup {α : Type} (key : α → ObjectId) (i : ObjectId)
    (xs : List α) (h : (xs.map key).Nodup) :
    deleteOne (fun x => key x == i) xs = xs.filter (fun x => !(key x == i)) := by
  induction xs with
  | nil => rfl
  | cons x xs ih =>
    rw [List.map_cons, List.nodup_cons] at h
    unfold deleteOne
    by_cases hx : (key x == i) = true
    · rw [if_pos hx, List.filter_cons_of_neg (by simp [hx])]
      symm
      rw [List.filter_eq_self]
      intro y hy
      have h1 : key x = i := by simpa using hx
      have hne : key y ≠ i := fun hh => h.1 (h1 ▸ hh ▸ List.mem_map_of_mem key hy)
      simpa using hne
    · rw [if_neg hx, List.filter_cons_of_pos (by simpa using hx), ih h.2]

/-- The applications left by the cascade over the projects of a client: those
on none of these projects. -/
theorem deleteClientProjects_applications (clientProjects : List Project) (db : Store) :
    (deleteClientProjects clientProjects db).applications =
      db.applications.filter
        (fun a => !(clientProjects.any (fun q => q._id == a.project))) := by
  induction clientProjects generalizing db with
  | nil => simp [deleteClientProjects]
  | cons q qs ih =>
    have h := ih
      { projects := deleteOne (fun x => x._id == q._id) db.projects,
        applications := deleteMany (fun a => a.project == q._id) db.applications }
    show (deleteClientProjects qs _).applications = _
    rw [h]
    show List.filter _ (deleteMany _ db.applications) = _
    unfold deleteMany
    rw [List.filter_filter]
    apply List.filter_congr
    intro a _
    simp only [List.any_cons, Bool.not_or]
    rw [Bool.and_comm]
    congr 2
    exact Bool.beq_comm

/-- The projects left by the cascade over the projects of a client, under
unique ids: those whose id is the id of none of these projects. -/
theorem deleteClientProjects_projects (clientProjects : List Project) (db : Store)
    (hids : (db.projects.map (fun p => p._id)).Nodup) :
    (deleteClientProjects clientProjects db).projects =
      db.projects.filter (fun p => !(clientProjects.any (fun q => q._id == p._id))) := by
  induction clientProjects generalizing db with
  | nil => simp [deleteClientProjects]
  | cons q qs ih =>
    have hdel := deleteOne_eq_filter_of_nodup (fun p : Project => p._id) q._id db.projects hids
    have hids2 : ((deleteOne (fun x => x._id == q._id) db.projects).map
        (fun p => p._id)).Nodup := hids.sublist ((deleteOne_sublist _ _).map _)
    have h := ih
      { projects := deleteOne (fun x => x._id == q._id) db.projects,
        applications := deleteMany (fun a => a.project == q._id) db.applications } hids2
    show (deleteClientProjects qs _).projects = _
    rw [h]
    show List.filter _ (deleteOne _ db.projects) = _
    rw [hdel, List.filter_filter]
    apply List.filter_congr
    intro a _
    simp only [List.any_cons, Bool.not_or]
    rw [Bool.and_comm]
    congr 2
    exact Bool.beq_comm

/-- The role gate of the user delete lets admins through. -/
theorem authorizeRoles_admin (user : User) (h : user.role = "admin") :
    authorizeRoles ["admin"] (some user) = .ok () := by
  simp [authorizeRoles, h]

/-- C20. User deletion cascades. An admin deletes the existing user `u`, the
project ids being unique. The request is answered 200. If `u` is a client the
projects left are exactly those of the other clients and the applications left
exactly those on no project of `u`. If `u` is a freelancer every project
assigned to `u`, whatever its status, has `assignedTo = null` and status `open`,
every other project is as before, and the applications left are exactly those
of the other freelancers. What is left is unchanged. -/
theorem user_delete_cascades (s : Database) (actor : User) (uid : ObjectId) (u : User)
    (hadmin : actor.role = "admin") (hu : User.findById s.users uid = some u)
    (hids : (s.store.projects.map (fun p => p._id)).Nodup) :
    (deleteUser s (.ok actor) (.valid uid)).1.status = 200 ∧
    (u.role = "client" →
      (deleteUser s (.ok actor) (.valid uid)).2.store =
        { projects := s.store.projects.filter (fun p => p.client != uid),
          applications := s.store.applications.filter
            (fun a => !(s.store.projects.any
              (fun p => p.client == uid && p._id == a.project))) }) ∧
    (u.role = "freelancer" →
      (deleteUser s (.ok actor) (.valid uid)).2.store =
        { projects := s.store.projects.map
            (fun p => if p.assignedTo = some uid then
              { p with assignedTo := none, status := "open" } else p),
          applications := s.store.applications.filter (fun a => a.freelancer != uid) }) := by
  have hroute : deleteUser s (.ok actor) (.valid uid) = removeUser s (.valid uid) := by
    simp [deleteUser, protect, authorizeRoles_admin actor hadmin]
  rw [hroute]
  refine ⟨?_, ?_, ?_⟩
  · simp only [removeUser, hu]
  · intro hclient
    simp only [removeUser, hu, hclient, if_true]
    have hP := deleteClientProjects_projects
      (s.store.projects.filter (fun p => p.client == uid)) s.store hids
    have hA := deleteClientProjects_applications
      (s.store.projects.filter (fun p => p.client == uid)) s.store
    have hstore : ∀ x : Store, x = { projects := x.projects, applications := x.applications } :=
      fun x => rfl
    rw [hstore (deleteClientProjects _ _), hP, hA]
    congr 1
    · apply List.filter_congr
      intro p hp
      have hiff : (s.store.projects.filter (fun p => p.client == uid)).any
          (fun q => q._id == p._id) = (p.client == uid) := by
        rw [Bool.eq_iff_iff, List.any_eq_true]
        constructor
        · rintro ⟨q, hq, hqp⟩
          rw [List.mem_filter] at hq
          have hqp2 : q._id = p._id := by simpa using hqp
          have : q = p := List.inj_on_of_nodup_map hids hq.1 hp hqp2
          rw [← this]; exact hq.2
        · intro hc
          exact ⟨p, List.mem_filter.2 ⟨hp, hc⟩, by simp⟩
      rw [hiff]
      rfl
    · apply List.filter_congr
      intro a _
      rw [List.any_filter]
  · intro hfree
    have hnc : ¬ u.role = "client" := by rw [hfree]; decide
    simp only [removeUser, hu, hnc, if_false]
    rw [if_pos hfree]
    congr 1
    unfold updateMany
    apply List.map_congr_left
    intro p _
    by_cases hp : p.assignedTo = some uid
    · simp [hp]
    · have : (p.assignedTo == some uid) = false := by simpa using hp
      simp [hp, this]

/-- Witness of C20: with the two projects the admin deletes client `10`, then
(on the same store) freelancer `20`: `P1` goes back to open and unassigned, the
applications of `20` are gone. -/
theorem user_delete_cascades_witness :
    (deleteUser { users := Scenario.users, store := Scenario.twoProjects }
      (.ok Scenario.admin) (.valid 10)).2.store =
      { projects := [Scenario.P2], applications := [Scenario.B1] } ∧
    (deleteUser { users := Scenario.users, store := Scenario.twoProjects }
      (.ok Scenario.admin) (.valid 20)).2.store =
      { projects := [Scenario.P1, Scenario.P2],
        applications := [{ Scenario.A2 with status := "rejected" }] } :=
  ⟨((user_delete_cascades { users := Scenario.users, store := Scenario.twoProjects }
      Scenario.admin 10 Scenario.client (by decide) (by decide) (by decide)).2.1
      (by decide)).trans (by decide),
   ((user_delete_cascades { users := Scenario.users, store := Scenario.twoProjects }
      Scenario.admin 20 Scenario.freelancer1 (by decide) (by decide) (by decide)).2.2
      (by decide)).trans (by decide)⟩

/-! ## The status change: answers and idempotence -/

/-- C21. The owning client asks for the status `bogus`, which is not in the
enum of the schema, on the pending `A1`: the `save` fails its validation and
the route answers 500, where the claim allows 200, 400, 403 and 404 only; the
store is as before. -/
theorem status_outside_enum_answers_500 :
    Application.statusEnum.contains "bogus" = false ∧
    putApplicationStatus Scenario.twoPending (.ok Scenario.client) (.valid 100) "bogus" =
      ({ status := 500, message := "Server error: Could not update application status." },
       Scenario.twoPending) := by
  decide

/-- For a client or an admin the project status edit is its handler. -/
theorem putProjectStatus_eq_handler (db : Store) (user : User) (id : IdParam)
    (status : Option String) (h : user.role = "client" ∨ user.role = "admin") :
    putProjectStatus db (.ok user) id status = updateProjectStatus db user id status := by
  simp [putProjectStatus, protect, authorizeRoles_client_admin user h]

/-- The empty string is none of the four statuses of the status edit. -/
theorem ne_empty_of_allowed (st : String)
    (h : allowedProjectStatuses.contains (toLowerCase st) = true) : st ≠ "" := by
  intro hst
  subst hst
  revert h
  decide

/-- The status edit on an existing project, by its owner or an admin, with an
accepted status. -/
theorem updateProjectStatus_ok (db : Store) (user : User) (pid : ObjectId) (p : Project)
    (st : String) (hp : Project.findById db.projects pid = some p)
    (hauth : ¬ (p.client ≠ user.id ∧ user.role ≠ "admin"))
    (hst : allowedProjectStatuses.contains (toLowerCase st) = true) :
    updateProjectStatus db user (.valid pid) (some st) =
      ({ status := 200, message := "Project status updated to " ++ toLowerCase st ++ ".",
         project := some { p with status := toLowerCase st } },
       { projects := updateOne (fun q => q._id == p._id)
           (fun q => { q with status := toLowerCase st }) db.projects,
         applications := db.applications }) := by
  simp only [updateProjectStatus, hp, hauth, if_false]
  rw [if_pos ⟨ne_empty_of_allowed st hst, hst⟩]

/-- The status edit on an existing project, by its owner or an admin, with
any other status or none. -/
theorem updateProjectStatus_refused (db : Store) (user : User) (pid : ObjectId) (p : Project)
    (status : Option String) (hp : Project.findById db.projects pid = some p)
    (hauth : ¬ (p.client ≠ user.id ∧ user.role ≠ "admin"))
    (hst : ¬ ∃ st, status = some st ∧ allowedProjectStatuses.contains (toLowerCase st) = true) :
    updateProjectStatus db user (.valid pid) status =
      ({ status := 400,
         message := "Invalid status provided. Allowed statuses: open, assigned, " ++
           "in progress, completed." }, db) := by
  cases status with
  | none => simp only [updateProjectStatus, hp, hauth, if_false]
  | some st =>
    simp only [updateProjectStatus, hp, hauth, if_false]
    rw [if_neg (fun h => hst ⟨st, rfl, h.2⟩)]

/-- C22. Direct project status edit. For an existing project `p` and its
owning client or an admin, whatever the state of `p` and of its applications:
the request is answered 200 if and only if the body has a status whose
lower-cased value is `open`, `assigned`, `in progress` or `completed`; then the
applications are as before, the project is `p` with that lower-cased status and
every other field as before, and every other project is as before; otherwise it
is answered 400 and the store is as before. -/
theorem project_status_edit (db : Store) (user : User) (pid : ObjectId) (p : Project)
    (status : Option String) (hp : Project.findById db.projects pid = some p)
    (hactor : (user.role = "client" ∧ user.id = p.client) ∨ user.role = "admin") :
    ((putProjectStatus db (.ok user) (.valid pid) status).1.status = 200 ↔
      ∃ st, status = some st ∧ allowedProjectStatuses.contains (toLowerCase st) = true) ∧
    (∀ st, status = some st → allowedProjectStatuses.contains (toLowerCase st) = true →
      (putProjectStatus db (.ok user) (.valid pid) status).2.applications = db.applications ∧
      Project.findById (putProjectStatus db (.ok user) (.valid pid) status).2.projects pid =
        some { p with status := toLowerCase st } ∧
      (putProjectStatus db (.ok user) (.valid pid) status).2.projects.length =
        db.projects.length ∧
      ∀ (i : Nat) (q : Project), db.projects[i]? = some q → q._id ≠ pid →
        (putProjectStatus db (.ok user) (.valid pid) status).2.projects[i]? = some q) ∧
    ((¬ ∃ st, status = some st ∧ allowedProjectStatuses.contains (toLowerCase st) = true) →
      (putProjectStatus db (.ok user) (.valid pid) status).1.status = 400 ∧
      (putProjectStatus db (.ok user) (.valid pid) status).2 = db) := by
  have hauth := owner_or_admin_passes user p hactor
  have hpid := project_findById_id hp
  rw [putProjectStatus_eq_handler db user _ _ (owner_or_admin_role user p hactor)]
  refine ⟨⟨?_, ?_⟩, ?_, ?_⟩
  · intro h200
    by_contra hno
    rw [updateProjectStatus_refused db user pid p status hp hauth hno] at h200
    simp at h200
  · rintro ⟨st, hs, hst⟩
    rw [hs, updateProjectStatus_ok db user pid p st hp hauth hst]
  · intro st hs hst
    rw [hs, updateProjectStatus_ok db user pid p st hp hauth hst]
    refine ⟨rfl, ?_, updateOne_length _ _ _, ?_⟩
    · show Project.findById (updateOne _ _ db.projects) pid = _
      unfold Project.findById at hp ⊢
      rw [hpid, find?_updateOne (fun q => q._id == pid)
        (fun q => { q with status := toLowerCase st }) db.projects (fun x hx => hx), hp]
      simp [hpid]
    · intro i q hq hne
      exact updateOne_getElem?_of_false (fun q => q._id == p._id)
        (fun q => { q with status := toLowerCase st }) db.projects i q hq
        (by simpa [hpid] using hne)
  · intro hno
    rw [updateProjectStatus_refused db user pid p status hp hauth hno]
    exact ⟨rfl, rfl⟩

/-- Witness of C22: with the two projects, the owner of the assigned `P1` sets
it to `Completed` (stored lower-cased, `assignedTo` kept), `P2` is untouched; the
status `cancelled` is refused. -/
theorem project_status_edit_witness :
    Project.findById
      (putProjectStatus Scenario.twoProjects (.ok Scenario.client) (.valid 1)
        (some "Completed")).2.projects 1 =
      some { Scenario.P1 with assignedTo := some 20, status := toLowerCase "Completed" } ∧
    (putProjectStatus Scenario.twoProjects (.ok Scenario.client) (.valid 1)
      (some "Completed")).2.projects[1]? = some Scenario.P2 ∧
    (putProjectStatus Scenario.twoProjects (.ok Scenario.client) (.valid 1)
      (some "cancelled")).2 = Scenario.twoProjects :=
  ⟨((project_status_edit Scenario.twoProjects Scenario.client 1
      { Scenario.P1 with assignedTo := some 20, status := "assigned" } (some "Completed")
      (by decide) (by decide)).2.1 "Completed" rfl (by decide)).2.1,
   ((project_status_edit Scenario.twoProjects Scenario.client 1
      { Scenario.P1 with assignedTo := some 20, status := "assigned" } (some "Completed")
      (by decide) (by decide)).2.1 "Completed" rfl (by decide)).2.2.2 1 Scenario.P2
      (by decide) (by decide),
   ((project_status_edit Scenario.twoProjects Scenario.client 1
      { Scenario.P1 with assignedTo := some 20, status := "assigned" } (some "cancelled")
      (by decide) (by decide)).2.2 (by decide)).2⟩

/-- C23, as stated, fails: the owning client accepts `A1` (200) and re-issues
the same request; `A1` is already accepted, and the second call is answered
400, not a success. -/
theorem idempotence_counterexample :
    (putApplicationStatus Scenario.twoPending (.ok Scenario.client) (.valid 100)
      "accepted").1.status = 200 ∧
    Application.findById
      (putApplicationStatus Scenario.twoPending (.ok Scenario.client) (.valid 100)
        "accepted").2.applications 100 = some { Scenario.A1 with status := "accepted" } ∧
    (putApplicationStatus
      (putApplicationStatus Scenario.twoPending (.ok Scenario.client) (.valid 100)
        "accepted").2
      (.ok Scenario.client) (.valid 100) "accepted").1 =
      { status := 400, message := "Project is already assigned to a freelancer." } := by
  decide

/-- C23, amended. Re-issuing a request other than an accept for an
application that already has the requested status, on a project that is not
completed, by the owning client or an admin, is answered 200 and the store is
as before; re-issuing an accept that was answered 200 is answered 400 `Project
is already assigned to a freelancer.` and the store is as before. -/
theorem reissued_status_change (db : Store) (aid : ObjectId) :
    (∀ (user : User) (a : Application) (p : Project) (status : String),
      Application.findById db.applications aid = some a →
      Project.findById db.projects a.project = some p →
      ((user.role = "client" ∧ user.id = p.client) ∨ user.role = "admin") →
      p.status ≠ "completed" → status ≠ "accepted" → a.status = status →
      (putApplicationStatus db (.ok user) (.valid aid) status).1.status = 200 ∧
      (putApplicationStatus db (.ok user) (.valid aid) status).2 = db) ∧
    (∀ auth : Auth, (putApplicationStatus db auth (.valid aid) "accepted").1.status = 200 →
      putApplicationStatus (putApplicationStatus db auth (.valid aid) "accepted").2 auth
          (.valid aid) "accepted" =
        ({ status := 400, message := "Project is already assigned to a freelancer." },
         (putApplicationStatus db auth (.valid aid) "accepted").2)) := by
  constructor
  · intro user a p status ha hp hactor hnc hs hsame
    rw [putApplicationStatus_eq_handler db user _ _ (owner_or_admin_role user p hactor),
      updateApplicationStatus_other db user aid a p status ha hp
        (owner_or_admin_passes user p hactor) hnc hs]
    obtain ⟨h200, hstore⟩ := saveApplicationStatus_store db a status (Or.inl hsame.symm)
    refine ⟨h200, ?_⟩
    rw [hstore, if_pos hsame.symm]
  · intro auth hok
    obtain ⟨user, aid1, a, p, hauth1, hid, hrole, ha, hp, hauth, hnc, hna, _⟩ :=
      putApplicationStatus_200 db auth (.valid aid) "accepted" hok
    subst hauth1
    have haid1 : aid1 = aid := by injection hid with h; exact h.symm
    subst haid1
    obtain ⟨_, hproj, happ, _⟩ := accept_result db user aid1 a p ha hp hnc (hna rfl) hrole hauth
    rw [putApplicationStatus_eq_handler _ user _ _ hrole]
    exact updateApplicationStatus_assigned _ user aid1 { a with status := "accepted" }
      { p with assignedTo := some a.freelancer, status := "assigned" } happ hproj
      hauth (by simp) rfl

/-- Witness of C23, amended: `A2` is rejected twice by the owning client, and
`A1` accepted twice. -/
theorem reissued_status_change_witness :
    (putApplicationStatus Scenario.twoProjects (.ok Scenario.client) (.valid 101)
      "rejected").1.status = 200 ∧
    (putApplicationStatus Scenario.twoProjects (.ok Scenario.client) (.valid 101)
      "rejected").2 = Scenario.twoProjects ∧
    putApplicationStatus
        (putApplicationStatus Scenario.twoPending (.ok Scenario.client) (.valid 100)
          "accepted").2 (.ok Scenario.client) (.valid 100) "accepted" =
      ({ status := 400, message := "Project is already assigned to a freelancer." },
       (putApplicationStatus Scenario.twoPending (.ok Scenario.client) (.valid 100)
          "accepted").2) :=
  ⟨((reissued_status_change Scenario.twoProjects 101).1 Scenario.client
      { Scenario.A2 with status := "rejected" }
      { Scenario.P1 with assignedTo := some 20, status := "assigned" } "rejected"
      (by decide) (by decide) (by decide) (by decide) (by decide) (by decide)).1,
   ((reissued_status_change Scenario.twoProjects 101).1 Scenario.client
      { Scenario.A2 with status := "rejected" }
      { Scenario.P1 with assignedTo := some 20, status := "assigned" } "rejected"
      (by decide) (by decide) (by decide) (by decide) (by decide) (by decide)).2,
   (reissued_status_change Scenario.twoPending 100).2 (.ok Scenario.client) (by decide)⟩

/-! ## Messages -/

/-- A supplied non-empty string wins over the default of `||`. -/
theorem jsOr_some (c d : String) (h : c ≠ "") : jsOr (some c) d = c := by
  simp [jsOr, h]

/-- A field that `||` does not replace is a supplied non-empty string. -/
theorem jsOr_ne_empty (v : Option String) (h : jsOr v "" ≠ "") :
    ∃ c, v = some c ∧ c ≠ "" ∧ jsOr v "" = c := by
  cases v with
  | none => exact absurd rfl h
  | some c =>
    by_cases hc : c = ""
    · subst hc; exact absurd rfl h
    · exact ⟨c, rfl, hc, jsOr_some c "" hc⟩

/-- C24, as stated, fails: `P1` is assigned to freelancer `20`, its client
sends a content of three blanks, which is not empty; the schema trims it, the
`required` validator refuses it, and no message is stored. -/
theorem message_blank_content_counterexample :
    Project.findById Scenario.twoProjects.projects 1 =
      some { Scenario.P1 with assignedTo := some 20, status := "assigned" } ∧
    ("   " : String) ≠ "" ∧
    (postMessage Scenario.twoProjects.projects [] (.ok Scenario.client)
      { projectId := some (.valid 1), content := some "   " } 1 5).2 = [] ∧
    (postMessage Scenario.twoProjects.projects [] (.ok Scenario.client)
      { projectId := some (.valid 1), content := some "   " } 1 5).1.status = 500 := by
  decide

/-- C24, amended. For every send request of an authenticated user, the id
generated for the message being unused: a message is stored if and only if
the project exists, has a non-null `assignedTo`, the content is not empty once
trimmed, and the sender is the client of the project or its assigned
freelancer; the stored message then carries the trimmed content and, as
receiver, the assigned freelancer when the client sends and the client when
the freelancer sends, and the request is answered 500, because the populate of
line 64 throws once the message is saved. On an existing project and with a
content, any other sender is answered 403 and a client sending on an
unassigned project 400, and no message is stored. -/
theorem message_stored_iff (projects : List Project) (messages : List Message) (user : User)
    (body : MessageBody) (newId : ObjectId) (now : Nat)
    (hfresh : ∀ m ∈ messages, m._id ≠ newId) :
    (∀ (pid : ObjectId) (p : Project) (c : String),
      body.projectId = some (.valid pid) → body.content = some c → jsTrim c ≠ "" →
      Project.findById projects pid = some p → p.assignedTo.isSome = true →
      (p.client = user.id ∨ p.assignedTo = some user.id) →
      postMessage projects messages (.ok user) body newId now =
        ({ status := 500, message := "Server error: Could not send message." },
         messages ++
           [{ _id := newId, sender := user.id,
              receiver := if p.client = user.id then p.assignedTo else some p.client,
              project := pid, content := jsTrim c, timestamp := now, read := false }])) ∧
    ((¬ ∃ (pid : ObjectId) (p : Project) (c : String),
        body.projectId = some (.valid pid) ∧ body.content = some c ∧ jsTrim c ≠ "" ∧
        Project.findById projects pid = some p ∧ p.assignedTo.isSome = true ∧
        (p.client = user.id ∨ p.assignedTo = some user.id)) →
      (postMessage projects messages (.ok user) body newId now).2 = messages) ∧
    (∀ (pid : ObjectId) (p : Project) (c : String),
      body.projectId = some (.valid pid) → body.content = some c → c ≠ "" →
      Project.findById projects pid = some p →
      p.client ≠ user.id → p.assignedTo ≠ some user.id →
      (postMessage projects messages (.ok user) body newId now).1.status = 403 ∧
      (postMessage projects messages (.ok user) body newId now).2 = messages) ∧
    (∀ (pid : ObjectId) (p : Project) (c : String),
      body.projectId = some (.valid pid) → body.content = some c → c ≠ "" →
      Project.findById projects pid = some p →
      p.client = user.id → p.assignedTo = none →
      (postMessage projects messages (.ok user) body newId now).1.status = 400 ∧
      (postMessage projects messages (.ok user) body newId now).2 = messages) := by
  have hany : messages.any (fun m => m._id == newId) = false := by
    rw [List.any_eq_false]
    intro m hm
    simpa using hfresh m hm
  have htrim : ∀ c : String, jsTrim c ≠ "" → c ≠ "" := by
    intro c h hc
    subst hc
    exact h (by decide)
  obtain ⟨pid?, c?⟩ := body
  refine ⟨?_, ?_, ?_, ?_⟩
  · intro pid p c hpid hc hne hp hassigned hparty
    simp only at hpid hc
    subst hpid
    subst hc
    have hor := jsOr_some c "" (htrim c hne)
    by_cases hclient : p.client = user.id
    · simp [postMessage, protect, sendMessage, hor, htrim c hne, hp, hclient, hassigned,
        saveAndRespond, saveNewMessage, execPopulate, hne, hany]
    · have hfree : p.assignedTo = some user.id := by
        rcases hparty with h | h
        · exact absurd h hclient
        · exact h
      simp [postMessage, protect, sendMessage, hor, htrim c hne, hp, hclient, hfree,
        saveAndRespond, saveNewMessage, execPopulate, hne, hany]
  · intro hno
    cases pid? with
    | none => rfl
    | some idp =>
      by_cases hcont : jsOr c? "" = ""
      · simp [postMessage, protect, sendMessage, hcont]
      · obtain ⟨c, hc, hcne, hor⟩ := jsOr_ne_empty c? hcont
        subst hc
        cases idp with
        | invalid => simp [postMessage, protect, sendMessage, hcont]
        | valid pid =>
          cases hp : Project.findById projects pid with
          | none => simp [postMessage, protect, sendMessage, hcont, hp]
          | some p =>
            by_cases htr : jsTrim c = ""
            · have hsave : ∀ m : Message, m.content = "" →
                  (saveAndRespond messages m).2 = messages := by
                intro m hm
                simp [saveAndRespond, saveNewMessage, hm]
              simp only [postMessage, protect, sendMessage, hcont, hp, hor, if_false]
              repeat' split
              all_goals first | rfl | exact hsave _ htr
            · by_cases hassigned : p.assignedTo.isSome = true
              · have hparty : ¬ (p.client = user.id ∨ p.assignedTo = some user.id) :=
                  fun h => hno ⟨pid, p, c, rfl, rfl, htr, hp, hassigned, h⟩
                have h1 : ¬ p.client = user.id := fun h => hparty (Or.inl h)
                have h2 : ¬ p.assignedTo = some user.id := fun h => hparty (Or.inr h)
                simp [postMessage, protect, sendMessage, hcont, hp, h1, h2]
              · have hnone : p.assignedTo = none := by
                  cases h : p.assignedTo with
                  | none => rfl
                  | some f => simp [h] at hassigned
                by_cases hclient : p.client = user.id
                · simp [postMessage, protect, sendMessage, hcont, hp, hnone, hclient]
                · simp [postMessage, protect, sendMessage, hcont, hp, hnone, hclient]
  · intro pid p c hpid hc hne hp h1 h2
    simp only at hpid hc
    subst hpid
    subst hc
    have hor := jsOr_some c "" hne
    simp [postMessage, protect, sendMessage, hor, hne, hp, h1, h2]
  · intro pid p c hpid hc hne hp h1 h2
    simp only at hpid hc
    subst hpid
    subst hc
    have hor := jsOr_some c "" hne
    simp [postMessage, protect, sendMessage, hor, hne, hp, h1, h2]

/-- Witness of C24, amended: on the assigned `P1` the client writes to the
freelancer and the freelancer to the client, each message stored and the
request answered 500; the other client is answered 403; the owner of the
unassigned `P2` is answered 400. -/
theorem message_stored_iff_witness :
    postMessage Scenario.twoProjects.projects [] (.ok Scenario.client)
        { projectId := some (.valid 1), content := some " hello " } 1 5 =
      ({ status := 500, message := "Server error: Could not send message." },
       [] ++ [{ _id := 1, sender := 10, receiver := some 20, project := 1,
                content := jsTrim " hello ", timestamp := 5, read := false }]) ∧
    postMessage Scenario.twoProjects.projects [] (.ok Scenario.freelancer1)
        { projectId := some (.valid 1), content := some "hi" } 2 6 =
      ({ status := 500, message := "Server error: Could not send message." },
       [] ++ [{ _id := 2, sender := 20, receiver := some 10, project := 1,
                content := jsTrim "hi", timestamp := 6, read := false }]) ∧
    (postMessage Scenario.twoProjects.projects [] (.ok Scenario.otherClient)
        { projectId := some (.valid 1), content := some "hi" } 2 6).1.status = 403 ∧
    (postMessage Scenario.twoProjects.projects [] (.ok Scenario.otherClient)
        { projectId := some (.valid 2), content := some "hi" } 2 6).1.status = 400 ∧
    (postMessage Scenario.twoProjects.projects [] (.ok Scenario.otherClient)
        { projectId := some (.valid 999), content := some "hi" } 2 6).2 = [] :=
  ⟨(message_stored_iff Scenario.twoProjects.projects [] Scenario.client
      { projectId := some (.valid 1), content := some " hello " } 1 5 (by decide)).1 1
      { Scenario.P1 with assignedTo := some 20, status := "assigned" } " hello "
      rfl rfl (by decide) (by decide) (by decide) (by decide),
   (message_stored_iff Scenario.twoProjects.projects [] Scenario.freelancer1
      { projectId := some (.valid 1), content := some "hi" } 2 6 (by decide)).1 1
      { Scenario.P1 with assignedTo := some 20, status := "assigned" } "hi"
      rfl rfl (by decide) (by decide) (by decide) (by decide),
   ((message_stored_iff Scenario.twoProjects.projects [] Scenario.otherClient
      { projectId := some (.valid 1), content := some "hi" } 2 6 (by decide)).2.2.1 1
      { Scenario.P1 with assignedTo := some 20, status := "assigned" } "hi"
      rfl rfl (by decide) (by decide) (by decide) (by decide)).1,
   ((message_stored_iff Scenario.twoProjects.projects [] Scenario.otherClient
      { projectId := some (.valid 2), content := some "hi" } 2 6 (by decide)).2.2.2 2
      Scenario.P2 "hi" rfl rfl (by decide) (by decide) (by decide) (by decide)).1,
   (message_stored_iff Scenario.twoProjects.projects [] Scenario.otherClient
      { projectId := some (.valid 999), content := some "hi" } 2 6 (by decide)).2.1
      (by
        rintro ⟨pid, p, c, h1, _, _, h4, _, _⟩
        injection h1 with h1
        injection h1 with h1
        subst h1
        have hn : Project.findById Scenario.twoProjects.projects 999 = none := by decide
        rw [hn] at h4
        exact Option.noConfusion h4)⟩

/-! ## Malformed bids -/

/-- JavaScript `parseFloat('12abc')` is `12`: the text is read up to the end
of its numeric prefix. -/
theorem parseFloat_12abc : parseFloat (.str "12abc") = .fin 12 := by
  have h1 : "12abc".toList.dropWhile isStrWhiteSpaceChar = ['1', '2', 'a', 'b', 'c'] := by
    decide
  have h3 : parseFloatChars ['1', '2', 'a', 'b', 'c'] = .fin (decimalValue 12 0) := by
    rfl
  have h4 : parseFloatMV (.str "12abc") = .fin 12 := by
    rw [parseFloatMV, h1, h3]
    simp [decimalValue]
  unfold parseFloat
  rw [h4]
  decide!

/-- JavaScript `parseFloat('5 dollars')` is `5`. -/
theorem parseFloat_5_dollars : parseFloat (.str "5 dollars") = .fin 5 := by
  have h1 : "5 dollars".toList.dropWhile isStrWhiteSpaceChar =
      ['5', ' ', 'd', 'o', 'l', 'l', 'a', 'r', 's'] := by decide
  have h3 : parseFloatChars ['5', ' ', 'd', 'o', 'l', 'l', 'a', 'r', 's'] =
      .fin (decimalValue 5 0) := by
    rfl
  have h4 : parseFloatMV (.str "5 dollars") = .fin 5 := by
    rw [parseFloatMV, h1, h3]
    simp [decimalValue]
  unfold parseFloat
  rw [h4]
  decide!

/-- C25. The third freelancer submits on the open `P1` with the bid `'12abc'`,
then (on the same store) with the bid `'5 dollars'`: each submit is answered 201
and stores an application, with the bids `12` and `5`, where the claim says 400
and no application. -/
theorem malformed_bid_accepted :
    postApplication Scenario.twoPending (.ok Scenario.freelancer3)
        { projectId := some (.valid 1), bidAmount := some (.str "12abc"),
          coverLetter := some "I can do it" } 102 3 =
      ({ status := 201, message := "Application submitted successfully!",
         application := some
           { _id := 102, project := 1, freelancer := 22, bidAmount := .fin 12,
             coverLetter := "I can do it", status := "pending", applicationDate := 3 } },
       { projects := [Scenario.P1],
         applications := [Scenario.A1, Scenario.A2,
           { _id := 102, project := 1, freelancer := 22, bidAmount := .fin 12,
             coverLetter := "I can do it", status := "pending", applicationDate := 3 }] }) ∧
    postApplication Scenario.twoPending (.ok Scenario.freelancer3)
        { projectId := some (.valid 1), bidAmount := some (.str "5 dollars"),
          coverLetter := some "I can do it" } 102 3 =
      ({ status := 201, message := "Application submitted successfully!",
         application := some
           { _id := 102, project := 1, freelancer := 22, bidAmount := .fin 5,
             coverLetter := "I can do it", status := "pending", applicationDate := 3 } },
       { projects := [Scenario.P1],
         applications := [Scenario.A1, Scenario.A2,
           { _id := 102, project := 1, freelancer := 22, bidAmount := .fin 5,
             coverLetter := "I can do it", status := "pending", applicationDate := 3 }] }) := by
  constructor
  · rw [postApplication_eq_handler _ _ _ _ _ (by decide), createApplication_full,
      parseFloat_12abc]
    decide
  · rw [postApplication_eq_handler _ _ _ _ _ (by decide), createApplication_full,
      parseFloat_5_dollars]
    decide

/-! ## The revenue of the dashboard -/

/-- A digit or a dot is no white space. -/
theorem not_whiteSpace_of_numeric (c : Char) (h : (isDecimalDigit c || c == '.') = true) :
    isStrWhiteSpaceChar c = false := by
  rw [Bool.or_eq_true] at h
  rcases h with h1 | h1
  · unfold isDecimalDigit at h1
    unfold isStrWhiteSpaceChar
    have h2 : 48 ≤ c.toNat ∧ c.toNat ≤ 57 := by simpa using h1
    obtain ⟨ha, hb⟩ := h2
    simp only [List.contains, List.elem, Bool.or_eq_false_iff]
    generalize c.toNat = n at ha hb
    have e1 : (n == 9) = false := by simp; omega
    have e2 : (n == 10) = false := by simp; omega
    have e3 : (n == 11) = false := by simp; omega
    have e4 : (n == 12) = false := by simp; omega
    have e5 : (n == 13) = false := by simp; omega
    have e6 : (n == 32) = false := by simp; omega
    have e7 : (n == 0xA0) = false := by simp; omega
    have e8 : (n == 0x1680) = false := by simp; omega
    have e9 : (n == 0x2028) = false := by simp; omega
    have e10 : (n == 0x2029) = false := by simp; omega
    have e11 : (n == 0x202F) = false := by simp; omega
    have e12 : (n == 0x205F) = false := by simp; omega
    have e13 : (n == 0x3000) = false := by simp; omega
    have e14 : (n == 0xFEFF) = false := by simp; omega
    have e15 : (decide (0x2000 ≤ n) && decide (n ≤ 0x200A)) = false := by simp; omega
    simp [e1, e2, e3, e4, e5, e6, e7, e8, e9, e10, e11, e12, e13, e14, e15]
  · have hc : c = '.' := by simpa using h1
    subst hc
    decide

set_option maxHeartbeats 4000000 in
/-- On digits and dots `parseFloat` reads an unsigned decimal or nothing. -/
theorem parseFloatChars_numeric (cs : List Char)
    (h : ∀ c ∈ cs, (isDecimalDigit c || c == '.') = true) :
    parseFloatChars cs =
      match unsignedDecimal cs with
      | some (m, e) => .fin (decimalValue m e)
      | none => .nan := by
  cases cs with
  | nil => rfl
  | cons c r =>
    have hc := h c (List.mem_cons_self c r)
    have h1 : c ≠ '-' := by
      intro hh; subst hh; revert hc; decide
    have h2 : c ≠ '+' := by
      intro hh; subst hh; revert hc; decide
    have h3 : c ≠ 'I' := by
      intro hh; subst hh; revert hc; decide
    unfold parseFloatChars
    split
    · rename_i heq
      injection heq with heq _
      exact absurd heq h1
    · rename_i heq
      injection heq with heq _
      exact absurd heq h2
    · rename_i heq
      injection heq with heq _
      exact absurd heq h3
    · rfl

/-- Every character of a stripped budget is a digit or a dot. -/
theorem stripNonNumeric_numeric (budget : String) :
    ∀ c ∈ (stripNonNumeric budget).toList, (isDecimalDigit c || c == '.') = true := by
  intro c hc
  unfold stripNonNumeric at hc
  exact (List.mem_filter.1 hc).2

/-- The stripped budget has no white space in front. -/
theorem dropWhile_whiteSpace_numeric (cs : List Char)
    (h : ∀ c ∈ cs, (isDecimalDigit c || c == '.') = true) :
    cs.dropWhile isStrWhiteSpaceChar = cs := by
  cases cs with
  | nil => rfl
  | cons c r =>
    rw [List.dropWhile_cons_of_neg]
    rw [not_whiteSpace_of_numeric c (h c (List.mem_cons_self c r))]
    decide

/-- The value the dashboard reads from a budget is the number of the
specification. -/
theorem budgetValue_eq (budget : String) : budgetValue budget = .fin (budgetNumber budget) := by
  unfold budgetValue budgetNumber
  show (parseFloatChars
    (List.dropWhile isStrWhiteSpaceChar (stripNonNumeric budget).toList)).orZero = _
  rw [dropWhile_whiteSpace_numeric _ (stripNonNumeric_numeric budget),
    parseFloatChars_numeric _ (stripNonNumeric_numeric budget)]
  cases unsignedDecimal (stripNonNumeric budget).toList with
  | none => rfl
  | some me => rfl

/-- The `reduce` of the dashboard adds up the numbers of the budgets. -/
theorem foldl_budgetValue (projects : List Project) (acc : ℚ) :
    projects.foldl (fun (sum : JsNumber) (project : Project) =>
        sum.add (budgetValue project.budget)) (JsNumber.fin acc) =
      JsNumber.fin (acc + (projects.map (fun p => budgetNumber p.budget)).sum) := by
  induction projects generalizing acc with
  | nil => simp
  | cons p ps ih =>
    rw [List.foldl_cons, budgetValue_eq]
    show List.foldl _ (JsNumber.fin (acc + budgetNumber p.budget)) ps = _
    rw [ih, List.map_cons, List.sum_cons, add_assoc]

/-- A run of dots holds no number. -/
theorem unsignedDecimal_dots (cs : List Char) (h : ∀ c ∈ cs, c = '.') :
    unsignedDecimal cs = none := by
  cases cs with
  | nil => rfl
  | cons c r =>
    have hc := h c (List.mem_cons_self c r)
    subst hc
    cases r with
    | nil => rfl
    | cons d r2 =>
      have hd := h d (List.mem_cons_of_mem _ (List.mem_cons_self d r2))
      subst hd
      rfl

/-- C26. The `totalRevenue` of the dashboard is the sum, over exactly the
projects with status `completed`, of the number read from the digits and dots
of the budget, or 0 when nothing parseable remains; an admin gets this figure.
A budget without a digit contributes 0, and the budgets `500` and `$1200`
contribute 500 and 1200. -/
theorem total_revenue_is_sum (s : Database) (user : User) (hadmin : user.role = "admin") :
    totalRevenue s.store.projects =
      .fin (((s.store.projects.filter (fun p => p.status == "completed")).map
        (fun p => budgetNumber p.budget)).sum) ∧
    (∃ d : DashboardStats, getDashboardStats s (.ok user) = .ok d ∧
      d.totalRevenue = totalRevenue s.store.projects) ∧
    (∀ budget : String, (∀ c ∈ budget.toList, isDecimalDigit c = false) →
      budgetValue budget = .fin 0) ∧
    budgetValue "500" = .fin 500 ∧ budgetValue "$1200" = .fin 1200 := by
  refine ⟨?_, ?_, ?_, ?_, ?_⟩
  · unfold totalRevenue
    rw [foldl_budgetValue, zero_add]
  · simp [getDashboardStats, protect, authorizeRoles_admin user hadmin]
  · intro budget hb
    rw [budgetValue_eq]
    unfold budgetNumber
    rw [unsignedDecimal_dots]
    intro c hc
    have hnum := stripNonNumeric_numeric budget c hc
    have hmem : c ∈ budget.toList := by
      unfold stripNonNumeric at hc
      exact (List.mem_filter.1 hc).1
    rw [hb c hmem] at hnum
    simpa using hnum
  · rw [budgetValue_eq]
    have h : unsignedDecimal (stripNonNumeric "500").toList = some (500, 0) := by rfl
    unfold budgetNumber
    rw [h]
    simp [decimalValue]
  · rw [budgetValue_eq]
    have h : unsignedDecimal (stripNonNumeric "$1200").toList = some (1200, 0) := by rfl
    unfold budgetNumber
    rw [h]
    simp [decimalValue]

/-- Witness of C26: an admin's dashboard when `P1` is completed, and the
budget `negotiable`, which contributes 0. -/
theorem total_revenue_is_sum_witness :
    totalRevenue Scenario.completed.projects =
      .fin (((Scenario.completed.projects.filter (fun p => p.status == "completed")).map
        (fun p => budgetNumber p.budget)).sum) ∧
    budgetValue "negotiable" = .fin 0 :=
  ⟨(total_revenue_is_sum { users := Scenario.users, store := Scenario.completed }
      Scenario.admin (by decide)).1,
   (total_revenue_is_sum { users := Scenario.users, store := Scenario.twoPending }
      Scenario.admin (by decide)).2.2.1 "negotiable" (by decide)⟩

/-! ## The general update of a project -/

/-- After a document is replaced, the replacement is found in its place. -/
theorem find?_updateOne_const {α : Type} (filter : α → Bool) (y : α) (xs : List α)
    (hy : filter y = true) (x : α) (hx : xs.find? filter = some x) :
    (updateOne filter (fun _ => y) xs).find? filter = some y := by
  rw [find?_updateOne filter (fun _ => y) xs (fun _ _ => hy), hx]
  rfl

/-- For a client or an admin the general update is its handler. -/
theorem putProject_eq_handler (db : Store) (user : User) (id : IdParam)
    (body : ProjectUpdateBody) (h : user.role = "client" ∨ user.role = "admin") :
    putProject db (.ok user) id body = updateProject db user id body := by
  simp [putProject, protect, authorizeRoles_client_admin user h]

/-- The `save` of the general update: a 400 that leaves the store, or the
project written in place of the old one. -/
theorem saveProjectUpdate_cases (db : Store) (old project : Project) :
    saveProjectUpdate db old project =
      ({ status := 400, message := "Validation failed: Path `title` is required." }, db) ∨
    saveProjectUpdate db old project =
      ({ status := 200, message := "Project updated successfully!", project := some project },
       { projects := updateOne (fun q => q._id == old._id) (fun _ => project) db.projects,
         applications := db.applications }) := by
  unfold saveProjectUpdate
  split
  · exact Or.inl rfl
  · exact Or.inr rfl

/-- The general update on an existing project by its owner or an admin: a 400
that leaves the store, or the project with its new title, description, budget,
skills and assignment written in place of the old one. -/
theorem updateProject_cases (db : Store) (user : User) (pid : ObjectId) (p : Project)
    (body : ProjectUpdateBody) (hp : Project.findById db.projects pid = some p)
    (hauth : ¬ (p.client ≠ user.id ∧ user.role ≠ "admin")) :
    ((updateProject db user (.valid pid) body).1.status = 400 ∧
      (updateProject db user (.valid pid) body).2 = db) ∨
    (∃ assignee : Option ObjectId,
      (body.assignedTo = none → assignee = p.assignedTo) ∧
      (updateProject db user (.valid pid) body).1.status = 200 ∧
      (updateProject db user (.valid pid) body).2 =
        { projects := updateOne (fun q => q._id == p._id)
            (fun _ => { applyProjectUpdate p body with assignedTo := assignee }) db.projects,
          applications := db.applications }) := by
  simp only [updateProject, hp, hauth, if_false]
  cases hbody : body.assignedTo with
  | none =>
    dsimp only
    rcases saveProjectUpdate_cases db p (applyProjectUpdate p body) with h | h
    · rw [h]; exact Or.inl ⟨rfl, rfl⟩
    · rw [h]; exact Or.inr ⟨p.assignedTo, fun _ => rfl, rfl, rfl⟩
  | some v =>
    cases v with
    | none =>
      dsimp only
      rcases saveProjectUpdate_cases db p
        { applyProjectUpdate p body with assignedTo := none } with h | h
      · rw [h]; exact Or.inl ⟨rfl, rfl⟩
      · rw [h]; exact Or.inr ⟨none, fun hh => Option.noConfusion hh, rfl, rfl⟩
    | some idp =>
      cases idp with
      | invalid => exact Or.inl ⟨rfl, rfl⟩
      | valid assignee =>
        dsimp only
        rcases saveProjectUpdate_cases db p
          { applyProjectUpdate p body with assignedTo := some assignee } with h | h
        · rw [h]; exact Or.inl ⟨rfl, rfl⟩
        · rw [h]; exact Or.inr ⟨some assignee, fun hh => Option.noConfusion hh, rfl, rfl⟩

/-- C27. The general update of an existing project `p` by its owning client
or an admin leaves all applications as they were, and the project found under
the id afterwards has the id, the status, the client and the `assignedAt` of
`p`; its title (when the stored title is trimmed, as the schema stores it), its
description and its budget are those of `p` when the supplied value is missing
or empty, its skills are those of `p` when none are supplied, and its
`assignedTo` is that of `p` when none is supplied. Every other project is as
before. A malformed non-null `assignedTo` is answered 400 and the store is as
before. -/
theorem general_update_frame (db : Store) (user : User) (pid : ObjectId) (p : Project)
    (body : ProjectUpdateBody) (hp : Project.findById db.projects pid = some p)
    (hactor : (user.role = "client" ∧ user.id = p.client) ∨ user.role = "admin") :
    (putProject db (.ok user) (.valid pid) body).2.applications = db.applications ∧
    (∃ q : Project,
      Project.findById (putProject db (.ok user) (.valid pid) body).2.projects pid = some q ∧
      q._id = p._id ∧ q.status = p.status ∧ q.client = p.client ∧
      q.assignedAt = p.assignedAt ∧
      ((body.title = none ∨ body.title = some "") → jsTrim p.title = p.title →
        q.title = p.title) ∧
      ((body.description = none ∨ body.description = some "") →
        q.description = p.description) ∧
      ((body.budget = none ∨ body.budget = some "") → q.budget = p.budget) ∧
      (body.skillsRequired = none → q.skillsRequired = p.skillsRequired) ∧
      (body.assignedTo = none → q.assignedTo = p.assignedTo)) ∧
    (putProject db (.ok user) (.valid pid) body).2.projects.length = db.projects.length ∧
    (∀ (i : Nat) (q : Project), db.projects[i]? = some q → q._id ≠ pid →
      (putProject db (.ok user) (.valid pid) body).2.projects[i]? = some q) ∧
    (body.assignedTo = some (some .invalid) →
      putProject db (.ok user) (.valid pid) body =
        ({ status := 400, message := "Invalid assignedTo user ID format." }, db)) := by
  have hauth := owner_or_admin_passes user p hactor
  have hpid := project_findById_id hp
  have hfalsy : ∀ (v : Option String) (d : String), (v = none ∨ v = some "") → jsOr v d = d := by
    intro v d hv
    rcases hv with h | h <;> simp [h, jsOr]
  refine ⟨putProject_applications db (.ok user) (.valid pid) body, ?_, ?_, ?_, ?_⟩
  · rw [putProject_eq_handler db user _ _ (owner_or_admin_role user p hactor)]
    rcases updateProject_cases db user pid p body hp hauth with ⟨_, h⟩ | ⟨assignee, ha, _, h⟩
    · rw [h]
      exact ⟨p, hp, rfl, rfl, rfl, rfl, fun _ _ => rfl, fun _ => rfl, fun _ => rfl,
        fun _ => rfl, fun _ => rfl⟩
    · rw [h]
      refine ⟨{ applyProjectUpdate p body with assignedTo := assignee }, ?_, rfl, rfl, rfl,
        rfl, ?_, ?_, ?_, ?_, ?_⟩
      · show Project.findById (updateOne _ _ db.projects) pid = _
        unfold Project.findById at hp ⊢
        rw [← hpid]
        rw [← hpid] at hp
        have hfind := find?_updateOne_const (fun q : Project => q._id == p._id)
          { applyProjectUpdate p body with assignedTo := assignee } db.projects
          (by simp [applyProjectUpdate]) p hp
        exact hfind
      · intro hv htrim
        show jsTrim (jsOr body.title p.title) = p.title
        rw [hfalsy _ _ hv, htrim]
      · intro hv
        exact hfalsy _ _ hv
      · intro hv
        exact hfalsy _ _ hv
      · intro hv
        show body.skillsRequired.getD p.skillsRequired = p.skillsRequired
        rw [hv]; rfl
      · intro hv
        exact ha hv
  · rw [putProject_eq_handler db user _ _ (owner_or_admin_role user p hactor)]
    rcases updateProject_cases db user pid p body hp hauth with ⟨_, h⟩ | ⟨assignee, _, _, h⟩
    · rw [h]
    · rw [h]; exact updateOne_length _ _ _
  · intro i q hq hne
    rw [putProject_eq_handler db user _ _ (owner_or_admin_role user p hactor)]
    rcases updateProject_cases db user pid p body hp hauth with ⟨_, h⟩ | ⟨assignee, _, _, h⟩
    · rw [h]; exact hq
    · rw [h]
      exact updateOne_getElem?_of_false (fun q => q._id == p._id) _ db.projects i q hq
        (by simpa [hpid] using hne)
  · intro hbad
    rw [putProject_eq_handler db user _ _ (owner_or_admin_role user p hactor)]
    simp only [updateProject, hp, hauth, if_false, hbad]

/-- Witness of C27: the owner of the assigned `P1` sends a new budget only;
the status, the client and the assignment stay, `P2` stays, and a malformed
`assignedTo` is answered 400. -/
theorem general_update_frame_witness :
    (putProject Scenario.twoProjects (.ok Scenario.client) (.valid 1)
      { title := none, description := some "", budget := some "$700", skillsRequired := none,
        assignedTo := none }).2.applications = Scenario.twoProjects.applications ∧
    (putProject Scenario.twoProjects (.ok Scenario.client) (.valid 1)
      { title := none, description := some "", budget := some "$700", skillsRequired := none,
        assignedTo := none }).2.projects[1]? = some Scenario.P2 ∧
    putProject Scenario.twoProjects (.ok Scenario.client) (.valid 1)
        { title := none, description := none, budget := none, skillsRequired := none,
          assignedTo := some (some .invalid) } =
      ({ status := 400, message := "Invalid assignedTo user ID format." },
       Scenario.twoProjects) :=
  ⟨(general_update_frame Scenario.twoProjects Scenario.client 1
      { Scenario.P1 with assignedTo := some 20, status := "assigned" }
      { title := none, description := some "", budget := some "$700", skillsRequired := none,
        assignedTo := none } (by decide) (by decide)).1,
   (general_update_frame Scenario.twoProjects Scenario.client 1
      { Scenario.P1 with assignedTo := some 20, status := "assigned" }
      { title := none, description := some "", budget := some "$700", skillsRequired := none,
        assignedTo := none } (by decide) (by decide)).2.2.2.1 1 Scenario.P2
      (by decide) (by decide),
   (general_update_frame Scenario.twoProjects Scenario.client 1
      { Scenario.P1 with assignedTo := some 20, status := "assigned" }
      { title := none, description := none, budget := none, skillsRequired := none,
        assignedTo := some (some .invalid) } (by decide) (by decide)).2.2.2.2 rfl⟩

/-! ## The order of the checks of the status change -/

/-- C28. For a caller the role gate lets through, the status change runs its
checks in this order: an id that resolves to no application is answered 404;
then a missing parent project, or an actor who is neither the client of the
project nor an admin, is answered 403, whatever the state of the project; then
a completed project is answered 400, whatever the requested status; then, for
`accepted`, a project with somebody assigned is answered 400. So a client who
does not own a completed project is answered 403. And whenever the answer is
not 200 the store is as before. -/
theorem status_change_check_order (db : Store) (user : User) (aid : ObjectId) (status : String)
    (hrole : user.role = "client" ∨ user.role = "admin") :
    (Application.findById db.applications aid = none →
      putApplicationStatus db (.ok user) (.valid aid) status =
        ({ status := 404, message := "Application not found." }, db)) ∧
    (∀ a : Application, Application.findById db.applications aid = some a →
      (Project.findById db.projects a.project = none ∨
        ∃ p : Project, Project.findById db.projects a.project = some p ∧
          p.client ≠ user.id ∧ user.role ≠ "admin") →
      putApplicationStatus db (.ok user) (.valid aid) status =
        ({ status := 403, message := "Not authorized to update this application." }, db)) ∧
    (∀ (a : Application) (p : Project), Application.findById db.applications aid = some a →
      Project.findById db.projects a.project = some p →
      ¬ (p.client ≠ user.id ∧ user.role ≠ "admin") → p.status = "completed" →
      putApplicationStatus db (.ok user) (.valid aid) status =
        ({ status := 400,
           message := "Cannot change application status for a completed project." }, db)) ∧
    (∀ (a : Application) (p : Project), Application.findById db.applications aid = some a →
      Project.findById db.projects a.project = some p →
      ¬ (p.client ≠ user.id ∧ user.role ≠ "admin") → p.status ≠ "completed" →
      status = "accepted" → p.assignedTo.isSome = true →
      putApplicationStatus db (.ok user) (.valid aid) status =
        ({ status := 400, message := "Project is already assigned to a freelancer." }, db)) ∧
    (∀ (a : Application) (p : Project), Application.findById db.applications aid = some a →
      Project.findById db.projects a.project = some p →
      user.role = "client" → user.id ≠ p.client → p.status = "completed" →
      (putApplicationStatus db (.ok user) (.valid aid) status).1.status = 403) ∧
    ((putApplicationStatus db (.ok user) (.valid aid) status).1.status ≠ 200 →
      (putApplicationStatus db (.ok user) (.valid aid) status).2 = db) := by
  have h403 : ∀ a : Application, Application.findById db.applications aid = some a →
      (Project.findById db.projects a.project = none ∨
        ∃ p : Project, Project.findById db.projects a.project = some p ∧
          p.client ≠ user.id ∧ user.role ≠ "admin") →
      putApplicationStatus db (.ok user) (.valid aid) status =
        ({ status := 403, message := "Not authorized to update this application." }, db) := by
    intro a ha h
    rw [putApplicationStatus_eq_handler db user _ _ hrole]
    rcases h with hp | ⟨p, hp, hno⟩
    · simp only [updateApplicationStatus, ha, hp]
    · simp only [updateApplicationStatus, ha, hp]
      rw [if_pos hno]
  refine ⟨?_, h403, ?_, ?_, ?_, ?_⟩
  · intro ha
    rw [putApplicationStatus_eq_handler db user _ _ hrole]
    simp only [updateApplicationStatus, ha]
  · intro a p ha hp hauth hc
    rw [putApplicationStatus_eq_handler db user _ _ hrole]
    simp only [updateApplicationStatus, ha, hp, hauth, hc, if_true, if_false]
  · intro a p ha hp hauth hnc hs hassigned
    subst hs
    rw [putApplicationStatus_eq_handler db user _ _ hrole]
    exact updateApplicationStatus_assigned db user aid a p ha hp hauth hnc hassigned
  · intro a p ha hp hclient hown _
    have hadmin : user.role ≠ "admin" := by rw [hclient]; decide
    rw [h403 a ha (Or.inr ⟨p, hp, fun h => hown h.symm, hadmin⟩)]
  · intro hne
    rcases putApplicationStatus_ok_or_unchanged db (.ok user) (.valid aid) status with h | h
    · exact absurd h hne
    · exact h

/-- Witness of C28: on the completed `P1` the other client is answered 403 and
the owner 400; an unknown id is answered 404. -/
theorem status_change_check_order_witness :
    (putApplicationStatus Scenario.completed (.ok Scenario.otherClient) (.valid 100)
      "rejected").1.status = 403 ∧
    putApplicationStatus Scenario.completed (.ok Scenario.client) (.valid 100) "rejected" =
      ({ status := 400,
         message := "Cannot change application status for a completed project." },
       Scenario.completed) ∧
    putApplicationStatus Scenario.completed (.ok Scenario.client) (.valid 999) "rejected" =
      ({ status := 404, message := "Application not found." }, Scenario.completed) ∧
    (putApplicationStatus Scenario.completed (.ok Scenario.otherClient) (.valid 100)
      "rejected").2 = Scenario.completed :=
  ⟨(status_change_check_order Scenario.completed Scenario.otherClient 100 "rejected"
      (by decide)).2.2.2.2.1 { Scenario.A1 with status := "accepted" }
      { Scenario.P1 with status := "completed", assignedTo := some 20 }
      (by decide) (by decide) (by decide) (by decide) (by decide),
   (status_change_check_order Scenario.completed Scenario.client 100 "rejected"
      (by decide)).2.2.1 { Scenario.A1 with status := "accepted" }
      { Scenario.P1 with status := "completed", assignedTo := some 20 }
      (by decide) (by decide) (by decide) (by decide),
   (status_change_check_order Scenario.completed Scenario.client 999 "rejected"
      (by decide)).1 (by decide),
   (status_change_check_order Scenario.completed Scenario.otherClient 100 "rejected"
      (by decide)).2.2.2.2.2 (by decide)⟩

/-! ## Deleting an application leaves the projects -/

/-- The delete of an application under a malformed id leaves the store. -/
theorem deleteApplication_invalid (db : Store) (auth : Auth) :
    (deleteApplication db auth .invalid).2 = db := by
  unfold deleteApplication
  cases protect auth with
  | error r => rfl
  | ok user =>
    dsimp only
    cases authorizeRoles ["freelancer", "admin"] (some user) with
    | error r => rfl
    | ok _ => rfl

/-- The store after the delete of the application under a well-formed id: the
store before, or the store before without the first application under that
id. -/
theorem deleteApplication_store_valid (db : Store) (auth : Auth) (aid : ObjectId) :
    (deleteApplication db auth (.valid aid)).2 = db ∨
    (deleteApplication db auth (.valid aid)).2 =
      { projects := db.projects,
        applications := deleteOne (fun a => a._id == aid) db.applications } := by
  unfold deleteApplication
  cases protect auth with
  | error r => exact Or.inl rfl
  | ok user =>
    dsimp only
    cases authorizeRoles ["freelancer", "admin"] (some user) with
    | error r => exact Or.inl rfl
    | ok _ =>
      dsimp only
      unfold removeApplication
      dsimp only
      cases Application.findById db.applications aid with
      | none => exact Or.inl rfl
      | some a =>
        dsimp only
        split
        · exact Or.inl rfl
        · exact Or.inr rfl

/-- C29. A delete of an application, answered 200 or not, whatever the status
of the application, leaves every project as it was; and every application
other than the one under the id is still in the store, as it was. -/
theorem application_delete_keeps_projects (db : Store) (auth : Auth) (id : IdParam) :
    (deleteApplication db auth id).2.projects = db.projects ∧
    (∀ (aid : ObjectId) (a : Application), id = .valid aid →
      Application.findById db.applications aid = some a →
      ∀ b ∈ db.applications, b ≠ a → b ∈ (deleteApplication db auth id).2.applications) ∧
    (∀ b ∈ (deleteApplication db auth id).2.applications, b ∈ db.applications) := by
  cases id with
  | invalid =>
    rw [deleteApplication_invalid]
    exact ⟨rfl, fun _ _ _ _ b hb _ => hb, fun b hb => hb⟩
  | valid aid1 =>
    rcases deleteApplication_store_valid db auth aid1 with h | h
    · rw [h]
      exact ⟨rfl, fun _ _ _ _ b hb _ => hb, fun b hb => hb⟩
    · rw [h]
      refine ⟨rfl, ?_, ?_⟩
      · intro aid a hv ha b hb hne
        injection hv with hv
        subst hv
        show b ∈ deleteOne _ db.applications
        rw [deleteOne_eq_erase (fun c : Application => c._id == aid1) db.applications a ha]
        exact (List.mem_erase_of_ne hne).2 hb
      · intro b hb
        exact (deleteOne_sublist _ _).subset hb

/-- Witness of C29: freelancer `20` deletes the accepted `A1`; `P1` is still
assigned to `20` with status `assigned`, and the rejected `A2` is still there. -/
theorem application_delete_keeps_projects_witness :
    (deleteApplication Scenario.twoProjects (.ok Scenario.freelancer1) (.valid 100)).2.projects =
      [{ Scenario.P1 with assignedTo := some 20, status := "assigned" }, Scenario.P2] ∧
    ({ Scenario.A2 with status := "rejected" } : Application) ∈
      (deleteApplication Scenario.twoProjects (.ok Scenario.freelancer1)
        (.valid 100)).2.applications :=
  ⟨(application_delete_keeps_projects Scenario.twoProjects (.ok Scenario.freelancer1)
      (.valid 100)).1,
   (application_delete_keeps_projects Scenario.twoProjects (.ok Scenario.freelancer1)
      (.valid 100)).2.1 100 { Scenario.A1 with status := "accepted" } rfl (by decide)
      { Scenario.A2 with status := "rejected" } (by decide) (by decide)⟩

/-! ## The role gate -/

/-- C30. The middleware `authorizeRoles(roles)` calls `next` (and sends
nothing) if and only if a user is attached to the request and the role of the
user is one of `roles`; otherwise it sends a response with status 403 (and does
not call `next`). -/
theorem authorizeRoles_iff (roles : List String) (user : Option User) :
    (authorizeRoles roles user = .ok () ↔ ∃ u : User, user = some u ∧ u.role ∈ roles) ∧
    ((¬ ∃ u : User, user = some u ∧ u.role ∈ roles) →
      ∃ r : Response, authorizeRoles roles user = .error r ∧ r.status = 403) := by
  cases user with
  | none =>
    refine ⟨⟨fun h => ?_, fun h => ?_⟩, fun _ => ⟨_, rfl, rfl⟩⟩
    · simp [authorizeRoles] at h
    · obtain ⟨u, hu, _⟩ := h
      exact Option.noConfusion hu
  | some u =>
    by_cases hr : u.role ∈ roles
    · have hc : roles.contains u.role = true := by simpa using hr
      refine ⟨⟨fun _ => ⟨u, rfl, hr⟩, fun _ => ?_⟩, fun hno => absurd ⟨u, rfl, hr⟩ hno⟩
      simp only [authorizeRoles, hc, if_true]
    · have hc : ¬ (roles.contains u.role = true) := by simpa using hr
      refine ⟨⟨fun h => ?_, fun h => ?_⟩, fun _ =>
        ⟨{ status := 403,
           message := "User role " ++ u.role ++ " is not authorized to access this route" },
         ?_, rfl⟩⟩
      · unfold authorizeRoles at h
        dsimp only at h
        rw [if_neg hc] at h
        exact Except.noConfusion h
      · obtain ⟨v, hv, hvr⟩ := h
        injection hv with hv
        subst hv
        exact absurd hvr hr
      · unfold authorizeRoles
        dsimp only
        rw [if_neg hc]

/-- Witness of C30: the gate of the status change lets the client through and
answers 403 to the freelancer and to a request without a user. -/
theorem authorizeRoles_iff_witness :
    authorizeRoles ["client", "admin"] (some Scenario.client) = .ok () ∧
    (∃ r : Response, authorizeRoles ["client", "admin"] (some Scenario.freelancer1) =
      .error r ∧ r.status = 403) ∧
    (∃ r : Response, authorizeRoles ["client", "admin"] none = .error r ∧ r.status = 403) :=
  ⟨(authorizeRoles_iff ["client", "admin"] (some Scenario.client)).1.2
      ⟨Scenario.client, rfl, by decide⟩,
   (authorizeRoles_iff ["client", "admin"] (some Scenario.freelancer1)).2
      (by
        rintro ⟨u, hu, hr⟩
        injection hu with hu
        subst hu
        revert hr
        decide),
   (authorizeRoles_iff ["client", "admin"] none).2
      (by
        rintro ⟨u, hu, _⟩
        exact Option.noConfusion hu)⟩

end FreelanceFinder
